import Mathlib

/-!
# Roothash transaction processing

A shallow embedding of `go/consensus/cometbft/apps/roothash/transactions.go`:
`getRuntimeState`, `executorCommit`, `submitEvidence` and `submitMsg`, together with
the collaborators they call (execution context, gas accountant, state accessors,
staking ledger), and the properties proved about them. The `Registry` part of the file
embeds `go/runtime/registry/host_rofl_mgmt.go`.

Conventions.
* A Go `error` result is an `Option Error`; `none` is `nil`.
* Every operation returns the context it leaves behind, so that gas, emitted events,
  the state tree and the record of collaborator calls can be inspected afterwards.
* `quantity.Quantity` is an arbitrary precision non-negative integer, hence `Nat`;
  `uint64` counters are `Nat` with an explicit `% 2 ^ 64` at every addition.
-/

namespace Roothash

/-! ## Identifiers and errors -/

/-- Runtime identifier (`common.Namespace`). -/
abbrev Namespace := Nat

/-- Staking account address (`staking.Address`). -/
abbrev Address := Nat

/-- Node public key (`signature.PublicKey`). -/
abbrev PublicKey := Nat

/-- Content hash (`hash.Hash`). -/
abbrev Hash := Nat

/-- Token amount (`quantity.Quantity`). -/
abbrev Quantity := Nat

/-- Errors returned by the transaction handlers. The first eight are the sentinel
errors of the roothash API used in this file; `ErrInvalidRuntime`, `ErrOutOfGas` and
`ErrInsufficientBalance` are the sentinels of the state accessor, the gas accountant
and the staking ledger; `nilPointerDereference` stands for the Go runtime panic on a
nil pointer; `collaborator` is an error produced by
code outside this file (state storage, commitment verification, pool admission,
staking), identified by a numeric code; the remaining constructors are the
`fmt.Errorf` wrappers built by the handlers. -/
inductive Error where
  | ErrRuntimeSuspended
  | ErrNoCommittee
  | ErrNoExecutorPool
  | ErrInvalidEvidence
  | ErrRuntimeDoesNotSlash
  | ErrDuplicateEvidence
  | ErrIncomingMessageQueueFull
  | ErrIncomingMessageInsufficientFee
  | ErrInvalidRuntime
  | ErrOutOfGas
  | ErrInsufficientBalance
  | nilPointerDereference
  | collaborator (code : Nat)
  | failedToFetchRuntimeState (cause : Error)
  | failedToSetRuntimeState (cause : Error)
  | invalidEvidence (detail : Error)
  | evidenceExpired
  | computingEvidenceHash (cause : Error)
  | queryingEvidenceHash (cause : Error)
  | slashingRuntimeNode (cause : Error)
  deriving DecidableEq, Repr

/-- The sentinel an error value matches under `errors.Is`: `%w` wrappers are followed
down to the wrapped error. `invalidEvidence` and `evidenceExpired` wrap
`ErrInvalidEvidence` (the detail of the former is formatted with `%v`, not wrapped). -/
def Error.unwrap : Error → Error
  | .failedToFetchRuntimeState c => c.unwrap
  | .failedToSetRuntimeState c => c.unwrap
  | .invalidEvidence _ => .ErrInvalidEvidence
  | .evidenceExpired => .ErrInvalidEvidence
  | .computingEvidenceHash c => c.unwrap
  | .queryingEvidenceHash c => c.unwrap
  | .slashingRuntimeNode c => c.unwrap
  | e => e

/-! ## Data model -/

/-- Gas operation identifiers (`transaction.Op`) used by the three handlers. -/
inductive Op where
  | GasOpComputeCommit
  | GasOpEvidence
  | GasOpSubmitMsg
  deriving DecidableEq, Repr

/-- Consensus parameters read by the handlers: the gas cost table and the maximum
evidence age in rounds. -/
structure ConsensusParameters where
  GasCosts : Op → Option Nat
  MaxEvidenceAge : Nat

/-- Executor commitment (`commitment.ExecutorCommitment`), reduced to the fields the
handlers read; `body` stands for the rest of the signed header. -/
structure ExecutorCommitment where
  NodeID : PublicKey
  SchedulerID : PublicKey
  Round : Nat
  body : Nat
  deriving DecidableEq, Repr

/-- Batch proposal (`commitment.Proposal`), reduced to the fields the handlers read. -/
structure Proposal where
  NodeID : PublicKey
  Round : Nat
  body : Nat
  deriving DecidableEq, Repr

/-- Scheduler committee (`scheduler.Committee`). -/
structure Committee where
  ValidFor : Nat
  Members : List PublicKey
  deriving DecidableEq, Repr

/-- Commitment pool (`commitment.Pool`). -/
structure Pool where
  HighestRank : Nat
  Commits : List ExecutorCommitment
  deriving DecidableEq, Repr

/-- Block header fields read by the handlers. -/
structure Header where
  Round : Nat
  deriving DecidableEq, Repr

/-- Annotated block (`block.Block`). -/
structure Block where
  Header : Header
  deriving DecidableEq, Repr

/-- Executor parameters of a runtime descriptor. -/
structure ExecutorParameters where
  RoundTimeout : Int
  deriving DecidableEq, Repr

/-- Transaction scheduler parameters of a runtime descriptor. -/
structure TxnSchedulerParameters where
  MaxInMessages : Nat
  deriving DecidableEq, Repr

/-- Slashing reasons (`staking.SlashReason`). -/
inductive SlashReason where
  | SlashConsensusEquivocation
  | SlashBeaconInvalidCommit
  | SlashRuntimeIncorrectResults
  | SlashRuntimeEquivocation
  | SlashRuntimeLiveness
  deriving DecidableEq, Repr

/-- Slashing instructions (`staking.Slash`). -/
structure Slash where
  Amount : Quantity
  deriving DecidableEq, Repr

/-- Staking parameters of a runtime descriptor. `Slashing` is a Go map, kept as an
association list read with `slashingLookup`. -/
structure RuntimeStakingParameters where
  Slashing : List (SlashReason × Slash)
  MinInMessageFee : Quantity
  deriving DecidableEq, Repr

/-- Runtime descriptor (`registry.Runtime`). -/
structure Runtime where
  ID : Namespace
  Executor : ExecutorParameters
  TxnScheduler : TxnSchedulerParameters
  Staking : RuntimeStakingParameters
  deriving DecidableEq, Repr

/-- Per-runtime state (`roothash.RuntimeState`). `Committee` and `CommitmentPool` are Go
pointers, `none` being `nil`. -/
structure RuntimeState where
  Runtime : Runtime
  Suspended : Bool
  LastBlock : Block
  Committee : Option Committee
  CommitmentPool : Option Pool
  NextTimeout : Int
  deriving DecidableEq, Repr

/-- Transaction body of `executorCommit` (`roothash.ExecutorCommit`). -/
structure ExecutorCommit where
  ID : Namespace
  Commits : List ExecutorCommitment
  deriving DecidableEq, Repr

/-- Evidence of executor equivocation. -/
structure EquivocationExecutorEvidence where
  CommitA : ExecutorCommitment
  CommitB : ExecutorCommitment
  deriving DecidableEq, Repr

/-- Evidence of proposal equivocation. -/
structure EquivocationProposalEvidence where
  ProposalA : Proposal
  ProposalB : Proposal
  deriving DecidableEq, Repr

/-- Transaction body of `submitEvidence` (`roothash.Evidence`); both variants are Go
pointers. -/
structure Evidence where
  ID : Namespace
  EquivocationExecutor : Option EquivocationExecutorEvidence
  EquivocationProposal : Option EquivocationProposalEvidence
  deriving DecidableEq, Repr

/-- Transaction body of `submitMsg` (`roothash.SubmitMsg`). -/
structure SubmitMsg where
  ID : Namespace
  Tag : Nat
  Fee : Quantity
  Tokens : Quantity
  Data : List Nat
  deriving DecidableEq, Repr

/-- Queued incoming message (`message.IncomingMessage`). -/
structure IncomingMessage where
  ID : Nat
  Caller : Address
  Tag : Nat
  Fee : Quantity
  Tokens : Quantity
  Data : List Nat
  deriving DecidableEq, Repr

/-- Incoming queue metadata (`message.IncomingMessageQueueMeta`). -/
structure IncomingMessageQueueMeta where
  Size : Nat
  NextSequenceNumber : Nat
  deriving DecidableEq, Repr

/-- Event emitted for an accepted commitment: an `ExecutorCommittedEvent` attribute
together with a `RuntimeIDAttribute`. -/
structure Event where
  Commit : ExecutorCommitment
  ID : Namespace
  deriving DecidableEq, Repr

/-! ## State tree, nested transactions and the execution context -/

/-- Modelled from the spec: the persisted consensus state (`ctx.State()`), whose
implementation is outside these sources, as far as the handlers read or write it:
the roothash keys (consensus parameters, runtime states, incoming queues, evidence
hashes, scheduled round timeouts) and the staking general balances. -/
structure Tree where
  consensusParameters : ConsensusParameters
  runtimeStates : Namespace → Option RuntimeState
  incomingMessageQueueMeta : Namespace → IncomingMessageQueueMeta
  incomingMessageQueue : Namespace → Nat → Option IncomingMessage
  evidenceHashes : Namespace → Nat → Hash → Bool
  roundTimeouts : Namespace → Int → Bool
  balances : Address → Quantity

/-- Modelled from the spec: one write to the state tree. -/
inductive Write where
  | SetRuntimeState (rtState : RuntimeState)
  | SetIncomingMessageInQueue (id : Namespace) (msg : IncomingMessage)
  | SetIncomingMessageQueueMeta (id : Namespace) (md : IncomingMessageQueueMeta)
  | SetEvidenceHash (id : Namespace) (round : Nat) (h : Hash)
  | ClearRoundTimeout (id : Namespace) (height : Int)
  | ScheduleRoundTimeout (id : Namespace) (height : Int)
  | SetBalance (addr : Address) (amount : Quantity)
  | SetBalances (balances : Address → Quantity)

/-- Modelled from the spec: the effect of one write on a tree. -/
def Tree.apply (t : Tree) : Write → Tree
  | .SetRuntimeState rtState =>
    { t with runtimeStates := fun id =>
        if id = rtState.Runtime.ID then some rtState else t.runtimeStates id }
  | .SetIncomingMessageInQueue id msg =>
    { t with incomingMessageQueue := fun i n =>
        if i = id ∧ n = msg.ID then some msg else t.incomingMessageQueue i n }
  | .SetIncomingMessageQueueMeta id md =>
    { t with incomingMessageQueueMeta := fun i =>
        if i = id then md else t.incomingMessageQueueMeta i }
  | .SetEvidenceHash id round h =>
    { t with evidenceHashes := fun i r x =>
        if i = id ∧ r = round ∧ x = h then true else t.evidenceHashes i r x }
  | .ClearRoundTimeout id height =>
    { t with roundTimeouts := fun i x =>
        if i = id ∧ x = height then false else t.roundTimeouts i x }
  | .ScheduleRoundTimeout id height =>
    { t with roundTimeouts := fun i x =>
        if i = id ∧ x = height then true else t.roundTimeouts i x }
  | .SetBalance addr amount =>
    { t with balances := fun a => if a = addr then amount else t.balances a }
  | .SetBalances balances => { t with balances := balances }

/-- Execution mode of a context (`abciAPI.ContextMode`). -/
inductive ContextMode where
  | CheckTx
  | SimulateTx
  | ExecuteTx
  deriving DecidableEq, Repr

/-- Gas accountant of a context (`ctx.Gas()`). -/
structure GasAccountant where
  maxUsedGas : Nat
  usedGas : Nat
  deriving DecidableEq, Repr

/-- State accessors and collaborators whose call can return an error. -/
inductive Accessor where
  | ConsensusParameters
  | RuntimeState
  | SetRuntimeState
  | IncomingMessageQueueMeta
  | SetIncomingMessageInQueue
  | SetIncomingMessageQueueMeta
  | EvidenceHashExists
  | SetEvidenceHash
  | rearmRoundTimeout
  | Transfer
  deriving DecidableEq, Repr

/-- Record of a call made to a collaborator, in the order the calls are made. -/
inductive Call where
  | ConsensusParameters
  | UseGas (multiplier : Nat) (op : Op)
  | RuntimeState (id : Namespace)
  | DeliverExecutorCommitment (id : Namespace) (ec : ExecutorCommitment)
  | VerifyExecutorCommitment (ec : ExecutorCommitment)
  | AddVerifiedExecutorCommitment (ec : ExecutorCommitment)
  | NewTransaction
  | Commit
  | rearmRoundTimeout (id : Namespace) (round : Nat) (prevTimeout nextTimeout : Int)
  | SetRuntimeState (id : Namespace)
  | EmitEvent (ev : Event)
  | RegisterRuntimeForFinalization (id : Namespace)
  | ValidateBasic
  | Hash
  | EvidenceHashExists (id : Namespace) (round : Nat) (h : Hash)
  | SetEvidenceHash (id : Namespace) (round : Nat) (h : Hash)
  | onEvidenceRuntimeEquivocation (pk : PublicKey) (id : Namespace) (amount : Quantity)
  | Transfer (src dst : Address) (amount : Quantity)
  | IncomingMessageQueueMeta (id : Namespace)
  | SetIncomingMessageInQueue (id : Namespace) (msg : IncomingMessage)
  | SetIncomingMessageQueueMeta (id : Namespace) (md : IncomingMessageQueueMeta)
  deriving DecidableEq, Repr

/-- Modelled from the spec: the execution context (`abciAPI.Context`), whose
implementation is outside these sources. It carries the mode, the gas accountant, the
block height, the caller address, the state tree and the emitted events. A handler may
open one nested transaction (`NewTransaction`): writes and events made through the
child context are buffered in `pending` and `pendingEvents`, applied to `state` and
`events` by `Commit`, and dropped by `Close`. `calls` records every collaborator call
and is never rolled back. -/
structure Context where
  mode : ContextMode
  gas : GasAccountant
  blockHeight : Int
  callerAddress : Address
  state : Tree
  events : List Event
  pending : List Write
  pendingEvents : List Event
  calls : List Call

/-- Modelled from the spec: a state handle (`roothashState.MutableState`,
`stakingState.MutableState`), whose implementation is outside these sources, is built
by `NewMutableState(ctx.State())` and stays bound to the tree it was built from:
`outer` is the tree of the context the handler was invoked with, `nested` the tree of
the child context returned by `NewTransaction`. -/
inductive MutableState where
  | outer
  | nested
  deriving DecidableEq, Repr

/-- Record a collaborator call. -/
def Context.call (ctx : Context) (c : Call) : Context :=
  { ctx with calls := ctx.calls ++ [c] }

/-- Whether the context is in validate-only mode. -/
def Context.IsCheckOnly (ctx : Context) : Bool :=
  ctx.mode = .CheckTx

/-- Whether the context is in simulation mode. -/
def Context.IsSimulation (ctx : Context) : Bool :=
  ctx.mode = .SimulateTx

/-- Modelled from the spec: the tree a state handle reads: the context tree itself, or the context tree seen
through the writes buffered by the open transaction. -/
def MutableState.tree (s : MutableState) (ctx : Context) : Tree :=
  match s with
  | .outer => ctx.state
  | .nested => ctx.pending.foldl Tree.apply ctx.state

/-- Modelled from the spec: a write through a state handle: applied to the context tree at once, or buffered
in the open transaction. -/
def MutableState.write (s : MutableState) (ctx : Context) (w : Write) : Context :=
  match s with
  | .outer => { ctx with state := ctx.state.apply w }
  | .nested => { ctx with pending := ctx.pending ++ [w] }

/-- Modelled from the spec: `ctx.NewTransaction()` opens a nested transaction with
nothing buffered. -/
def Context.NewTransaction (ctx : Context) : Context :=
  { ctx.call .NewTransaction with pending := [], pendingEvents := [] }

/-- Modelled from the spec: `ctx.Commit()` commits the nested transaction; buffered
writes reach the tree, buffered events reach the event list. -/
def Context.Commit (ctx : Context) : Context :=
  { ctx.call .Commit with
    state := ctx.pending.foldl Tree.apply ctx.state
    events := ctx.events ++ ctx.pendingEvents
    pending := []
    pendingEvents := [] }

/-- Modelled from the spec: `ctx.Close()` closes the nested transaction; whatever is
still buffered is dropped. -/
def Context.Close (ctx : Context) : Context :=
  { ctx with pending := [], pendingEvents := [] }

/-- Modelled from the spec: `ctx.EmitEvent` on the child context of the open
transaction buffers the event. -/
def Context.EmitEvent (ctx : Context) (ev : Event) : Context :=
  { ctx.call (.EmitEvent ev) with pendingEvents := ctx.pendingEvents ++ [ev] }

/-- Modelled from the spec: the gas meter's `UseGas(multiplier, op, costs)`, whose
implementation is outside these sources. An operation without an entry in the cost
table is free; the charge fails with out-of-gas when it would exceed the limit. -/
def Context.UseGas (ctx : Context) (multiplier : Nat) (op : Op) (costs : Op → Option Nat) :
    Option Error × Context :=
  let ctx := ctx.call (.UseGas multiplier op)
  let amount := (costs op).getD 0 * multiplier
  if ctx.gas.usedGas + amount > ctx.gas.maxUsedGas then
    (some .ErrOutOfGas, ctx)
  else
    (none, { ctx with gas := { ctx.gas with usedGas := ctx.gas.usedGas + amount } })

/-! ## Collaborators -/

/-- The application together with the code it calls that lies outside these sources,
taken as parameters.
* `faults a` is the error code with which accessor `a` fails during the call, `none`
  when it succeeds.
* `NewRuntimeAddress` is `staking.NewRuntimeAddress`.
* `VerifyExecutorCommitment` is `commitment.VerifyExecutorCommitment`: it may read the
  context and the runtime state, prices embedded messages on the gas accountant in a
  simulation child context that is always discarded, and returns its error together
  with the gas accountant it leaves.
* `AddVerifiedExecutorCommitment` is the pool method of that name.
* `consistent` is the per-variant signature check of `Evidence.ValidateBasic`.
* `Hash` is `Evidence.Hash`.
* `onEvidenceRuntimeEquivocation` is the slashing entry point; it acts on the staking
  balances and fails with an error of its own, which may wrap any other error. -/
structure Application where
  faults : Accessor → Option Nat
  NewRuntimeAddress : Namespace → Address
  VerifyExecutorCommitment :
    Context → RuntimeState → ExecutorCommitment → Option Error × GasAccountant
  AddVerifiedExecutorCommitment : Pool → Committee → ExecutorCommitment → Except Error Pool
  consistent : Evidence → Option Nat
  Hash : Evidence → Except Nat Hash
  onEvidenceRuntimeEquivocation :
    (Address → Quantity) → PublicKey → Runtime → Quantity → Except Error (Address → Quantity)

/-- Modelled from the spec: the state accessor
`state.ConsensusParameters(ctx)`., a read or write of the
tree the handle is bound to that fails when the storage does. -/
def MutableState.ConsensusParameters (s : MutableState) (app : Application) (ctx : Context) :
    Except Error ConsensusParameters × Context :=
  let ctx := ctx.call .ConsensusParameters
  match app.faults .ConsensusParameters with
  | some code => (.error (.collaborator code), ctx)
  | none => (.ok (s.tree ctx).consensusParameters, ctx)

/-- Modelled from the spec: the state accessor
`state.RuntimeState(ctx, id)`; an unknown runtime is an error., a read or write of the
tree the handle is bound to that fails when the storage does. -/
def MutableState.RuntimeState (s : MutableState) (app : Application) (ctx : Context)
    (id : Namespace) : Except Error RuntimeState × Context :=
  let ctx := ctx.call (.RuntimeState id)
  match app.faults .RuntimeState with
  | some code => (.error (.collaborator code), ctx)
  | none =>
    match (s.tree ctx).runtimeStates id with
    | none => (.error .ErrInvalidRuntime, ctx)
    | some rtState => (.ok rtState, ctx)

/-- Modelled from the spec: the state accessor
`state.SetRuntimeState(ctx, rtState)`., a read or write of the
tree the handle is bound to that fails when the storage does. -/
def MutableState.SetRuntimeState (s : MutableState) (app : Application) (ctx : Context)
    (rtState : Roothash.RuntimeState) : Option Error × Context :=
  let ctx := ctx.call (.SetRuntimeState rtState.Runtime.ID)
  match app.faults .SetRuntimeState with
  | some code => (some (.collaborator code), ctx)
  | none => (none, s.write ctx (.SetRuntimeState rtState))

/-- Modelled from the spec: the state accessor
`state.IncomingMessageQueueMeta(ctx, id)`., a read or write of the
tree the handle is bound to that fails when the storage does. -/
def MutableState.IncomingMessageQueueMeta (s : MutableState) (app : Application)
    (ctx : Context) (id : Namespace) : Except Error IncomingMessageQueueMeta × Context :=
  let ctx := ctx.call (.IncomingMessageQueueMeta id)
  match app.faults .IncomingMessageQueueMeta with
  | some code => (.error (.collaborator code), ctx)
  | none => (.ok ((s.tree ctx).incomingMessageQueueMeta id), ctx)

/-- Modelled from the spec: the state accessor
`state.SetIncomingMessageInQueue(ctx, id, msg)`., a read or write of the
tree the handle is bound to that fails when the storage does. -/
def MutableState.SetIncomingMessageInQueue (s : MutableState) (app : Application)
    (ctx : Context) (id : Namespace) (msg : IncomingMessage) : Option Error × Context :=
  let ctx := ctx.call (.SetIncomingMessageInQueue id msg)
  match app.faults .SetIncomingMessageInQueue with
  | some code => (some (.collaborator code), ctx)
  | none => (none, s.write ctx (.SetIncomingMessageInQueue id msg))

/-- Modelled from the spec: the state accessor
`state.SetIncomingMessageQueueMeta(ctx, id, meta)`., a read or write of the
tree the handle is bound to that fails when the storage does. -/
def MutableState.SetIncomingMessageQueueMeta (s : MutableState) (app : Application)
    (ctx : Context) (id : Namespace) (md : Roothash.IncomingMessageQueueMeta) :
    Option Error × Context :=
  let ctx := ctx.call (.SetIncomingMessageQueueMeta id md)
  match app.faults .SetIncomingMessageQueueMeta with
  | some code => (some (.collaborator code), ctx)
  | none => (none, s.write ctx (.SetIncomingMessageQueueMeta id md))

/-- Modelled from the spec: the state accessor
`state.ImmutableState.EvidenceHashExists(ctx, id, round, hash)`., a read or write of the
tree the handle is bound to that fails when the storage does. -/
def MutableState.EvidenceHashExists (s : MutableState) (app : Application) (ctx : Context)
    (id : Namespace) (round : Nat) (h : Hash) : Except Error Bool × Context :=
  let ctx := ctx.call (.EvidenceHashExists id round h)
  match app.faults .EvidenceHashExists with
  | some code => (.error (.collaborator code), ctx)
  | none => (.ok ((s.tree ctx).evidenceHashes id round h), ctx)

/-- Modelled from the spec: the state accessor
`state.SetEvidenceHash(ctx, id, round, hash)`., a read or write of the
tree the handle is bound to that fails when the storage does. -/
def MutableState.SetEvidenceHash (s : MutableState) (app : Application) (ctx : Context)
    (id : Namespace) (round : Nat) (h : Hash) : Option Error × Context :=
  let ctx := ctx.call (.SetEvidenceHash id round h)
  match app.faults .SetEvidenceHash with
  | some code => (some (.collaborator code), ctx)
  | none => (none, s.write ctx (.SetEvidenceHash id round h))

/-- Modelled from the spec: the ledger collaborator `stakingState.Transfer`, whose
implementation is outside these sources. It moves `amount` from the general balance of
`src` to that of `dst` and fails when the balance of `src` is insufficient. -/
def MutableState.Transfer (s : MutableState) (app : Application) (ctx : Context)
    (src dst : Address) (amount : Quantity) : Option Error × Context :=
  let ctx := ctx.call (.Transfer src dst amount)
  match app.faults .Transfer with
  | some code => (some (.collaborator code), ctx)
  | none =>
    if (s.tree ctx).balances src < amount then
      (some .ErrInsufficientBalance, ctx)
    else
      let ctx := s.write ctx (.SetBalance src ((s.tree ctx).balances src - amount))
      (none, s.write ctx (.SetBalance dst ((s.tree ctx).balances dst + amount)))

/-- Modelled from the spec: the round timeout scheduler `rearmRoundTimeout`, whose
implementation is outside these sources. It cancels the expiry notification of the
runtime bound to `prevTimeout` and schedules one for `nextTimeout`, through the state
of the context it is given (here the child context of the open transaction). -/
def rearmRoundTimeout (app : Application) (ctx : Context) (id : Namespace) (round : Nat)
    (prevTimeout nextTimeout : Int) : Option Error × Context :=
  let ctx := ctx.call (.rearmRoundTimeout id round prevTimeout nextTimeout)
  match app.faults .rearmRoundTimeout with
  | some code => (some (.collaborator code), ctx)
  | none =>
    let ctx := MutableState.nested.write ctx (.ClearRoundTimeout id prevTimeout)
    (none, MutableState.nested.write ctx (.ScheduleRoundTimeout id nextTimeout))

/-- Modelled from the spec: `Evidence.ValidateBasic`, whose implementation is outside
these sources. Exactly one of the two variants must be populated, and the populated
variant must pass the signature consistency check. -/
def Evidence.ValidateBasic (app : Application) (evidence : Evidence) : Option Error :=
  match evidence.EquivocationExecutor, evidence.EquivocationProposal with
  | some _, some _ => some (.collaborator 0)
  | none, none => some (.collaborator 1)
  | _, _ => (app.consistent evidence).map Error.collaborator

/-- Read of the Go map `Slashing` at a key: the zero value when the key is absent. -/
def slashingLookup (m : List (SlashReason × Slash)) (k : SlashReason) : Slash :=
  match m.find? (fun e => e.1 = k) with
  | some e => e.2
  | none => { Amount := 0 }

/-! ## The handlers -/

/-- Function `getRuntimeState`: fetches the current runtime state and performs common
processing and error handling. -/
def Application.getRuntimeState (app : Application) (ctx : Context) (state : MutableState)
    (id : Namespace) : Except Error RuntimeState × Context :=
  -- Fetch current runtime state.
  match state.RuntimeState app ctx id with
  | (.error err, ctx) => (.error (.failedToFetchRuntimeState err), ctx)
  | (.ok rtState, ctx) =>
    if rtState.Suspended then
      (.error .ErrRuntimeSuspended, ctx)
    else if rtState.Committee.isNone then
      (.error .ErrNoCommittee, ctx)
    else if rtState.CommitmentPool.isNone then
      (.error .ErrNoExecutorPool, ctx)
    else
      (.ok rtState, ctx)

/-- Addition of two `uint64` values. -/
def addUint64 (a b : Nat) : Nat :=
  (a + b) % 2 ^ 64

/-- Wrap an integer to the `int64` range. -/
def wrapInt64 (x : Int) : Int :=
  Int.bmod x (2 ^ 64)

/-- The loop of `executorCommit` that verifies and adds commitments to the pool
(lines 94-121). `pool` is the commitment pool of `rtState`, updated in memory commit by
commit; the first verification or admission error ends the loop. -/
def Application.verifyAndAdd (app : Application) (rtState : RuntimeState)
    (committee : Committee) :
    Context → Pool → List ExecutorCommitment → Option Error × Context × Pool
  | ctx, pool, [] => (none, ctx, pool)
  | ctx, pool, commit :: rest =>
    let ctx := ctx.call (.VerifyExecutorCommitment commit)
    match app.VerifyExecutorCommitment ctx { rtState with CommitmentPool := some pool }
        commit with
    | (some err, gas) => (some err, { ctx with gas := gas }, pool)
    | (none, gas) =>
      let ctx := { ctx with gas := gas }
      let ctx := ctx.call (.AddVerifiedExecutorCommitment commit)
      match app.AddVerifiedExecutorCommitment pool committee commit with
      | .error err => (some err, ctx, pool)
      | .ok pool => app.verifyAndAdd rtState committee ctx pool rest

/-- Handler `executorCommit`. The `state` argument of the Go function is the handle the
caller built from `ctx.State()`, here `MutableState.outer`; line 132 rebinds it to the
child context, here `MutableState.nested`. -/
def Application.executorCommit (app : Application) (ctx : Context) (cc : ExecutorCommit) :
    Option Error × Context :=
  if ctx.IsCheckOnly then
    -- Notify subscribers about observed commitments.
    (none, cc.Commits.foldl (fun c ec => c.call (.DeliverExecutorCommitment cc.ID ec)) ctx)
  else
  -- Charge gas for this transaction.
  match MutableState.outer.ConsensusParameters app ctx with
  | (.error err, ctx) => (some err, ctx)
  | (.ok params, ctx) =>
  match ctx.UseGas 1 .GasOpComputeCommit params.GasCosts with
  | (some err, ctx) => (some err, ctx)
  | (none, ctx) =>
  -- Return early if there are no commitments.
  if cc.Commits.length = 0 then (none, ctx) else
  -- Fetch the latest runtime state.
  match app.getRuntimeState ctx .outer cc.ID with
  | (.error err, ctx) => (some err, ctx)
  | (.ok rtState, ctx) =>
  match rtState.Committee, rtState.CommitmentPool with
  | some committee, some pool =>
    let prevRank := pool.HighestRank
    -- Verify and add commitments to the pool.
    match app.verifyAndAdd rtState committee ctx pool cc.Commits with
    | (some err, ctx, _) => (some err, ctx)
    | (none, ctx, pool) =>
      let rtState := { rtState with CommitmentPool := some pool }
      -- Return early for simulation as we only need gas accounting.
      if ctx.IsSimulation then (none, ctx) else
      -- Commit changes made to the pool.
      let ctx := ctx.NewTransaction
      -- Check if higher-ranked scheduler submitted a commitment.
      let rearmed : Option Error × Context × RuntimeState :=
        if prevRank ≠ pool.HighestRank then
          let round := addUint64 rtState.LastBlock.Header.Round 1
          -- Re-arm round timeout.
          let prevTimeout := rtState.NextTimeout
          let nextTimeout :=
            wrapInt64 (wrapInt64 (ctx.blockHeight + 1) + rtState.Runtime.Executor.RoundTimeout)
          let rtState := { rtState with NextTimeout := nextTimeout }
          match rearmRoundTimeout app ctx cc.ID round prevTimeout rtState.NextTimeout with
          | (some err, ctx) => (some err, ctx, rtState)
          | (none, ctx) => (none, ctx, rtState)
        else (none, ctx, rtState)
      match rearmed with
      | (some err, ctx, _) => (some err, ctx.Close)
      | (none, ctx, rtState) =>
        -- Update runtime state.
        match MutableState.nested.SetRuntimeState app ctx rtState with
        | (some err, ctx) => (some (.failedToSetRuntimeState err), ctx.Close)
        | (none, ctx) =>
          -- Emit events for all accepted commits.
          let ctx := cc.Commits.foldl
            (fun c commit => c.EmitEvent { Commit := commit, ID := cc.ID }) ctx
          let ctx := ctx.Commit
          -- Try to finalize the runtime during the end block.
          let ctx := ctx.call (.RegisterRuntimeForFinalization cc.ID)
          (none, ctx.Close)
  | _, _ => (some .nilPointerDereference, ctx)

/-- The switch of `submitEvidence` that checks expiry and extracts the round and the
offending node (lines 232-265). -/
def evidenceRound (evidence : Evidence) (params : ConsensusParameters)
    (rtState : RuntimeState) : Except Error (Nat × PublicKey) :=
  match evidence.EquivocationExecutor, evidence.EquivocationProposal with
  | some ee, _ =>
    let commitA := ee.CommitA
    if addUint64 commitA.Round params.MaxEvidenceAge < rtState.LastBlock.Header.Round then
      .error .evidenceExpired
    else
      .ok (commitA.Round, commitA.NodeID)
  | none, some ep =>
    let proposalA := ep.ProposalA
    if addUint64 proposalA.Round params.MaxEvidenceAge < rtState.LastBlock.Header.Round then
      .error .evidenceExpired
    else
      .ok (proposalA.Round, proposalA.NodeID)
  | none, none =>
    -- This should never happen due to ValidateBasic check above.
    .error .ErrInvalidEvidence

/-- Handler `submitEvidence`. The `state` argument of the Go function is the handle the
caller built from `ctx.State()`, here `MutableState.outer`. -/
def Application.submitEvidence (app : Application) (ctx : Context) (evidence : Evidence) :
    Option Error × Context :=
  -- Validate proposal content basics.
  match evidence.ValidateBasic app with
  | some err => (some (.invalidEvidence err), ctx)
  | none =>
  if ctx.IsCheckOnly then (none, ctx) else
  -- Charge gas for this transaction.
  match MutableState.outer.ConsensusParameters app ctx with
  | (.error err, ctx) => (some err, ctx)
  | (.ok params, ctx) =>
  match ctx.UseGas 1 .GasOpEvidence params.GasCosts with
  | (some err, ctx) => (some err, ctx)
  | (none, ctx) =>
  -- Return early for simulation as we only need gas accounting.
  if ctx.IsSimulation then (none, ctx) else
  match app.getRuntimeState ctx .outer evidence.ID with
  | (.error err, ctx) => (some err, ctx)
  | (.ok rtState, ctx) =>
  if rtState.Runtime.Staking.Slashing.length = 0 then
    -- No slashing instructions for runtime, no point in collecting evidence.
    (some .ErrRuntimeDoesNotSlash, ctx)
  else
  let slash :=
    (slashingLookup rtState.Runtime.Staking.Slashing .SlashRuntimeEquivocation).Amount
  if slash = 0 then
    -- Slash amount is zero for runtime, no point in collecting evidence.
    (some .ErrRuntimeDoesNotSlash, ctx)
  else
  -- Ensure evidence is not expired.
  match evidenceRound evidence params rtState with
  | .error err => (some err, ctx)
  | .ok (round, pk) =>
  -- Evidence is valid. Store the evidence and slash the node.
  let ctx := ctx.call .Hash
  match app.Hash evidence with
  | .error code => (some (.computingEvidenceHash (.collaborator code)), ctx)
  | .ok evHash =>
  match MutableState.outer.EvidenceHashExists app ctx rtState.Runtime.ID round evHash with
  | (.error err, ctx) => (some (.queryingEvidenceHash err), ctx)
  | (.ok b, ctx) =>
  if b then (some .ErrDuplicateEvidence, ctx) else
  match MutableState.outer.SetEvidenceHash app ctx rtState.Runtime.ID round evHash with
  | (some err, ctx) => (some err, ctx)
  | (none, ctx) =>
  let ctx := ctx.call (.onEvidenceRuntimeEquivocation pk rtState.Runtime.ID slash)
  match app.onEvidenceRuntimeEquivocation ctx.state.balances pk rtState.Runtime slash with
  | .error err => (some (.slashingRuntimeNode err), ctx)
  | .ok balances => (none, MutableState.outer.write ctx (.SetBalances balances))

/-- Handler `submitMsg`. The `state` argument of the Go function is the handle the
caller built from `ctx.State()`, here `MutableState.outer`; it is not rebound after
`NewTransaction`, so the queue accessors keep acting on the tree of the context the
handler was invoked with, while the staking handle `st` is built from the child
context. `Size` and `MaxInMessages` have one unsigned type (they are compared on line
359) and `Size < MaxInMessages` holds at `meta.Size++`, so that increment cannot wrap;
`NextSequenceNumber` is a `uint64` and its increment wraps. `totalAmount.Add` fails
only on an invalid operand, which a `Quantity` read from the transaction is not. -/
def Application.submitMsg (app : Application) (ctx : Context) (msg : SubmitMsg) :
    Option Error × Context :=
  if ctx.IsCheckOnly then (none, ctx) else
  -- Charge gas for this transaction.
  match MutableState.outer.ConsensusParameters app ctx with
  | (.error err, ctx) => (some err, ctx)
  | (.ok params, ctx) =>
  match ctx.UseGas 1 .GasOpSubmitMsg params.GasCosts with
  | (some err, ctx) => (some err, ctx)
  | (none, ctx) =>
  -- Return early for simulation as we only need gas accounting.
  if ctx.IsSimulation then (none, ctx) else
  match app.getRuntimeState ctx .outer msg.ID with
  | (.error err, ctx) => (some err, ctx)
  | (.ok rtState, ctx) =>
  -- If the maximum size of the queue is set to zero, bail early.
  if rtState.Runtime.TxnScheduler.MaxInMessages = 0 then
    (some .ErrIncomingMessageQueueFull, ctx)
  else
  -- If the submitted fee is smaller than the minimum fee, bail early.
  if msg.Fee < rtState.Runtime.Staking.MinInMessageFee then
    (some .ErrIncomingMessageInsufficientFee, ctx)
  else
  -- Create a new transaction context and rollback in case we fail.
  let ctx := ctx.NewTransaction
  -- Transfer the given amount (fee + tokens) into the runtime account.
  let totalAmount := msg.Fee + msg.Tokens
  let rtAddress := app.NewRuntimeAddress rtState.Runtime.ID
  match MutableState.nested.Transfer app ctx ctx.callerAddress rtAddress totalAmount with
  | (some err, ctx) => (some err, ctx.Close)
  | (none, ctx) =>
  -- Fetch current incoming queue metadata.
  match MutableState.outer.IncomingMessageQueueMeta app ctx rtState.Runtime.ID with
  | (.error err, ctx) => (some err, ctx.Close)
  | (.ok md, ctx) =>
  -- Check if the queue is already full.
  if md.Size ≥ rtState.Runtime.TxnScheduler.MaxInMessages then
    (some .ErrIncomingMessageQueueFull, ctx.Close)
  else
  -- Queue message.
  let inMsg : IncomingMessage :=
    { ID := md.NextSequenceNumber
      Caller := ctx.callerAddress
      Tag := msg.Tag
      Fee := msg.Fee
      Tokens := msg.Tokens
      Data := msg.Data }
  match MutableState.outer.SetIncomingMessageInQueue app ctx rtState.Runtime.ID inMsg with
  | (some err, ctx) => (some err, ctx.Close)
  | (none, ctx) =>
  -- Update next sequence number.
  let md : IncomingMessageQueueMeta :=
    { Size := md.Size + 1
      NextSequenceNumber := addUint64 md.NextSequenceNumber 1 }
  match MutableState.outer.SetIncomingMessageQueueMeta app ctx rtState.Runtime.ID md with
  | (some err, ctx) => (some err, ctx.Close)
  | (none, ctx) => (none, ctx.Commit.Close)

/-! ## Derived forms used in the proofs -/

/-- Context left by a successful unit gas charge for `op`: the two collaborator calls
are recorded and the cost of `op` is added to the used gas. -/
def Context.charged (ctx : Context) (op : Op) : Context :=
  { (ctx.call .ConsensusParameters).call (.UseGas 1 op) with
    gas := { ctx.gas with
      usedGas := ctx.gas.usedGas + (ctx.state.consensusParameters.GasCosts op).getD 0 } }

/-- The part of `submitMsg` that runs inside the nested transaction (lines 336-386),
written out on the context `c` reached after the fee check. `submitMsg_eq` proves that
`submitMsg` continues with it. -/
def submitMsgTx (app : Application) (c : Context) (rtState : RuntimeState) (msg : SubmitMsg) :
    Option Error × Context :=
  let id := rtState.Runtime.ID
  let src := c.callerAddress
  let dst := app.NewRuntimeAddress id
  let total := msg.Fee + msg.Tokens
  let calls1 := c.calls ++ [.NewTransaction, .Transfer src dst total]
  let closed (calls : List Call) (state : Tree) : Context :=
    { c with state := state, calls := calls, pending := [], pendingEvents := [] }
  match app.faults .Transfer with
  | some code => (some (.collaborator code), closed calls1 c.state)
  | none =>
  if c.state.balances src < total then (some .ErrInsufficientBalance, closed calls1 c.state) else
  let calls2 := calls1 ++ [.IncomingMessageQueueMeta id]
  match app.faults .IncomingMessageQueueMeta with
  | some code => (some (.collaborator code), closed calls2 c.state)
  | none =>
  let md := c.state.incomingMessageQueueMeta id
  if md.Size ≥ rtState.Runtime.TxnScheduler.MaxInMessages then
    (some .ErrIncomingMessageQueueFull, closed calls2 c.state) else
  let inMsg : IncomingMessage :=
    { ID := md.NextSequenceNumber, Caller := src, Tag := msg.Tag, Fee := msg.Fee,
      Tokens := msg.Tokens, Data := msg.Data }
  let calls3 := calls2 ++ [.SetIncomingMessageInQueue id inMsg]
  match app.faults .SetIncomingMessageInQueue with
  | some code => (some (.collaborator code), closed calls3 c.state)
  | none =>
  let state1 := c.state.apply (.SetIncomingMessageInQueue id inMsg)
  let md1 : IncomingMessageQueueMeta :=
    { Size := md.Size + 1, NextSequenceNumber := addUint64 md.NextSequenceNumber 1 }
  let calls4 := calls3 ++ [.SetIncomingMessageQueueMeta id md1]
  match app.faults .SetIncomingMessageQueueMeta with
  | some code => (some (.collaborator code), closed calls4 state1)
  | none =>
  let state2 := state1.apply (.SetIncomingMessageQueueMeta id md1)
  let state3 := state2.apply (.SetBalance src (c.state.balances src - total))
  let state4 := state3.apply
    (.SetBalance dst ((c.state.apply (.SetBalance src (c.state.balances src - total))).balances dst
      + total))
  (none, closed (calls4 ++ [.Commit]) state4)

/-- The message `submitMsg` queues for `msg` when the queue metadata is `md`. -/
def queuedMessage (ctx : Context) (md : IncomingMessageQueueMeta) (msg : SubmitMsg) :
    IncomingMessage :=
  { ID := md.NextSequenceNumber, Caller := ctx.callerAddress, Tag := msg.Tag, Fee := msg.Fee,
    Tokens := msg.Tokens, Data := msg.Data }

/-- The tree left by an admitted message: the message is queued under the next sequence
number, the metadata is advanced, and `total` is moved from `src` to `dst`. -/
def Tree.admitted (t : Tree) (id : Namespace) (src dst : Address) (inMsg : IncomingMessage)
    (total : Quantity) : Tree :=
  let md := t.incomingMessageQueueMeta id
  let state1 := t.apply (.SetIncomingMessageInQueue id inMsg)
  let state2 := state1.apply (.SetIncomingMessageQueueMeta id
    { Size := md.Size + 1, NextSequenceNumber := addUint64 md.NextSequenceNumber 1 })
  let state3 := state2.apply (.SetBalance src (t.balances src - total))
  state3.apply
    (.SetBalance dst ((t.apply (.SetBalance src (t.balances src - total))).balances dst + total))

/-! ## Sequences of submissions -/

/-- One `submitMsg` transaction: the collaborators' behaviour during it, its mode, its
caller, its gas accountant and its body. -/
structure Submission where
  app : Application
  mode : ContextMode
  callerAddress : Address
  gas : GasAccountant
  msg : SubmitMsg

/-- The context in which a transaction runs: the state, events and call record left by
the previous transaction, with the mode, caller and gas accountant of this one. -/
def Context.enter (ctx : Context) (s : Submission) : Context :=
  { ctx with mode := s.mode, callerAddress := s.callerAddress, gas := s.gas }

/-- Modelled from the spec: transactions are applied one at a time, each on the state
left by the previous one (section 5). Returns the results in order and the final
context. -/
def submitMsgs : Context → List Submission → List (Option Error) × Context
  | ctx, [] => ([], ctx)
  | ctx, s :: rest =>
    let r := s.app.submitMsg (ctx.enter s) s.msg
    let rs := submitMsgs r.2 rest
    (r.1 :: rs.1, rs.2)

/-- Whether submission `s`, run on `ctx`, admits a message into the queue of runtime
`rid`: it runs in deliver mode, succeeds, and the runtime state it loads is that of
`rid`. -/
def admits (rid : Namespace) (ctx : Context) (s : Submission) : Bool :=
  decide (s.mode = .ExecuteTx) &&
  decide ((s.app.submitMsg (ctx.enter s) s.msg).1 = none) &&
  decide ((ctx.state.runtimeStates s.msg.ID).map (fun rtState => rtState.Runtime.ID) = some rid)

/-- The sequence numbers given, in order, to the messages admitted into the queue of
runtime `rid` by a sequence of submissions: for each admitting submission, the ID of
the message it stored. -/
def admittedIDs (rid : Namespace) : Context → List Submission → List Nat
  | _, [] => []
  | ctx, s :: rest =>
    let r := s.app.submitMsg (ctx.enter s) s.msg
    let md := ctx.state.incomingMessageQueueMeta rid
    (if admits rid ctx s then [(queuedMessage (ctx.enter s) md s.msg).ID] else []) ++
      admittedIDs rid r.2 rest

/-! ## Scenario data -/

/-- A runtime with `MaxInMessages = 2` and `MinInMessageFee = 10`, not suspended, with a
committee and a pool, whose last finalized round is 100. -/
def scenarioRuntime : RuntimeState :=
  { Runtime :=
      { ID := 1
        Executor := { RoundTimeout := 5 }
        TxnScheduler := { MaxInMessages := 2 }
        Staking := { Slashing := [(.SlashRuntimeEquivocation, { Amount := 3 })],
                     MinInMessageFee := 10 } }
    Suspended := false
    LastBlock := { Header := { Round := 100 } }
    Committee := some { ValidFor := 0, Members := [11, 12] }
    CommitmentPool := some { HighestRank := 9, Commits := [] }
    NextTimeout := 20 }

/-- A tree holding `scenarioRuntime` under ID 1, empty queues, no evidence, unit gas
costs, `MaxEvidenceAge = 5`, and an account 7 with balance 1000. -/
def scenarioTree : Tree :=
  { consensusParameters := { GasCosts := fun _ => some 1, MaxEvidenceAge := 5 }
    runtimeStates := fun id => if id = 1 then some scenarioRuntime else none
    incomingMessageQueueMeta := fun _ => { Size := 0, NextSequenceNumber := 0 }
    incomingMessageQueue := fun _ _ => none
    evidenceHashes := fun _ _ _ => false
    roundTimeouts := fun _ _ => false
    balances := fun a => if a = 7 then 1000 else 0 }

/-- A deliver-mode context over `scenarioTree` for caller 7 with a gas limit of 100. -/
def scenarioCtx : Context :=
  { mode := .ExecuteTx
    gas := { maxUsedGas := 100, usedGas := 0 }
    blockHeight := 10
    callerAddress := 7
    state := scenarioTree
    events := []
    pending := []
    pendingEvents := []
    calls := [] }

/-- Collaborators that never fail: every accessor succeeds, every commitment verifies
and is admitted, every evidence is consistent, slashing leaves the balances alone. -/
def scenarioApp : Application :=
  { faults := fun _ => none
    NewRuntimeAddress := fun id => 1000 + id
    VerifyExecutorCommitment := fun ctx _ _ => (none, ctx.gas)
    AddVerifiedExecutorCommitment := fun pool _ commit =>
      .ok { pool with Commits := pool.Commits ++ [commit] }
    consistent := fun _ => none
    Hash := fun evidence => .ok (evidence.ID + 1)
    onEvidenceRuntimeEquivocation := fun balances _ _ _ => .ok balances }

/-- The scenario context in check-only mode. -/
def scenarioCheckCtx : Context :=
  { scenarioCtx with mode := .CheckTx }

/-- The scenario context with an exhausted gas accountant. -/
def scenarioNoGasCtx : Context :=
  { scenarioCtx with gas := { maxUsedGas := 0, usedGas := 0 } }

/-- Evidence of executor equivocation by node 11 in round 95 of runtime 1. -/
def scenarioEvidence : Evidence :=
  { ID := 1
    EquivocationExecutor := some { CommitA := ⟨11, 11, 95, 0⟩, CommitB := ⟨11, 11, 95, 1⟩ }
    EquivocationProposal := none }

/-- A batch of two commitments for runtime 1. -/
def scenarioCommits : ExecutorCommit :=
  { ID := 1, Commits := [⟨11, 11, 101, 0⟩, ⟨12, 11, 101, 0⟩] }

/-- The scenario context with the sequence counter of every queue at its largest
`uint64` value. -/
def scenarioWrapCtx : Context :=
  { scenarioCtx with
    state := { scenarioTree with
      incomingMessageQueueMeta := fun _ => { Size := 0, NextSequenceNumber := 2 ^ 64 - 1 } } }

/-- The scenario context for a runtime whose incoming queue is disabled
(`MaxInMessages = 0`). -/
def scenarioZeroCapacityCtx : Context :=
  { scenarioCtx with
    state := { scenarioTree with
      runtimeStates := fun id =>
        if id = 1 then
          some { scenarioRuntime with
            Runtime := { scenarioRuntime.Runtime with TxnScheduler := { MaxInMessages := 0 } } }
        else none } }

/-- The scenario collaborators, except that storing the queue metadata fails. -/
def scenarioMetaStoreFaultApp : Application :=
  { scenarioApp with
    faults := fun a => if a = .SetIncomingMessageQueueMeta then some 7 else none }

/-- A message for runtime 1 with the given fee, carrying 3 tokens. -/
def scenarioMsg (fee : Quantity) : SubmitMsg :=
  { ID := 1, Tag := 0, Fee := fee, Tokens := 3, Data := [] }

/-- A deliver-mode submission of `scenarioMsg fee` by caller 7 with its own gas
accountant. -/
def scenarioSubmission (fee : Quantity) : Submission :=
  { app := scenarioApp
    mode := .ExecuteTx
    callerAddress := 7
    gas := { maxUsedGas := 100, usedGas := 0 }
    msg := scenarioMsg fee }

/-! ## Derived forms of `submitEvidence` and `executorCommit` -/

/-- The part of `submitEvidence` after the freshness check (lines 267-293), written out
on the context `c` reached after the runtime state was loaded. `submitEvidence_eq`
proves that `submitEvidence` continues with it. -/
def submitEvidenceStore (app : Application) (c : Context) (rtState : RuntimeState)
    (round : Nat) (pk : PublicKey) (slash : Quantity) (evidence : Evidence) :
    Option Error × Context :=
  let id := rtState.Runtime.ID
  let out (calls : List Call) (state : Tree) : Context :=
    { c with state := state, calls := c.calls ++ calls }
  match app.Hash evidence with
  | .error code => (some (.computingEvidenceHash (.collaborator code)), out [.Hash] c.state)
  | .ok evHash =>
  let calls1 := [Call.Hash, .EvidenceHashExists id round evHash]
  match app.faults .EvidenceHashExists with
  | some code => (some (.queryingEvidenceHash (.collaborator code)), out calls1 c.state)
  | none =>
  if c.state.evidenceHashes id round evHash = true then
    (some .ErrDuplicateEvidence, out calls1 c.state) else
  let calls2 := calls1 ++ [.SetEvidenceHash id round evHash]
  match app.faults .SetEvidenceHash with
  | some code => (some (.collaborator code), out calls2 c.state)
  | none =>
  let state1 := c.state.apply (.SetEvidenceHash id round evHash)
  let calls3 := calls2 ++ [.onEvidenceRuntimeEquivocation pk id slash]
  match app.onEvidenceRuntimeEquivocation state1.balances pk rtState.Runtime slash with
  | .error err => (some (.slashingRuntimeNode err), out calls3 state1)
  | .ok balances => (none, out calls3 (state1.apply (.SetBalances balances)))

/-- The round an evidence refers to: that of `CommitA` for executor equivocation, that
of `ProposalA` for proposal equivocation. -/
def Evidence.round (evidence : Evidence) : Nat :=
  match evidence.EquivocationExecutor, evidence.EquivocationProposal with
  | some ee, _ => ee.CommitA.Round
  | none, some ep => ep.ProposalA.Round
  | none, none => 0

/-- The conditions under which a deliver-mode `submitEvidence` call on tree `t` gets as
far as asking whether the hash `h` of the evidence is recorded for `(runtime, round)`:
the evidence is structurally valid, the accessors work, the runtime state `rtState`
loads, the runtime slashes equivocation, and the evidence is fresh. -/
structure ReachesHashCheck (app : Application) (t : Tree) (evidence : Evidence)
    (rtState : RuntimeState) (round : Nat) (pk : PublicKey) (h : Hash) : Prop where
  valid : evidence.ValidateBasic app = none
  params : app.faults .ConsensusParameters = none
  fetch : app.faults .RuntimeState = none
  stored : t.runtimeStates evidence.ID = some rtState
  active : ¬ rtState.Suspended = true
  committee : ¬ rtState.Committee = none
  pool : ¬ rtState.CommitmentPool = none
  table : ¬ rtState.Runtime.Staking.Slashing.length = 0
  amount : ¬ (slashingLookup rtState.Runtime.Staking.Slashing
    .SlashRuntimeEquivocation).Amount = 0
  fresh : evidenceRound evidence t.consensusParameters rtState = .ok (round, pk)
  hash : app.Hash evidence = .ok h
  query : app.faults .EvidenceHashExists = none

/-- Calls recorded by the loop of `executorCommit` when every commitment verifies and is
admitted: one verification and one admission per commitment, in order. -/
def verifyCalls : List ExecutorCommitment → List Call
  | [] => []
  | commit :: rest =>
    .VerifyExecutorCommitment commit :: .AddVerifiedExecutorCommitment commit ::
      verifyCalls rest

/-- Whether a recorded call belongs to the verification loop. -/
def Call.isLoop : Call → Bool
  | .VerifyExecutorCommitment _ => true
  | .AddVerifiedExecutorCommitment _ => true
  | _ => false

/-- Whether a recorded call is a re-arm of the round timeout. -/
def Call.isRearm : Call → Bool
  | .rearmRoundTimeout _ _ _ _ => true
  | _ => false

/-- Whether a recorded call signals the finalization trigger. -/
def Call.isRegister : Call → Bool
  | .RegisterRuntimeForFinalization _ => true
  | _ => false

/-- Whether a recorded call writes to the state tree, emits an event, or reaches the
timeout scheduler, the slashing collaborator, the ledger or the finalization trigger. -/
def Call.isEffect : Call → Bool
  | .rearmRoundTimeout _ _ _ _ => true
  | .SetRuntimeState _ => true
  | .EmitEvent _ => true
  | .RegisterRuntimeForFinalization _ => true
  | .SetEvidenceHash _ _ _ => true
  | .onEvidenceRuntimeEquivocation _ _ _ => true
  | .Transfer _ _ _ => true
  | .SetIncomingMessageInQueue _ _ => true
  | .SetIncomingMessageQueueMeta _ _ => true
  | _ => false

/-- The timeout computed for a re-arm, as a function of the block height and the round
timeout of the runtime. -/
def nextRoundTimeout (blockHeight : Int) (rtState : RuntimeState) : Int :=
  wrapInt64 (wrapInt64 (blockHeight + 1) + rtState.Runtime.Executor.RoundTimeout)

/-- The part of `executorCommit` that runs inside the nested transaction (lines
128-173), written out on the context `c` reached after the loop, for the loaded state
`rtState`, the rank `prevRank` read after loading and the pool `pool` left by the loop.
`executorCommit_eq` proves that `executorCommit` continues with it. -/
def executorCommitTx (app : Application) (c : Context) (rtState : RuntimeState)
    (prevRank : Nat) (pool : Pool) (cc : ExecutorCommit) : Option Error × Context :=
  let round := addUint64 rtState.LastBlock.Header.Round 1
  let prevTimeout := rtState.NextTimeout
  let nextTimeout :=
    wrapInt64 (wrapInt64 (c.blockHeight + 1) + rtState.Runtime.Executor.RoundTimeout)
  let closed (calls : List Call) (events : List Event) (state : Tree) : Context :=
    { c with state := state, events := events, calls := c.calls ++ calls,
             pending := [], pendingEvents := [] }
  let calls1 : List Call := .NewTransaction ::
    (if prevRank ≠ pool.HighestRank then
      [.rearmRoundTimeout cc.ID round prevTimeout nextTimeout] else [])
  match (if prevRank ≠ pool.HighestRank then app.faults .rearmRoundTimeout else none) with
  | some code => (some (.collaborator code), closed calls1 c.events c.state)
  | none =>
  let stored : RuntimeState :=
    { rtState with
      CommitmentPool := some pool
      NextTimeout := if prevRank ≠ pool.HighestRank then nextTimeout else prevTimeout }
  let calls2 := calls1 ++ [.SetRuntimeState stored.Runtime.ID]
  match app.faults .SetRuntimeState with
  | some code =>
    (some (.failedToSetRuntimeState (.collaborator code)), closed calls2 c.events c.state)
  | none =>
  let writes : List Write :=
    (if prevRank ≠ pool.HighestRank then
      [.ClearRoundTimeout cc.ID prevTimeout, .ScheduleRoundTimeout cc.ID nextTimeout]
     else []) ++ [.SetRuntimeState stored]
  let evs := cc.Commits.map (fun commit => ({ Commit := commit, ID := cc.ID } : Event))
  (none, closed
    (calls2 ++ evs.map Call.EmitEvent ++ [.Commit, .RegisterRuntimeForFinalization cc.ID])
    (c.events ++ evs) (writes.foldl Tree.apply c.state))

/-- Context in which the verification loop of `executorCommit` starts: gas charged and
the runtime state fetched. -/
def Context.loaded (ctx : Context) (cc : ExecutorCommit) : Context :=
  (ctx.charged .GasOpComputeCommit).call (.RuntimeState cc.ID)

/-- The conditions under which an `executorCommit` call gets as far as the verification
loop: the context is not check-only, the accessors work, the gas charge succeeds, the
batch is not empty and the runtime state `rtState` loads with committee `committee` and
commitment pool `pool`. -/
structure ReachesLoop (app : Application) (ctx : Context) (cc : ExecutorCommit)
    (rtState : RuntimeState) (committee : Committee) (pool : Pool) : Prop where
  mode : ctx.mode ≠ .CheckTx
  params : app.faults .ConsensusParameters = none
  gas : (ctx.UseGas 1 .GasOpComputeCommit ctx.state.consensusParameters.GasCosts).1 = none
  batch : cc.Commits ≠ []
  fetch : app.faults .RuntimeState = none
  stored : ctx.state.runtimeStates cc.ID = some rtState
  active : ¬ rtState.Suspended = true
  committee : rtState.Committee = some committee
  pool : rtState.CommitmentPool = some pool

/-- The context `r` left by a call on `ctx` shows no persisted effect: the tree, the
emitted events and the buffers of the nested transaction are those of `ctx`, and none of
the calls recorded since is a write, an event, a re-arm, a slashing, a transfer or a
registration for finalization. -/
def Context.persistsNothing (ctx r : Context) : Prop :=
  r.state = ctx.state ∧ r.events = ctx.events ∧ r.pending = ctx.pending ∧
  r.pendingEvents = ctx.pendingEvents ∧
  ∃ L, r.calls = ctx.calls ++ L ∧ ∀ c ∈ L, c.isEffect = false

/-! ## Scenario data for evidence and commitments -/

/-- Evidence of executor equivocation by node 11 in the given round of runtime 1. -/
def scenarioEvidenceAt (round : Nat) : Evidence :=
  { ID := 1
    EquivocationExecutor :=
      some { CommitA := ⟨11, 11, round, 0⟩, CommitB := ⟨11, 11, round, 1⟩ }
    EquivocationProposal := none }

/-- Evidence for runtime 1 with neither variant populated. -/
def scenarioMalformedEvidence : Evidence :=
  { ID := 1, EquivocationExecutor := none, EquivocationProposal := none }

/-- The scenario collaborators, except that the slashing collaborator fails. -/
def scenarioSlashFaultApp : Application :=
  { scenarioApp with
    onEvidenceRuntimeEquivocation := fun _ _ _ _ => .error (.collaborator 9) }

/-- The scenario collaborators, except that the slashing collaborator fails with an
error that wraps `ErrInvalidEvidence`. -/
def scenarioSlashInvalidApp : Application :=
  { scenarioApp with
    onEvidenceRuntimeEquivocation := fun _ _ _ _ => .error (.invalidEvidence (.collaborator 9)) }

/-- Number of a commitment, different for different commitments. -/
def commitmentCode (c : ExecutorCommitment) : Nat :=
  Nat.pair c.NodeID (Nat.pair c.SchedulerID (Nat.pair c.Round c.body))

/-- Number of a proposal, different for different proposals. -/
def proposalCode (p : Proposal) : Nat :=
  Nat.pair p.NodeID (Nat.pair p.Round p.body)

/-- A content hash for the scenarios: a numbering of the whole content of the evidence,
different for different evidence. -/
def scenarioContentHash (evidence : Evidence) : Hash :=
  Nat.pair evidence.ID
    (Nat.pair
      (match evidence.EquivocationExecutor with
        | none => 0
        | some ee => Nat.pair (commitmentCode ee.CommitA) (commitmentCode ee.CommitB) + 1)
      (match evidence.EquivocationProposal with
        | none => 0
        | some ep => Nat.pair (proposalCode ep.ProposalA) (proposalCode ep.ProposalB) + 1))

/-- The scenario collaborators with the content hash as evidence hash. -/
def scenarioContentHashApp : Application :=
  { scenarioApp with Hash := fun evidence => .ok (scenarioContentHash evidence) }

/-- Another evidence of executor equivocation by node 11 in round 95 of runtime 1: the
same first commitment as `scenarioEvidence`, a different second one. -/
def scenarioOtherEvidence : Evidence :=
  { ID := 1
    EquivocationExecutor := some { CommitA := ⟨11, 11, 95, 0⟩, CommitB := ⟨11, 11, 95, 2⟩ }
    EquivocationProposal := none }

/-- The scenario runtime with a slashing table that has an entry for liveness only. -/
def scenarioNoSlashRuntime : RuntimeState :=
  { scenarioRuntime with
    Runtime := { scenarioRuntime.Runtime with
      Staking := { Slashing := [(.SlashRuntimeLiveness, { Amount := 3 })],
                   MinInMessageFee := 10 } } }

/-- The scenario context over a tree that holds `scenarioNoSlashRuntime` under ID 1. -/
def scenarioNoSlashCtx : Context :=
  { scenarioCtx with
    state := { scenarioTree with
      runtimeStates := fun id => if id = 1 then some scenarioNoSlashRuntime else none } }

/-- The scenario runtime, suspended. -/
def scenarioSuspendedRuntime : RuntimeState :=
  { scenarioRuntime with Suspended := true }

/-- The scenario context with the runtime suspended and the gas accountant exhausted. -/
def scenarioSuspendedNoGasCtx : Context :=
  { scenarioCtx with
    gas := { maxUsedGas := 0, usedGas := 0 }
    state := { scenarioTree with
      runtimeStates := fun id => if id = 1 then some scenarioSuspendedRuntime else none } }

/-- The scenario context with the runtime suspended. -/
def scenarioSuspendedCtx : Context :=
  { scenarioCtx with
    state := { scenarioTree with
      runtimeStates := fun id => if id = 1 then some scenarioSuspendedRuntime else none } }

/-- The scenario context in simulation mode. -/
def scenarioSimulateCtx : Context :=
  { scenarioCtx with mode := .SimulateTx }

/-- The scenario collaborators, except that admitting a commitment sets the highest rank
of the pool to the `body` of the commitment. -/
def scenarioRankApp : Application :=
  { scenarioApp with
    AddVerifiedExecutorCommitment := fun pool _ commit =>
      .ok { HighestRank := commit.body, Commits := pool.Commits ++ [commit] } }

/-- The scenario collaborators, except that commitments of node 12 fail verification. -/
def scenarioRejectApp : Application :=
  { scenarioApp with
    VerifyExecutorCommitment := fun ctx _ commit =>
      (if commit.NodeID = 12 then some (.collaborator 4) else none, ctx.gas) }

/-! ## Gas charges -/

/-- Whether a recorded call is a charge on the gas meter. -/
def Call.isUseGas : Call → Bool
  | .UseGas _ _ => true
  | _ => false

/-- The context `r` is reached from `c` without touching the gas meter: the gas
accountant is that of `c` and no charge is among the calls recorded since. -/
def Context.noCharge (c r : Context) : Prop :=
  r.gas = c.gas ∧ ∃ L, r.calls = c.calls ++ L ∧ L.filter Call.isUseGas = []

/-- The context `r` left by a handler called on `ctx` shows exactly one charge: among the
calls recorded since there is one charge, with multiplier 1 for `op`, and the gas
accountant is the one the meter leaves when charged once for `op` from the cost table of
the consensus parameters. -/
def Context.chargedOnce (ctx r : Context) (op : Op) : Prop :=
  r.gas = (ctx.UseGas 1 op ctx.state.consensusParameters.GasCosts).2.gas ∧
  ∃ L, r.calls = ctx.calls ++ L ∧ L.filter Call.isUseGas = [.UseGas 1 op]

/-- The scenario collaborators, except that reading the consensus parameters fails. -/
def scenarioParamsFaultApp : Application :=
  { scenarioApp with
    faults := fun a => if a = .ConsensusParameters then some 1 else none }

end Roothash

/-!
# ROFL bundle and volume management

A shallow embedding of `go/runtime/registry/host_rofl_mgmt.go`: the label computation
of the management handlers, `getBundleManagementLabels`, `getBundleTemporaryPath` and
`validateManagedBundle`. Go maps live in an explicit heap so that aliasing between the
labels of a request and the labels a handler computes can be stated; a handler returns
`Except Failure`, where a failure is a Go `error` or a run-time panic.
-/

namespace Registry

/-! ## Go maps, the heap and failures -/

/-- Contents of a Go `map[string]string`: the entries, at most one per key. -/
structure GoMap where
  entries : List (String × String)
  deriving DecidableEq, Repr

/-- Read of a map at a key (`m[k]` with the `ok` flag): `none` when the key is absent. -/
def GoMap.get (m : GoMap) (k : String) : Option String :=
  (m.entries.find? (fun e => e.1 = k)).map (fun e => e.2)

/-- Assignment `m[k] = v` on the contents of a map: the entry for `k` is replaced or
added, the other entries are kept. -/
def GoMap.set (m : GoMap) (k v : String) : GoMap :=
  { entries := (k, v) :: m.entries.filter (fun e => e.1 ≠ k) }

/-- A value of type `map[string]string`: `none` is the nil map, `some a` is the map
allocated at address `a`. -/
abbrev MapRef := Option Nat

/-- The allocated maps, by address. Two map values with the same address share their
contents. -/
structure Heap where
  maps : List GoMap
  deriving DecidableEq, Repr

/-- Contents of the map at an address (empty when nothing is allocated there). -/
def Heap.read (h : Heap) (a : Nat) : GoMap :=
  h.maps.getD a { entries := [] }

/-- Allocation of a new map with the given contents. -/
def Heap.alloc (h : Heap) (m : GoMap) : Nat × Heap :=
  (h.maps.length, { maps := h.maps ++ [m] })

/-- Replacement of the contents of the map at an address. -/
def Heap.write (h : Heap) (a : Nat) (m : GoMap) : Heap :=
  { maps := h.maps.set a m }

/-- How a handler fails: with a Go `error` carrying a message, or with a run-time
panic. -/
inductive Failure where
  | error (msg : String)
  | panic (msg : String)
  deriving DecidableEq, Repr

/-- Go standard library `maps.Clone`: a nil map is cloned to nil, any other map to a
newly allocated map with the same entries. -/
def mapsClone (h : Heap) (m : MapRef) : MapRef × Heap :=
  match m with
  | none => (none, h)
  | some a => ((some (h.alloc (h.read a)).1), (h.alloc (h.read a)).2)

/-- Go assignment `m[k] = v`: a run-time panic when `m` is the nil map. -/
def mapAssign (h : Heap) (m : MapRef) (k v : String) : Except Failure Heap :=
  match m with
  | none => .error (.panic "assignment to entry in nil map")
  | some a => .ok (h.write a ((h.read a).set k v))

/-- Go standard library `maps.Copy(dst, src)`: `dst[k] = v` for every entry of `src`.
`src` is given by its contents. -/
def mapsCopy (h : Heap) (dst : MapRef) : List (String × String) → Except Failure Heap
  | [] => .ok h
  | (k, v) :: rest =>
    match mapAssign h dst k v with
    | .error e => .error e
    | .ok h1 => mapsCopy h1 dst rest

/-! ## The ROFL host handler -/

/-- Component permissions (`runtimeConfig.ComponentPermission`) checked by the
management handlers. -/
inductive ComponentPermission where
  | PermissionBundleAdd
  | PermissionBundleRemove
  | PermissionVolumeAdd
  | PermissionVolumeRemove
  deriving DecidableEq, Repr

/-- The handler of one ROFL component (`roflHostHandler`), reduced to what the
management code reads, with the code outside these sources taken as parameters.
* `runtimeID` is the text of `rh.parent.runtime.ID()`, `id` the text of the component
  identifier (`rh.id.MarshalText()`).
* `LabelOrigin` is the value of the constant `bundle.LabelOrigin`.
* `permissions` is the configuration entry of the component
  (`config.GlobalConfig.Runtime.GetComponent`): `none` when the component is not
  configured, otherwise the permissions it holds.
* `hashHex s` is `hash.NewFromBytes([]byte(s)).Hex()`. -/
structure roflHostHandler where
  runtimeID : String
  id : String
  LabelOrigin : String
  permissions : Option (List ComponentPermission)
  hashHex : String → String

/-- Method `ensureComponentPermissions`: the error `forbidden` unless the component is
configured and holds every listed permission. -/
def roflHostHandler.ensureComponentPermissions (rh : roflHostHandler)
    (perms : List ComponentPermission) : Option Failure :=
  match rh.permissions with
  | none => some (.error "forbidden")
  | some held =>
    if perms.all (fun perm => held.contains perm) then none else some (.error "forbidden")

/-- Method `getBundleManagementLabels`: a new map with the single entry
`LabelOrigin ↦ "<runtimeID>-<componentID>"`, given by its contents. -/
def roflHostHandler.getBundleManagementLabels (rh : roflHostHandler) : GoMap :=
  { entries := [(rh.LabelOrigin, rh.runtimeID ++ "-" ++ rh.id)] }

/-- The label computation of the management handlers,
`labels := maps.Clone(rq.Labels); maps.Copy(labels, rh.getBundleManagementLabels())`
(lines 110-111, 153-154, 167-168, 197-198, 216-217 and 231-232), for the request labels
`rqLabels`: the labels passed on to the manager and the heap left behind. -/
def roflHostHandler.determineLabels (rh : roflHostHandler) (h : Heap) (rqLabels : MapRef) :
    Except Failure (MapRef × Heap) :=
  let cloned := mapsClone h rqLabels
  match mapsCopy cloned.2 cloned.1 rh.getBundleManagementLabels.entries with
  | .error e => .error e
  | .ok h1 => .ok (cloned.1, h1)

/-- A management handler up to the point where it has determined its labels: the
permission check followed by the label computation. What follows in each handler is the
call of the bundle or volume manager with these labels. -/
def roflHostHandler.handleLabels (rh : roflHostHandler) (perm : ComponentPermission)
    (h : Heap) (rqLabels : MapRef) : Except Failure (MapRef × Heap) :=
  match rh.ensureComponentPermissions [perm] with
  | some err => .error err
  | none => rh.determineLabels h rqLabels

/-- Request of `handleBundleWrite` (`rofl.BundleWriteRequest`). -/
structure BundleWriteRequest where
  TemporaryName : String
  Create : Bool
  Data : List Nat

/-- Request of `handleBundleAdd` (`rofl.BundleAddRequest`); `Volumes` maps volume names
to volume identifiers. -/
structure BundleAddRequest where
  TemporaryName : String
  ManifestHash : String
  Labels : MapRef
  Volumes : List (String × String)

/-- Request of `handleBundleRemove` (`rofl.BundleRemoveRequest`). -/
structure BundleRemoveRequest where
  Labels : MapRef

/-- Request of `handleBundleList` (`rofl.BundleListRequest`). -/
structure BundleListRequest where
  Labels : MapRef

/-- Request of `handleVolumeAdd` (`rofl.VolumeAddRequest`). -/
structure VolumeAddRequest where
  Labels : MapRef

/-- Request of `handleVolumeRemove` (`rofl.VolumeRemoveRequest`). -/
structure VolumeRemoveRequest where
  Labels : MapRef

/-- Request of `handleVolumeList` (`rofl.VolumeListRequest`). -/
structure VolumeListRequest where
  Labels : MapRef

/-- Handler `handleBundleAdd`, lines 104-111. -/
def roflHostHandler.handleBundleAdd (rh : roflHostHandler) (h : Heap)
    (rq : BundleAddRequest) : Except Failure (MapRef × Heap) :=
  rh.handleLabels .PermissionBundleAdd h rq.Labels

/-- Handler `handleBundleRemove`, lines 147-154. -/
def roflHostHandler.handleBundleRemove (rh : roflHostHandler) (h : Heap)
    (rq : BundleRemoveRequest) : Except Failure (MapRef × Heap) :=
  rh.handleLabels .PermissionBundleRemove h rq.Labels

/-- Handler `handleBundleList`, lines 161-168. -/
def roflHostHandler.handleBundleList (rh : roflHostHandler) (h : Heap)
    (rq : BundleListRequest) : Except Failure (MapRef × Heap) :=
  rh.handleLabels .PermissionBundleAdd h rq.Labels

/-- Handler `handleVolumeAdd`, lines 191-198. -/
def roflHostHandler.handleVolumeAdd (rh : roflHostHandler) (h : Heap)
    (rq : VolumeAddRequest) : Except Failure (MapRef × Heap) :=
  rh.handleLabels .PermissionVolumeAdd h rq.Labels

/-- Handler `handleVolumeRemove`, lines 210-217. -/
def roflHostHandler.handleVolumeRemove (rh : roflHostHandler) (h : Heap)
    (rq : VolumeRemoveRequest) : Except Failure (MapRef × Heap) :=
  rh.handleLabels .PermissionVolumeRemove h rq.Labels

/-- Handler `handleVolumeList`, lines 225-232. -/
def roflHostHandler.handleVolumeList (rh : roflHostHandler) (h : Heap)
    (rq : VolumeListRequest) : Except Failure (MapRef × Heap) :=
  rh.handleLabels .PermissionVolumeAdd h rq.Labels

/-! ## Temporary paths -/

/-- The elements of a path: the pieces between separators `/`. -/
def splitSep : List Char → List (List Char)
  | [] => [[]]
  | c :: cs =>
    if c = '/' then [] :: splitSep cs
    else
      match splitSep cs with
      | [] => [[c]]
      | e :: es => (c :: e) :: es

/-- The elements joined with the separator. -/
def joinSep : List (List Char) → List Char
  | [] => []
  | [e] => e
  | e :: es => e ++ '/' :: joinSep es

/-- One step of Go standard library `filepath.Clean` on Unix: `out` holds the elements
kept so far, last first. Empty and `.` elements are dropped; a `..` element removes
the element before it, or is kept when there is none to remove and the path is not
rooted; any other element is kept. -/
def cleanElem (rooted : Bool) (out : List (List Char)) (e : List Char) : List (List Char) :=
  if e = [] ∨ e = ['.'] then out
  else if e = ['.', '.'] then
    match out with
    | top :: rest => if top = ['.', '.'] then e :: out else rest
    | [] => if rooted then [] else [e]
  else e :: out

/-- Go standard library `filepath.Clean` on Unix, by its documented rules. Paths are
taken as sequences of characters; the separator and the dot are ASCII, so this agrees
with the byte-wise reading of Go. -/
def Clean (path : String) : String :=
  if path = "" then "." else
  let rooted := decide (path.data.head? = some '/')
  let out := (splitSep path.data).foldl (cleanElem rooted) []
  if rooted then String.mk ('/' :: joinSep out.reverse)
  else if out = [] then "." else String.mk (joinSep out.reverse)

/-- Go standard library `filepath.Join` on Unix: the elements from the first non-empty
one on are joined with the separator and the result is cleaned; the empty string when
every element is empty. -/
def Join : List String → String
  | [] => ""
  | e :: es =>
    if e = "" then Join es
    else Clean (String.mk (joinSep ((e :: es).map String.data)))

/-- Method `getBundleTemporaryPath`. -/
def roflHostHandler.getBundleTemporaryPath (rh : roflHostHandler) (tmpName : String) :
    String :=
  let dirName := (rh.getBundleManagementLabels.get rh.LabelOrigin).getD ""
  let dirName := rh.hashHex dirName
  Join [dirName, tmpName]

/-- Handler `handleBundleWrite` up to the call of the bundle manager: the temporary
path handed to `WriteTemporary`. -/
def roflHostHandler.handleBundleWrite (rh : roflHostHandler) (rq : BundleWriteRequest) :
    Except Failure String :=
  match rh.ensureComponentPermissions [.PermissionBundleAdd] with
  | some err => .error err
  | none => .ok (rh.getBundleTemporaryPath rq.TemporaryName)

/-- Whether a path, given by its elements, never climbs above the directory it starts
in: `depth` counts the named elements not yet undone by a `..`. -/
def staysInside : Nat → List (List Char) → Bool
  | _, [] => true
  | depth, e :: es =>
    if e = [] ∨ e = ['.'] then staysInside depth es
    else if e = ['.', '.'] then
      match depth with
      | 0 => false
      | d + 1 => staysInside d es
    else staysInside (depth + 1) es

/-- Whether a string is the hexadecimal form of a 256-bit hash: 64 characters, each a
lower-case hexadecimal digit. -/
def isHashHex (s : String) : Bool :=
  decide (s.data.length = 64) && s.data.all (fun c => c.isDigit || ('a' ≤ c && c ≤ 'f'))

/-! ## Managed bundle validation -/

/-- Component kinds (`component.Kind`); only equality with `ROFL` is used. -/
inductive Kind where
  | Invalid
  | RONL
  | ROFL
  deriving DecidableEq, Repr

/-- Bundle component (`bundle.Component`), reduced to the fields the validator reads. -/
structure Component where
  Kind : Kind
  Name : String
  Executable : String
  Disabled : Bool
  deriving DecidableEq, Repr

/-- Legacy SGX metadata of a manifest (`bundle.SGXMetadata`). -/
structure SGXMetadata where
  Executable : String
  Signature : String
  deriving DecidableEq, Repr

/-- Bundle manifest (`bundle.Manifest`), reduced to the fields the validator reads;
`SGX` is a Go pointer. -/
structure Manifest where
  Name : String
  Executable : String
  SGX : Option SGXMetadata
  Components : List Component
  deriving DecidableEq, Repr

/-- An opened bundle (`bundle.Bundle`) with its manifest. -/
structure Bundle where
  Manifest : Manifest
  deriving DecidableEq, Repr

/-- The loop of `validateManagedBundle` over the components (lines 314-324): the error
of the first check that fails, in manifest order. -/
def validateComponents : List Component → Option String
  | [] => none
  | comp :: rest =>
    if comp.Kind ≠ .ROFL then some "non-ROFL components are not supported"
    else if comp.Executable ≠ "" then some "legacy bundles are not supported"
    else if comp.Disabled = true then some "disabled components are not supported"
    else validateComponents rest

/-- Function `validateManagedBundle`: `none` is the `nil` error. -/
def validateManagedBundle (bnd : Bundle) : Option String :=
  if bnd.Manifest.Executable ≠ "" ∨ bnd.Manifest.SGX ≠ none then
    some "legacy bundles are not supported"
  else validateComponents bnd.Manifest.Components

/-- The acceptance condition in words: no legacy field in the manifest, and every
component is of kind ROFL, has no executable and is not disabled. -/
def Bundle.managed (bnd : Bundle) : Prop :=
  bnd.Manifest.Executable = "" ∧ bnd.Manifest.SGX = none ∧
  ∀ comp ∈ bnd.Manifest.Components,
    comp.Kind = .ROFL ∧ comp.Executable = "" ∧ comp.Disabled = false

/-- Whether a component violates one of the three component rules. -/
def Component.violates (comp : Component) : Bool :=
  decide (comp.Kind ≠ .ROFL) || decide (comp.Executable ≠ "") || comp.Disabled

/-- The error for a violating component in words: decided by kind, then executable,
then the disabled flag. -/
def Component.violation (comp : Component) : String :=
  if comp.Kind ≠ .ROFL then "non-ROFL components are not supported"
  else if comp.Executable ≠ "" then "legacy bundles are not supported"
  else "disabled components are not supported"

/-- The error in words: the manifest-level legacy error if the manifest has a legacy
field; otherwise the error of the first violating component in manifest order;
otherwise none. -/
def firstViolation (bnd : Bundle) : Option String :=
  if bnd.Manifest.Executable ≠ "" ∨ bnd.Manifest.SGX ≠ none then
    some "legacy bundles are not supported"
  else (bnd.Manifest.Components.find? Component.violates).map Component.violation

/-! ## Scenario data for the registry -/

/-- A toy hash for the scenarios: 64 times the digit `a` for the origin `"rt-a"`, 64
times the digit `b` for every other input. -/
def scenarioHashHex (s : String) : String :=
  if s = "rt-a" then String.mk (List.replicate 64 'a') else String.mk (List.replicate 64 'b')

/-- Component `a` of runtime `rt`, holding every management permission. -/
def scenarioHandlerA : roflHostHandler :=
  { runtimeID := "rt"
    id := "a"
    LabelOrigin := "net.oasis.origin"
    permissions := some [.PermissionBundleAdd, .PermissionBundleRemove,
      .PermissionVolumeAdd, .PermissionVolumeRemove]
    hashHex := scenarioHashHex }

/-- Component `b` of runtime `rt`, holding every management permission. -/
def scenarioHandlerB : roflHostHandler :=
  { scenarioHandlerA with id := "b" }

/-- A heap holding one map, at address 0, with a caller-chosen origin and one more
label. -/
def scenarioHeap : Heap :=
  { maps := [{ entries := [("net.oasis.origin", "forged"), ("name", "x")] }] }

end Registry

namespace Roothash

/-! ## Basic facts about the collaborators -/

/-- Recording one call per list element appends the mapped list to the call record. -/
theorem foldl_call (f : α → Call) (l : List α) (ctx : Context) :
    l.foldl (fun c a => c.call (f a)) ctx = { ctx with calls := ctx.calls ++ l.map f } := by
  induction l generalizing ctx with
  | nil => simp
  | cons a l ih =>
    rw [List.foldl_cons, ih]
    simp [Context.call]

/-- A failed unit charge is an out-of-gas error and means the limit would be exceeded. -/
theorem UseGas_fst_some (ctx : Context) (op : Op) (costs : Op → Option Nat) (err : Error)
    (h : (ctx.UseGas 1 op costs).1 = some err) :
    err = .ErrOutOfGas ∧ ctx.gas.usedGas + (costs op).getD 0 > ctx.gas.maxUsedGas := by
  simp only [Context.UseGas, Context.call, Nat.mul_one] at h
  split at h
  · rename_i hg
    simp only [Option.some.injEq] at h
    exact ⟨h.symm, hg⟩
  · simp at h

/-- A successful unit charge means the limit is not exceeded. -/
theorem UseGas_fst_none (ctx : Context) (op : Op) (costs : Op → Option Nat)
    (h : (ctx.UseGas 1 op costs).1 = none) :
    ¬ ctx.gas.usedGas + (costs op).getD 0 > ctx.gas.maxUsedGas := by
  simp only [Context.UseGas, Context.call, Nat.mul_one] at h
  split at h
  · simp at h
  · assumption

/-- The result of `getRuntimeState` in terms of the accessor fault and the stored state. -/
theorem getRuntimeState_fst (app : Application) (ctx : Context) (state : MutableState)
    (id : Namespace) :
    (app.getRuntimeState ctx state id).1 =
      (match app.faults .RuntimeState, (state.tree ctx).runtimeStates id with
       | some code, _ => .error (.failedToFetchRuntimeState (.collaborator code))
       | none, none => .error (.failedToFetchRuntimeState .ErrInvalidRuntime)
       | none, some s =>
         if s.Suspended = true then .error .ErrRuntimeSuspended
         else if s.Committee = none then .error .ErrNoCommittee
         else if s.CommitmentPool = none then .error .ErrNoExecutorPool
         else .ok s) := by
  have htree : state.tree (ctx.call (.RuntimeState id)) = state.tree ctx := by
    cases state <;> rfl
  unfold Application.getRuntimeState MutableState.RuntimeState
  simp only [htree]
  cases hf : app.faults .RuntimeState with
  | some code => rfl
  | none =>
    cases hs : (state.tree ctx).runtimeStates id with
    | none => rfl
    | some s =>
      simp only []
      by_cases h1 : s.Suspended = true
      · simp [h1]
      · by_cases h2 : s.Committee = none
        · simp [h1, h2]
        · by_cases h3 : s.CommitmentPool = none
          · simp [h1, h2, h3]
          · simp [h1, h2, h3, Option.isNone_iff_eq_none]

/-- The only trace `getRuntimeState` leaves on the context is the recorded read. -/
theorem getRuntimeState_snd (app : Application) (ctx : Context) (state : MutableState)
    (id : Namespace) :
    (app.getRuntimeState ctx state id).2 = ctx.call (.RuntimeState id) := by
  unfold Application.getRuntimeState MutableState.RuntimeState
  simp only []
  cases hf : app.faults .RuntimeState with
  | some code => rfl
  | none =>
    cases hs : (state.tree (ctx.call (.RuntimeState id))).runtimeStates id with
    | none => rfl
    | some s =>
      simp only []
      split
      · rfl
      · split
        · rfl
        · split <;> rfl

/-! ## Characterisation of `submitMsg` -/

/-- Flattened form of `submitMsg`: every branch with the context it returns. -/
theorem submitMsg_eq (app : Application) (ctx : Context) (msg : SubmitMsg) :
    app.submitMsg ctx msg =
      if ctx.mode = .CheckTx then (none, ctx) else
      match app.faults .ConsensusParameters with
      | some code => (some (.collaborator code), ctx.call .ConsensusParameters)
      | none =>
      if ctx.gas.usedGas + (ctx.state.consensusParameters.GasCosts .GasOpSubmitMsg).getD 0
          > ctx.gas.maxUsedGas then
        (some .ErrOutOfGas, (ctx.call .ConsensusParameters).call (.UseGas 1 .GasOpSubmitMsg))
      else
      if ctx.mode = .SimulateTx then (none, ctx.charged .GasOpSubmitMsg) else
      let c := (ctx.charged .GasOpSubmitMsg).call (.RuntimeState msg.ID)
      match app.faults .RuntimeState with
      | some code => (some (.failedToFetchRuntimeState (.collaborator code)), c)
      | none =>
      match ctx.state.runtimeStates msg.ID with
      | none => (some (.failedToFetchRuntimeState .ErrInvalidRuntime), c)
      | some rtState =>
      if rtState.Suspended = true then (some .ErrRuntimeSuspended, c) else
      if rtState.Committee = none then (some .ErrNoCommittee, c) else
      if rtState.CommitmentPool = none then (some .ErrNoExecutorPool, c) else
      if rtState.Runtime.TxnScheduler.MaxInMessages = 0 then
        (some .ErrIncomingMessageQueueFull, c) else
      if msg.Fee < rtState.Runtime.Staking.MinInMessageFee then
        (some .ErrIncomingMessageInsufficientFee, c) else
      submitMsgTx app c rtState msg := by
  unfold Application.submitMsg
  by_cases hm : ctx.mode = .CheckTx
  · simp [Context.IsCheckOnly, hm]
  simp only [Context.IsCheckOnly, hm, decide_False, if_false, Bool.false_eq_true]
  simp only [MutableState.ConsensusParameters]
  cases hcp : app.faults .ConsensusParameters with
  | some code => simp
  | none =>
  simp only [Context.UseGas, MutableState.tree]
  by_cases hg : ctx.gas.usedGas +
      (ctx.state.consensusParameters.GasCosts .GasOpSubmitMsg).getD 0 > ctx.gas.maxUsedGas
  · simp only [Context.call, Nat.mul_one]
    simp [hg]
  simp only [Context.call, Nat.mul_one]
  simp only [hg, if_false]
  by_cases hs : ctx.mode = .SimulateTx
  · simp [Context.IsSimulation, hs, Context.charged, Context.call]
  simp only [Context.IsSimulation, hs, decide_False, if_false, Bool.false_eq_true]
  unfold Application.getRuntimeState MutableState.RuntimeState
  simp only [MutableState.tree, Context.call]
  cases hrs : app.faults .RuntimeState with
  | some code => simp [Context.charged, Context.call]
  | none =>
  cases hst : ctx.state.runtimeStates msg.ID with
  | none => simp [Context.charged, Context.call]
  | some rtState =>
  simp only []
  by_cases h1 : rtState.Suspended = true
  · simp [h1, Context.charged, Context.call]
  by_cases h2 : rtState.Committee = none
  · simp [h1, h2, Context.charged, Context.call]
  by_cases h3 : rtState.CommitmentPool = none
  · simp [h1, h2, h3, Context.charged, Context.call]
  have h2' : rtState.Committee.isNone = false := by
    cases hc : rtState.Committee <;> simp_all
  have h3' : rtState.CommitmentPool.isNone = false := by
    cases hc : rtState.CommitmentPool <;> simp_all
  simp only [h1, h2, h3, h2', h3', if_false, Bool.false_eq_true]
  by_cases h4 : rtState.Runtime.TxnScheduler.MaxInMessages = 0
  · simp [h4, Context.charged, Context.call]
  simp only [h4, if_false]
  by_cases h5 : msg.Fee < rtState.Runtime.Staking.MinInMessageFee
  · simp [h5, Context.charged, Context.call]
  simp only [h5, if_false]
  unfold submitMsgTx MutableState.Transfer
  simp only [Context.NewTransaction, Context.call, MutableState.tree, List.foldl_nil,
    Context.charged]
  cases ht : app.faults .Transfer with
  | some code => simp [Context.Close]
  | none =>
  simp only []
  by_cases hb : ctx.state.balances ctx.callerAddress < msg.Fee + msg.Tokens
  · simp [hb, Context.Close]
  simp only [hb, if_false]
  simp only [MutableState.IncomingMessageQueueMeta, MutableState.write, MutableState.tree,
    Context.call]
  cases hq : app.faults .IncomingMessageQueueMeta with
  | some code => simp [Context.Close]
  | none =>
  simp only []
  by_cases hf : (ctx.state.incomingMessageQueueMeta rtState.Runtime.ID).Size ≥
      rtState.Runtime.TxnScheduler.MaxInMessages
  · simp [hf, Context.Close]
  simp only [hf, if_false]
  simp only [MutableState.SetIncomingMessageInQueue, MutableState.write, Context.call]
  cases he : app.faults .SetIncomingMessageInQueue with
  | some code => simp [Context.Close]
  | none =>
  simp only [MutableState.SetIncomingMessageQueueMeta, MutableState.write, Context.call]
  cases hw : app.faults .SetIncomingMessageQueueMeta with
  | some code => simp [Context.Close]
  | none => simp [Context.Close, Context.Commit, Context.call]

/-- The three kinds of outcome of `submitMsg` as seen on the tree: nothing changed (the
call failed or did not run in deliver mode), the metadata store failed after the
message was written, or the message was admitted. -/
theorem submitMsg_outcome (app : Application) (ctx : Context) (msg : SubmitMsg) :
    ((app.submitMsg ctx msg).2.state = ctx.state ∧
      ((app.submitMsg ctx msg).1 ≠ none ∨ ctx.mode ≠ .ExecuteTx)) ∨
    (∃ rtState code, ctx.mode = .ExecuteTx ∧ ctx.state.runtimeStates msg.ID = some rtState ∧
      app.faults .SetIncomingMessageQueueMeta = some code ∧
      (app.submitMsg ctx msg).1 = some (.collaborator code) ∧
      (app.submitMsg ctx msg).2.state = ctx.state.apply (.SetIncomingMessageInQueue
        rtState.Runtime.ID
        (queuedMessage ctx (ctx.state.incomingMessageQueueMeta rtState.Runtime.ID) msg))) ∨
    (∃ rtState, ctx.mode = .ExecuteTx ∧ ctx.state.runtimeStates msg.ID = some rtState ∧
      (app.submitMsg ctx msg).1 = none ∧
      rtState.Runtime.Staking.MinInMessageFee ≤ msg.Fee ∧
      msg.Fee + msg.Tokens ≤ ctx.state.balances ctx.callerAddress ∧
      (ctx.state.incomingMessageQueueMeta rtState.Runtime.ID).Size <
        rtState.Runtime.TxnScheduler.MaxInMessages ∧
      (app.submitMsg ctx msg).2.state = ctx.state.admitted rtState.Runtime.ID
        ctx.callerAddress (app.NewRuntimeAddress rtState.Runtime.ID)
        (queuedMessage ctx (ctx.state.incomingMessageQueueMeta rtState.Runtime.ID) msg)
        (msg.Fee + msg.Tokens)) := by
  rw [submitMsg_eq]
  by_cases hm : ctx.mode = .CheckTx
  · left; simp [hm]
  simp only [hm, if_false]
  cases hcp : app.faults .ConsensusParameters with
  | some code => left; simp [Context.call]
  | none =>
  simp only []
  split
  · left; simp [Context.call]
  split
  · left; simp_all [Context.call, Context.charged]
  have hmode : ctx.mode = .ExecuteTx := by
    cases h : ctx.mode <;> simp_all
  cases hrs : app.faults .RuntimeState with
  | some code => left; simp [Context.call, Context.charged]
  | none =>
  cases hst : ctx.state.runtimeStates msg.ID with
  | none => left; simp [Context.call, Context.charged]
  | some rtState =>
  simp only []
  split
  · left; simp [Context.call, Context.charged]
  split
  · left; simp [Context.call, Context.charged]
  split
  · left; simp [Context.call, Context.charged]
  split
  · left; simp [Context.call, Context.charged]
  split
  · left; simp [Context.call, Context.charged]
  unfold submitMsgTx
  simp only [Context.call, Context.charged]
  cases ht : app.faults .Transfer with
  | some code => left; simp
  | none =>
  simp only []
  split
  · left; simp
  cases hq : app.faults .IncomingMessageQueueMeta with
  | some code => left; simp
  | none =>
  simp only []
  split
  · left; simp
  cases he : app.faults .SetIncomingMessageInQueue with
  | some code => left; simp
  | none =>
  cases hw : app.faults .SetIncomingMessageQueueMeta with
  | some code =>
    right; left
    exact ⟨rtState, code, hmode, rfl, rfl, rfl, rfl⟩
  | none =>
    right; right
    rename_i hfee hbal hsize
    exact ⟨rtState, hmode, rfl, rfl, Nat.le_of_not_lt hfee, Nat.le_of_not_lt hbal,
      Nat.lt_of_not_le hsize, rfl⟩

/-- What a successful load of the runtime state says about the tree. -/
theorem getRuntimeState_ok (app : Application) (ctx : Context) (state : MutableState)
    (id : Namespace) (rtState : RuntimeState)
    (h : (app.getRuntimeState ctx state id).1 = .ok rtState) :
    app.faults .RuntimeState = none ∧ (state.tree ctx).runtimeStates id = some rtState ∧
    ¬ rtState.Suspended = true ∧ ¬ rtState.Committee = none ∧
    ¬ rtState.CommitmentPool = none := by
  rw [getRuntimeState_fst] at h
  cases hf : app.faults .RuntimeState with
  | some code => simp [hf] at h
  | none =>
    cases hs : (state.tree ctx).runtimeStates id with
    | none => simp [hf, hs] at h
    | some s =>
      simp only [hf, hs] at h
      split at h
      · simp at h
      · split at h
        · simp at h
        · split at h
          · simp at h
          · simp only [Except.ok.injEq] at h
            subst h
            exact ⟨rfl, rfl, by assumption, by assumption, by assumption⟩

/-- In deliver mode, after a successful charge and load, `submitMsg` is decided by the
capacity check, the fee check and the nested transaction. -/
theorem submitMsg_loaded (app : Application) (ctx : Context) (msg : SubmitMsg)
    (rtState : RuntimeState) (hmode : ctx.mode = .ExecuteTx)
    (hparams : app.faults .ConsensusParameters = none)
    (hgas : (ctx.UseGas 1 .GasOpSubmitMsg ctx.state.consensusParameters.GasCosts).1 = none)
    (hload : (app.getRuntimeState ctx .outer msg.ID).1 = .ok rtState) :
    app.submitMsg ctx msg =
      if rtState.Runtime.TxnScheduler.MaxInMessages = 0 then
        (some .ErrIncomingMessageQueueFull,
          (ctx.charged .GasOpSubmitMsg).call (.RuntimeState msg.ID))
      else if msg.Fee < rtState.Runtime.Staking.MinInMessageFee then
        (some .ErrIncomingMessageInsufficientFee,
          (ctx.charged .GasOpSubmitMsg).call (.RuntimeState msg.ID))
      else submitMsgTx app ((ctx.charged .GasOpSubmitMsg).call (.RuntimeState msg.ID))
        rtState msg := by
  obtain ⟨hf, hs, h1, h2, h3⟩ := getRuntimeState_ok app ctx .outer msg.ID rtState hload
  have hg := UseGas_fst_none ctx _ _ hgas
  simp only [MutableState.tree] at hs
  rw [submitMsg_eq]
  simp [hmode, hparams, hg, hf, hs, h1, h2, h3]

/-- The nested transaction never returns the insufficient-fee error. -/
theorem submitMsgTx_fst_ne_fee (app : Application) (c : Context) (rtState : RuntimeState)
    (msg : SubmitMsg) :
    (submitMsgTx app c rtState msg).1 ≠ some .ErrIncomingMessageInsufficientFee := by
  unfold submitMsgTx
  simp only []
  repeat' split
  all_goals simp

/-- The nested transaction leaves events, mode, caller, height and gas alone. -/
theorem submitMsgTx_frame (app : Application) (c : Context) (rtState : RuntimeState)
    (msg : SubmitMsg) :
    (submitMsgTx app c rtState msg).2.events = c.events ∧
    (submitMsgTx app c rtState msg).2.mode = c.mode ∧
    (submitMsgTx app c rtState msg).2.callerAddress = c.callerAddress ∧
    (submitMsgTx app c rtState msg).2.blockHeight = c.blockHeight ∧
    (submitMsgTx app c rtState msg).2.gas = c.gas := by
  unfold submitMsgTx
  simp only []
  repeat' split
  all_goals simp

/-- The handler `submitMsg` leaves events, mode, caller and height alone. -/
theorem submitMsg_frame (app : Application) (ctx : Context) (msg : SubmitMsg) :
    (app.submitMsg ctx msg).2.events = ctx.events ∧
    (app.submitMsg ctx msg).2.mode = ctx.mode ∧
    (app.submitMsg ctx msg).2.callerAddress = ctx.callerAddress ∧
    (app.submitMsg ctx msg).2.blockHeight = ctx.blockHeight := by
  rw [submitMsg_eq]
  repeat' split
  all_goals first
    | exact ⟨rfl, rfl, rfl, rfl⟩
    | exact ⟨(submitMsgTx_frame app _ _ msg).1, (submitMsgTx_frame app _ _ msg).2.1,
        (submitMsgTx_frame app _ _ msg).2.2.1, (submitMsgTx_frame app _ _ msg).2.2.2.1⟩

/-- What a call that does not admit a message leaves of the tree: everything but, when
the metadata store fails, the message written just before it. -/
theorem submitMsg_not_admitted (app : Application) (ctx : Context) (msg : SubmitMsg)
    (h : ¬ (ctx.mode = .ExecuteTx ∧ (app.submitMsg ctx msg).1 = none)) :
    (app.submitMsg ctx msg).2.state.incomingMessageQueueMeta =
      ctx.state.incomingMessageQueueMeta ∧
    (app.submitMsg ctx msg).2.state.balances = ctx.state.balances ∧
    (app.submitMsg ctx msg).2.state.runtimeStates = ctx.state.runtimeStates ∧
    (app.submitMsg ctx msg).2.state.evidenceHashes = ctx.state.evidenceHashes ∧
    (app.submitMsg ctx msg).2.state.roundTimeouts = ctx.state.roundTimeouts ∧
    (app.submitMsg ctx msg).2.state.consensusParameters = ctx.state.consensusParameters ∧
    (app.faults .SetIncomingMessageQueueMeta = none →
      (app.submitMsg ctx msg).2.state = ctx.state) := by
  rcases submitMsg_outcome app ctx msg with h1 | h1 | h1
  · obtain ⟨hs, _⟩ := h1
    simp [hs]
  · obtain ⟨rtState, code, _, _, hw, _, hs⟩ := h1
    simp [hs, hw, Tree.apply]
  · obtain ⟨rtState, hm, _, hok, _⟩ := h1
    exact absurd ⟨hm, hok⟩ h

/-- What an admitting call does to the tree. -/
theorem submitMsg_admitted (app : Application) (ctx : Context) (msg : SubmitMsg)
    (h : ctx.mode = .ExecuteTx ∧ (app.submitMsg ctx msg).1 = none) :
    ∃ rtState, ctx.state.runtimeStates msg.ID = some rtState ∧
      (ctx.state.incomingMessageQueueMeta rtState.Runtime.ID).Size <
        rtState.Runtime.TxnScheduler.MaxInMessages ∧
      (app.submitMsg ctx msg).2.state = ctx.state.admitted rtState.Runtime.ID
        ctx.callerAddress (app.NewRuntimeAddress rtState.Runtime.ID)
        (queuedMessage ctx (ctx.state.incomingMessageQueueMeta rtState.Runtime.ID) msg)
        (msg.Fee + msg.Tokens) := by
  rcases submitMsg_outcome app ctx msg with h1 | h1 | h1
  · rcases h1 with ⟨_, h1 | h1⟩
    · exact absurd h.2 h1
    · exact absurd h.1 h1
  · obtain ⟨_, code, _, _, _, herr, _⟩ := h1
    rw [herr] at h
    simp at h
  · obtain ⟨rtState, _, hst, _, _, _, hsize, hstate⟩ := h1
    exact ⟨rtState, hst, hsize, hstate⟩

/-- The handler `submitMsg` never writes a runtime state. -/
theorem submitMsg_runtimeStates (app : Application) (ctx : Context) (msg : SubmitMsg) :
    (app.submitMsg ctx msg).2.state.runtimeStates = ctx.state.runtimeStates := by
  by_cases h : ctx.mode = .ExecuteTx ∧ (app.submitMsg ctx msg).1 = none
  · obtain ⟨rtState, _, _, hs⟩ := submitMsg_admitted app ctx msg h
    rw [hs]
    rfl
  · exact (submitMsg_not_admitted app ctx msg h).2.2.1

/-- One call preserves the queue bound of a runtime whose `MaxInMessages` is fixed. -/
theorem submitMsg_size_le (rid : Namespace) (M : Nat) (app : Application) (ctx : Context)
    (msg : SubmitMsg)
    (hfix : ∀ key rtState, ctx.state.runtimeStates key = some rtState →
      rtState.Runtime.ID = rid → rtState.Runtime.TxnScheduler.MaxInMessages = M)
    (hsize : (ctx.state.incomingMessageQueueMeta rid).Size ≤ M) :
    ((app.submitMsg ctx msg).2.state.incomingMessageQueueMeta rid).Size ≤ M := by
  by_cases h : ctx.mode = .ExecuteTx ∧ (app.submitMsg ctx msg).1 = none
  · obtain ⟨rtState, hst, hlt, hs⟩ := submitMsg_admitted app ctx msg h
    rw [hs]
    by_cases hr : rtState.Runtime.ID = rid
    · have hM := hfix _ _ hst hr
      subst hr
      simp only [Tree.admitted, Tree.apply, if_true]
      omega
    · have hr' : ¬ rid = rtState.Runtime.ID := fun e => hr e.symm
      simp only [Tree.admitted, Tree.apply, hr', if_false]
      exact hsize
  · rw [(submitMsg_not_admitted app ctx msg h).1]
    exact hsize

/-- A sequence of submissions never writes a runtime state. -/
theorem submitMsgs_runtimeStates (ctx : Context) (subs : List Submission) :
    (submitMsgs ctx subs).2.state.runtimeStates = ctx.state.runtimeStates := by
  induction subs generalizing ctx with
  | nil => rfl
  | cons s rest ih =>
    simp only [submitMsgs]
    rw [ih, submitMsg_runtimeStates]
    rfl

/-- Effect of one submission on the sequence counter of runtime `rid`. -/
theorem submission_next (rid : Namespace) (ctx : Context) (s : Submission) :
    (admits rid ctx s = true →
      ((s.app.submitMsg (ctx.enter s) s.msg).2.state.incomingMessageQueueMeta
          rid).NextSequenceNumber =
        ((ctx.state.incomingMessageQueueMeta rid).NextSequenceNumber + 1) % 2 ^ 64 ∧
      (s.app.submitMsg (ctx.enter s) s.msg).2.state.incomingMessageQueue rid
          (ctx.state.incomingMessageQueueMeta rid).NextSequenceNumber =
        some (queuedMessage (ctx.enter s) (ctx.state.incomingMessageQueueMeta rid) s.msg)) ∧
    (admits rid ctx s = false →
      ((s.app.submitMsg (ctx.enter s) s.msg).2.state.incomingMessageQueueMeta
          rid).NextSequenceNumber =
        (ctx.state.incomingMessageQueueMeta rid).NextSequenceNumber) := by
  constructor
  · intro ha
    simp only [admits, Bool.and_eq_true, decide_eq_true_eq] at ha
    obtain ⟨⟨hm, hok⟩, hrid⟩ := ha
    obtain ⟨rtState, hst, _, hs⟩ := submitMsg_admitted s.app (ctx.enter s) s.msg ⟨hm, hok⟩
    have hst' : ctx.state.runtimeStates s.msg.ID = some rtState := hst
    rw [hst'] at hrid
    simp only [Option.map_some', Option.some.injEq] at hrid
    subst hrid
    rw [hs]
    constructor
    · simp [Tree.admitted, Tree.apply, addUint64, Context.enter]
    · simp [Tree.admitted, Tree.apply, queuedMessage, Context.enter]
  · intro ha
    by_cases h : (ctx.enter s).mode = .ExecuteTx ∧ (s.app.submitMsg (ctx.enter s) s.msg).1 = none
    · obtain ⟨rtState, hst, _, hs⟩ := submitMsg_admitted s.app (ctx.enter s) s.msg h
      have hst' : ctx.state.runtimeStates s.msg.ID = some rtState := hst
      have hne : ¬ rid = rtState.Runtime.ID := by
        intro he
        have : admits rid ctx s = true := by
          simp only [admits, Bool.and_eq_true, decide_eq_true_eq]
          exact ⟨⟨h.1, h.2⟩, by rw [hst']; simp [he]⟩
        rw [this] at ha
        exact Bool.noConfusion ha
      rw [hs]
      simp [Tree.admitted, Tree.apply, hne, Context.enter]
    · rw [(submitMsg_not_admitted s.app (ctx.enter s) s.msg h).1]
      rfl

/-- As long as the counter does not wrap, the admitted IDs are consecutive from the
initial counter and the final counter is the initial one plus their number. -/
theorem admittedIDs_range (rid : Namespace) (subs : List Submission) :
    ∀ ctx : Context,
      (ctx.state.incomingMessageQueueMeta rid).NextSequenceNumber +
          (admittedIDs rid ctx subs).length < 2 ^ 64 →
      admittedIDs rid ctx subs =
        List.range' (ctx.state.incomingMessageQueueMeta rid).NextSequenceNumber
          (admittedIDs rid ctx subs).length ∧
      ((submitMsgs ctx subs).2.state.incomingMessageQueueMeta rid).NextSequenceNumber =
        (ctx.state.incomingMessageQueueMeta rid).NextSequenceNumber +
          (admittedIDs rid ctx subs).length := by
  induction subs with
  | nil => intro ctx _; simp [admittedIDs, submitMsgs]
  | cons s rest ih =>
    intro ctx hb
    obtain ⟨hyes, hno⟩ := submission_next rid ctx s
    simp only [admittedIDs, submitMsgs] at hb ⊢
    cases ha : admits rid ctx s with
    | true =>
      simp only [ha, if_true, List.singleton_append, List.length_cons] at hb ⊢
      have hn := (hyes ha).1
      have hlt : (ctx.state.incomingMessageQueueMeta rid).NextSequenceNumber + 1 < 2 ^ 64 := by
        omega
      rw [Nat.mod_eq_of_lt hlt] at hn
      have ih' := ih (s.app.submitMsg (ctx.enter s) s.msg).2 (by rw [hn]; omega)
      rw [hn] at ih'
      constructor
      · rw [List.range'_succ]
        simp only [queuedMessage]
        congr 1
        exact ih'.1
      · rw [ih'.2]; omega
    | false =>
      simp only [ha, List.nil_append] at hb ⊢
      have hn := hno ha
      have ih' := ih (s.app.submitMsg (ctx.enter s) s.msg).2 (by rw [hn]; exact hb)
      rw [hn] at ih'
      exact ih'

/-- A deliver-mode call on a loadable runtime with working collaborators and enough
gas: the three outcomes decided by the fee, the balance and the queue size. -/
theorem submitMsg_step (app : Application) (ctx : Context) (msg : SubmitMsg)
    (rtState : RuntimeState) (hmode : ctx.mode = .ExecuteTx)
    (hfaults : ∀ a, app.faults a = none)
    (hgas : ctx.gas.usedGas + (ctx.state.consensusParameters.GasCosts .GasOpSubmitMsg).getD 0 ≤
      ctx.gas.maxUsedGas)
    (hrt : ctx.state.runtimeStates msg.ID = some rtState)
    (hactive : rtState.Suspended = false) (hcommittee : rtState.Committee ≠ none)
    (hpool : rtState.CommitmentPool ≠ none)
    (hmax : rtState.Runtime.TxnScheduler.MaxInMessages ≠ 0) :
    (app.submitMsg ctx msg).2.mode = ctx.mode ∧
    (app.submitMsg ctx msg).2.callerAddress = ctx.callerAddress ∧
    (app.submitMsg ctx msg).2.gas =
      { ctx.gas with usedGas := ctx.gas.usedGas +
          (ctx.state.consensusParameters.GasCosts .GasOpSubmitMsg).getD 0 } ∧
    (msg.Fee < rtState.Runtime.Staking.MinInMessageFee →
      (app.submitMsg ctx msg).1 = some .ErrIncomingMessageInsufficientFee ∧
      (app.submitMsg ctx msg).2.state = ctx.state) ∧
    (rtState.Runtime.Staking.MinInMessageFee ≤ msg.Fee →
      msg.Fee + msg.Tokens ≤ ctx.state.balances ctx.callerAddress →
      rtState.Runtime.TxnScheduler.MaxInMessages ≤
        (ctx.state.incomingMessageQueueMeta rtState.Runtime.ID).Size →
      (app.submitMsg ctx msg).1 = some .ErrIncomingMessageQueueFull ∧
      (app.submitMsg ctx msg).2.state = ctx.state) ∧
    (rtState.Runtime.Staking.MinInMessageFee ≤ msg.Fee →
      msg.Fee + msg.Tokens ≤ ctx.state.balances ctx.callerAddress →
      (ctx.state.incomingMessageQueueMeta rtState.Runtime.ID).Size <
        rtState.Runtime.TxnScheduler.MaxInMessages →
      (app.submitMsg ctx msg).1 = none ∧
      (app.submitMsg ctx msg).2.state = ctx.state.admitted rtState.Runtime.ID
        ctx.callerAddress (app.NewRuntimeAddress rtState.Runtime.ID)
        (queuedMessage ctx (ctx.state.incomingMessageQueueMeta rtState.Runtime.ID) msg)
        (msg.Fee + msg.Tokens)) := by
  have hg : ¬ ctx.gas.usedGas + (ctx.state.consensusParameters.GasCosts .GasOpSubmitMsg).getD 0 >
      ctx.gas.maxUsedGas := Nat.not_lt.mpr hgas
  have hsusp : ¬ rtState.Suspended = true := by simp [hactive]
  rw [submitMsg_eq]
  simp only [hmode, hfaults, hg, hrt, hsusp, hcommittee, hpool, hmax, if_false]
  simp only [reduceCtorEq, if_false]
  by_cases hfee : msg.Fee < rtState.Runtime.Staking.MinInMessageFee
  · have hfee' : ¬ rtState.Runtime.Staking.MinInMessageFee ≤ msg.Fee := Nat.not_le.mpr hfee
    simp [hfee, hfee', hmode, Context.charged, Context.call]
  · have hfee' : rtState.Runtime.Staking.MinInMessageFee ≤ msg.Fee := Nat.le_of_not_lt hfee
    simp only [hfee, hfee', if_false, false_implies, true_implies, true_and]
    unfold submitMsgTx
    simp only [hfaults, Context.charged, Context.call]
    by_cases hbal : ctx.state.balances ctx.callerAddress < msg.Fee + msg.Tokens
    · have hbal' : ¬ msg.Fee + msg.Tokens ≤ ctx.state.balances ctx.callerAddress :=
        Nat.not_le.mpr hbal
      simp [hbal, hbal', hmode]
    · have hbal' : msg.Fee + msg.Tokens ≤ ctx.state.balances ctx.callerAddress :=
        Nat.le_of_not_lt hbal
      simp only [hbal, hbal', if_false, true_implies]
      by_cases hsize : (ctx.state.incomingMessageQueueMeta rtState.Runtime.ID).Size ≥
          rtState.Runtime.TxnScheduler.MaxInMessages
      · have hsize' : ¬ (ctx.state.incomingMessageQueueMeta rtState.Runtime.ID).Size <
            rtState.Runtime.TxnScheduler.MaxInMessages := Nat.not_lt.mpr hsize
        simp [hsize, hsize', hmode]
      · have hsize' : (ctx.state.incomingMessageQueueMeta rtState.Runtime.ID).Size <
            rtState.Runtime.TxnScheduler.MaxInMessages := Nat.lt_of_not_le hsize
        have hsize'' : ¬ rtState.Runtime.TxnScheduler.MaxInMessages ≤
            (ctx.state.incomingMessageQueueMeta rtState.Runtime.ID).Size := hsize
        simp [hsize'', hsize', hmode, Tree.admitted, queuedMessage]

/-- Queue metadata of the admitting runtime after an admission. -/
theorem admitted_meta (t : Tree) (id : Namespace) (src dst : Address) (inMsg : IncomingMessage)
    (total : Quantity) :
    (t.admitted id src dst inMsg total).incomingMessageQueueMeta id =
      { Size := (t.incomingMessageQueueMeta id).Size + 1,
        NextSequenceNumber := addUint64 (t.incomingMessageQueueMeta id).NextSequenceNumber 1 } := by
  simp [Tree.admitted, Tree.apply]

/-- An admission takes at most `total` from the sender. -/
theorem admitted_balance_src (t : Tree) (id : Namespace) (src dst : Address)
    (inMsg : IncomingMessage) (total : Quantity) :
    t.balances src - total ≤ (t.admitted id src dst inMsg total).balances src := by
  simp only [Tree.admitted, Tree.apply]
  by_cases h : src = dst
  · subst h
    simp
  · simp [h]

/-! ## Runtime state loading -/

/-- C1. `getRuntimeState`: a failure to fetch the state (accessor fault or unknown
runtime) is returned as a wrapped fetch error before any other check; for a stored
state `s` the result is `ErrRuntimeSuspended` if `s.Suspended`, otherwise
`ErrNoCommittee` if `s.Committee` is absent, otherwise `ErrNoExecutorPool` if
`s.CommitmentPool` is absent, otherwise `s` itself, unchanged. In particular a suspended
runtime with no committee reports `ErrRuntimeSuspended`. The tree is left as it was. -/
theorem getRuntimeState_priority (app : Application) (ctx : Context) (state : MutableState)
    (id : Namespace) :
    (app.getRuntimeState ctx state id).1 =
      (match app.faults .RuntimeState, (state.tree ctx).runtimeStates id with
       | some code, _ => .error (.failedToFetchRuntimeState (.collaborator code))
       | none, none => .error (.failedToFetchRuntimeState .ErrInvalidRuntime)
       | none, some s =>
         if s.Suspended = true then .error .ErrRuntimeSuspended
         else if s.Committee = none then .error .ErrNoCommittee
         else if s.CommitmentPool = none then .error .ErrNoExecutorPool
         else .ok s) ∧
    (app.getRuntimeState ctx state id).2.state = ctx.state ∧
    (app.getRuntimeState ctx state id).2.pending = ctx.pending := by
  refine ⟨getRuntimeState_fst app ctx state id, ?_, ?_⟩
  · rw [getRuntimeState_snd]; rfl
  · rw [getRuntimeState_snd]; rfl

/-! ## Validate-only mode and gas -/

/-- C2. Validate-only frame: in a check-only context, for every input, `executorCommit`
returns success and its only effect is one observer notification per submitted commit,
in submission order; `submitEvidence` returns the structural validation verdict and
`submitMsg` returns success, both leaving the context exactly as it was. In all three
the state tree, the gas accountant and the events are untouched. -/
theorem validate_only_frame (app : Application) (ctx : Context) (cc : ExecutorCommit)
    (evidence : Evidence) (msg : SubmitMsg) (h : ctx.mode = .CheckTx) :
    app.executorCommit ctx cc =
      (none, { ctx with
        calls := ctx.calls ++
          cc.Commits.map (fun ec => Call.DeliverExecutorCommitment cc.ID ec) }) ∧
    app.submitEvidence ctx evidence =
      ((evidence.ValidateBasic app).map Error.invalidEvidence, ctx) ∧
    app.submitMsg ctx msg = (none, ctx) := by
  refine ⟨?_, ?_, ?_⟩
  · unfold Application.executorCommit
    simp [Context.IsCheckOnly, h, foldl_call]
  · unfold Application.submitEvidence
    cases hv : evidence.ValidateBasic app with
    | some err => simp
    | none => simp [Context.IsCheckOnly, h]
  · rw [submitMsg_eq]
    simp [h]

/-- Witness for C2: a check-only run of the three handlers on the scenario data, with
a batch of two commits. -/
theorem validate_only_frame_witness :
    scenarioCheckCtx.mode = .CheckTx ∧
    (scenarioApp.executorCommit scenarioCheckCtx
        { ID := 1, Commits := [⟨11, 11, 101, 0⟩, ⟨12, 11, 101, 0⟩] } =
      (none, { scenarioCheckCtx with
        calls := scenarioCheckCtx.calls ++
          (ExecutorCommit.mk 1 [⟨11, 11, 101, 0⟩, ⟨12, 11, 101, 0⟩]).Commits.map
            (fun ec => Call.DeliverExecutorCommitment 1 ec) }) ∧
     scenarioApp.submitEvidence scenarioCheckCtx
        { ID := 1, EquivocationExecutor := none, EquivocationProposal := none } =
      ((Evidence.ValidateBasic scenarioApp
          { ID := 1, EquivocationExecutor := none, EquivocationProposal := none }).map
        Error.invalidEvidence, scenarioCheckCtx) ∧
     scenarioApp.submitMsg scenarioCheckCtx (scenarioMsg 10) = (none, scenarioCheckCtx)) :=
  ⟨rfl, validate_only_frame scenarioApp scenarioCheckCtx
    { ID := 1, Commits := [⟨11, 11, 101, 0⟩, ⟨12, 11, 101, 0⟩] }
    { ID := 1, EquivocationExecutor := none, EquivocationProposal := none }
    (scenarioMsg 10) rfl⟩

/-- C3. Gas before work: outside check-only mode, when the consensus parameters load
and the unit gas charge of the handler fails with `err`, each of `executorCommit`,
`submitEvidence` (for structurally valid evidence) and `submitMsg` returns `err`; the
only collaborator calls made are the parameter read and the failed charge, so the
runtime state is never loaded, and the state tree, the gas accountant and the events
are those before the call. -/
theorem gas_before_work (app : Application) (ctx : Context) (cc : ExecutorCommit)
    (evidence : Evidence) (msg : SubmitMsg) (hmode : ctx.mode ≠ .CheckTx)
    (hparams : app.faults .ConsensusParameters = none)
    (hvalid : evidence.ValidateBasic app = none) :
    (∀ err, (ctx.UseGas 1 .GasOpComputeCommit ctx.state.consensusParameters.GasCosts).1 =
        some err →
      app.executorCommit ctx cc =
        (some err, { ctx with
          calls := ctx.calls ++ [.ConsensusParameters, .UseGas 1 .GasOpComputeCommit] })) ∧
    (∀ err, (ctx.UseGas 1 .GasOpEvidence ctx.state.consensusParameters.GasCosts).1 =
        some err →
      app.submitEvidence ctx evidence =
        (some err, { ctx with
          calls := ctx.calls ++ [.ConsensusParameters, .UseGas 1 .GasOpEvidence] })) ∧
    (∀ err, (ctx.UseGas 1 .GasOpSubmitMsg ctx.state.consensusParameters.GasCosts).1 =
        some err →
      app.submitMsg ctx msg =
        (some err, { ctx with
          calls := ctx.calls ++ [.ConsensusParameters, .UseGas 1 .GasOpSubmitMsg] })) := by
  have hc : ctx.IsCheckOnly = false := by simp [Context.IsCheckOnly, hmode]
  refine ⟨?_, ?_, ?_⟩
  · intro err herr
    obtain ⟨he, hg⟩ := UseGas_fst_some ctx _ _ err herr
    unfold Application.executorCommit
    simp only [hc, MutableState.ConsensusParameters, hparams, MutableState.tree]
    simp only [Context.UseGas, Context.call, Nat.mul_one]
    simp [hg, he]
  · intro err herr
    obtain ⟨he, hg⟩ := UseGas_fst_some ctx _ _ err herr
    unfold Application.submitEvidence
    simp only [hvalid, hc, MutableState.ConsensusParameters, hparams, MutableState.tree]
    simp only [Context.UseGas, Context.call, Nat.mul_one]
    simp [hg, he]
  · intro err herr
    obtain ⟨he, hg⟩ := UseGas_fst_some ctx _ _ err herr
    rw [submitMsg_eq]
    simp only [hmode, if_false, hparams]
    simp [hg, he, Context.call]

/-- Witness for C3: with an exhausted gas accountant the three handlers return
`ErrOutOfGas` after the parameter read and the failed charge. -/
theorem gas_before_work_witness :
    scenarioNoGasCtx.mode ≠ .CheckTx ∧
    scenarioApp.faults .ConsensusParameters = none ∧
    scenarioEvidence.ValidateBasic scenarioApp = none ∧
    scenarioApp.executorCommit scenarioNoGasCtx scenarioCommits =
      (some .ErrOutOfGas, { scenarioNoGasCtx with
        calls := scenarioNoGasCtx.calls ++
          [.ConsensusParameters, .UseGas 1 .GasOpComputeCommit] }) ∧
    scenarioApp.submitEvidence scenarioNoGasCtx scenarioEvidence =
      (some .ErrOutOfGas, { scenarioNoGasCtx with
        calls := scenarioNoGasCtx.calls ++ [.ConsensusParameters, .UseGas 1 .GasOpEvidence] }) ∧
    scenarioApp.submitMsg scenarioNoGasCtx (scenarioMsg 10) =
      (some .ErrOutOfGas, { scenarioNoGasCtx with
        calls := scenarioNoGasCtx.calls ++ [.ConsensusParameters, .UseGas 1 .GasOpSubmitMsg] }) :=
  ⟨by decide, rfl, rfl,
    (gas_before_work scenarioApp scenarioNoGasCtx scenarioCommits scenarioEvidence
      (scenarioMsg 10) (by decide) rfl rfl).1 _ rfl,
    (gas_before_work scenarioApp scenarioNoGasCtx scenarioCommits scenarioEvidence
      (scenarioMsg 10) (by decide) rfl rfl).2.1 _ rfl,
    (gas_before_work scenarioApp scenarioNoGasCtx scenarioCommits scenarioEvidence
      (scenarioMsg 10) (by decide) rfl rfl).2.2 _ rfl⟩

/-! ## Incoming message admission -/

/-- C4. `submitMsg` success postcondition: when a deliver-mode call returns success, a
runtime state `rtState` was loaded for `msg.ID` and, with `(size, next)` the queue
metadata of its runtime before the call: (i) the metadata afterwards is
`(size + 1, next + 1)`, the sequence number being incremented as a `uint64`;
(ii) the queue holds at `next` a message with ID `next`, the transaction caller and the
tag, fee, tokens and data of `msg`; (iii) `Fee + Tokens` was available on the caller's
account and has moved to `NewRuntimeAddress` of the runtime ID, every other balance
being unchanged; and nothing else changes: other queues, other messages, runtime
states, evidence hashes, round timeouts, consensus parameters and events. -/
theorem submitMsg_success (app : Application) (ctx : Context) (msg : SubmitMsg)
    (hmode : ctx.mode = .ExecuteTx) (hok : (app.submitMsg ctx msg).1 = none) :
    ∃ rtState, ctx.state.runtimeStates msg.ID = some rtState ∧
      let rid := rtState.Runtime.ID
      let md := ctx.state.incomingMessageQueueMeta rid
      let total := msg.Fee + msg.Tokens
      let src := ctx.callerAddress
      let dst := app.NewRuntimeAddress rid
      let after := (app.submitMsg ctx msg).2.state
      after.incomingMessageQueueMeta rid =
        { Size := md.Size + 1, NextSequenceNumber := (md.NextSequenceNumber + 1) % 2 ^ 64 } ∧
      after.incomingMessageQueue rid md.NextSequenceNumber =
        some { ID := md.NextSequenceNumber, Caller := src, Tag := msg.Tag, Fee := msg.Fee,
               Tokens := msg.Tokens, Data := msg.Data } ∧
      total ≤ ctx.state.balances src ∧
      (src ≠ dst → after.balances src = ctx.state.balances src - total ∧
        after.balances dst = ctx.state.balances dst + total) ∧
      (src = dst → after.balances src = ctx.state.balances src) ∧
      (∀ a, a ≠ src → a ≠ dst → after.balances a = ctx.state.balances a) ∧
      (∀ i, i ≠ rid → after.incomingMessageQueueMeta i = ctx.state.incomingMessageQueueMeta i) ∧
      (∀ i n, ¬ (i = rid ∧ n = md.NextSequenceNumber) →
        after.incomingMessageQueue i n = ctx.state.incomingMessageQueue i n) ∧
      after.runtimeStates = ctx.state.runtimeStates ∧
      after.evidenceHashes = ctx.state.evidenceHashes ∧
      after.roundTimeouts = ctx.state.roundTimeouts ∧
      after.consensusParameters = ctx.state.consensusParameters ∧
      (app.submitMsg ctx msg).2.events = ctx.events := by
  rcases submitMsg_outcome app ctx msg with h | h | h
  · rcases h with ⟨_, h | h⟩
    · exact absurd hok h
    · exact absurd hmode h
  · obtain ⟨_, code, _, _, _, herr, _⟩ := h
    rw [herr] at hok
    simp at hok
  · obtain ⟨rtState, _, hst, _, _, hbal, _, hstate⟩ := h
    refine ⟨rtState, hst, ?_⟩
    simp only [hstate]
    refine ⟨?_, ?_, hbal, ?_, ?_, ?_, ?_, ?_, rfl, rfl, rfl, rfl, ?_⟩
    · simp [Tree.admitted, Tree.apply, addUint64]
    · simp [Tree.admitted, Tree.apply, queuedMessage]
    · intro hne
      simp only [Tree.admitted, Tree.apply]
      simp [hne, Ne.symm hne]
    · intro he
      simp only [Tree.admitted, Tree.apply]
      simp [← he]
      exact Nat.sub_add_cancel hbal
    · intro a h1 h2
      simp [Tree.admitted, Tree.apply, h1, h2]
    · intro i hi
      simp [Tree.admitted, Tree.apply, hi]
    · intro i n hin
      simp only [Tree.admitted, Tree.apply, queuedMessage]
      simp [hin]
    · exact (submitMsg_frame app ctx msg).1

/-- Witness for C4: the first admitted message of the scenario. -/
theorem submitMsg_success_witness :
    scenarioCtx.mode = .ExecuteTx ∧
    (scenarioApp.submitMsg scenarioCtx (scenarioMsg 10)).1 = none ∧
    (scenarioApp.submitMsg scenarioCtx (scenarioMsg 10)).2.state.incomingMessageQueueMeta 1 =
      { Size := 1, NextSequenceNumber := 1 } ∧
    (scenarioApp.submitMsg scenarioCtx (scenarioMsg 10)).2.state.balances 7 = 987 ∧
    (scenarioApp.submitMsg scenarioCtx (scenarioMsg 10)).2.state.balances 1001 = 13 := by
  obtain ⟨rtState, hrt, hmeta, -, -, hbal, -⟩ :=
    submitMsg_success scenarioApp scenarioCtx (scenarioMsg 10) rfl rfl
  have hrt' : rtState = scenarioRuntime := by
    have h : some scenarioRuntime = some rtState := hrt
    exact (Option.some.inj h).symm
  subst hrt'
  exact ⟨rfl, rfl, hmeta, (hbal (by decide)).1, (hbal (by decide)).2⟩

/-- C5. Queue bound invariant: fix a runtime ID `rid` and a bound `M` such that every
stored runtime state of that runtime has `MaxInMessages = M`. If the queue metadata of
`rid` satisfies `Size ≤ M`, it still does after any `submitMsg` call, in any mode and
whether the call succeeds or fails, and after every finite sequence of submissions;
in particular this holds from an empty queue. -/
theorem queue_bound_invariant (rid : Namespace) (M : Nat) (ctx : Context)
    (hfix : ∀ key rtState, ctx.state.runtimeStates key = some rtState →
      rtState.Runtime.ID = rid → rtState.Runtime.TxnScheduler.MaxInMessages = M)
    (hsize : (ctx.state.incomingMessageQueueMeta rid).Size ≤ M) :
    (∀ (app : Application) (msg : SubmitMsg),
      ((app.submitMsg ctx msg).2.state.incomingMessageQueueMeta rid).Size ≤ M) ∧
    (∀ subs : List Submission,
      ((submitMsgs ctx subs).2.state.incomingMessageQueueMeta rid).Size ≤ M) := by
  refine ⟨fun app msg => submitMsg_size_le rid M app ctx msg hfix hsize, ?_⟩
  intro subs
  induction subs generalizing ctx with
  | nil => exact hsize
  | cons s rest ih =>
    simp only [submitMsgs]
    apply ih
    · intro key rtState hk hr
      rw [submitMsg_runtimeStates] at hk
      exact hfix key rtState hk hr
    · exact submitMsg_size_le rid M s.app (ctx.enter s) s.msg hfix hsize

/-- Witness for C5: the scenario runtime, bound 2, empty queue. -/
theorem queue_bound_invariant_witness :
    (scenarioCtx.state.incomingMessageQueueMeta 1).Size ≤ 2 ∧
    ((submitMsgs scenarioCtx
        [scenarioSubmission 10, scenarioSubmission 10,
          scenarioSubmission 10]).2.state.incomingMessageQueueMeta 1).Size ≤ 2 :=
  ⟨by decide,
    (queue_bound_invariant 1 2 scenarioCtx
      (by
        intro key rtState h _
        by_cases hk : key = 1
        · have h' : some scenarioRuntime = some rtState := by
            simpa [scenarioCtx, scenarioTree, hk] using h
          rw [← Option.some.inj h']
          rfl
        · simp [scenarioCtx, scenarioTree, hk] at h)
      (by decide)).2 _⟩

/-- Counterexample to C6 as stated: from `NextSequenceNumber = 2^64 - 1` a deliver-mode
call succeeds, stores its message under ID `2^64 - 1`, and leaves
`NextSequenceNumber = 0`, which is not greater than the value before the call. -/
theorem sequence_number_wraps :
    scenarioWrapCtx.mode = .ExecuteTx ∧
    (scenarioApp.submitMsg scenarioWrapCtx (scenarioMsg 10)).1 = none ∧
    (scenarioWrapCtx.state.incomingMessageQueueMeta 1).NextSequenceNumber = 2 ^ 64 - 1 ∧
    (scenarioApp.submitMsg scenarioWrapCtx (scenarioMsg 10)).2.state.incomingMessageQueue 1
        (2 ^ 64 - 1) =
      some { ID := 2 ^ 64 - 1, Caller := 7, Tag := 0, Fee := 10, Tokens := 3, Data := [] } ∧
    ((scenarioApp.submitMsg scenarioWrapCtx (scenarioMsg 10)).2.state.incomingMessageQueueMeta
      1).NextSequenceNumber = 0 ∧
    ¬ ((scenarioWrapCtx.state.incomingMessageQueueMeta 1).NextSequenceNumber <
      ((scenarioApp.submitMsg scenarioWrapCtx (scenarioMsg 10)).2.state.incomingMessageQueueMeta
        1).NextSequenceNumber) := by
  refine ⟨rfl, rfl, rfl, ?_, ?_, ?_⟩
  · decide
  · decide
  · decide

/-- C6 (amended). Sequence numbers: a submission that admits a message into the queue
of runtime `rid` stores it under the `NextSequenceNumber` found before the call and
leaves `NextSequenceNumber` incremented modulo `2^64`; any other submission leaves it
unchanged. Hence, over every sequence of submissions during which the counter does not
pass `2^64 - 1`, the IDs given to the admitted messages are the consecutive numbers
starting at the initial `NextSequenceNumber`, strictly increasing without gaps or
repeats, and the final `NextSequenceNumber` is the initial one plus the number of
admitted messages. -/
theorem sequence_numbers (rid : Namespace) (ctx : Context) (subs : List Submission)
    (hbound : (ctx.state.incomingMessageQueueMeta rid).NextSequenceNumber +
      (admittedIDs rid ctx subs).length < 2 ^ 64) :
    admittedIDs rid ctx subs =
      List.range' (ctx.state.incomingMessageQueueMeta rid).NextSequenceNumber
        (admittedIDs rid ctx subs).length ∧
    (admittedIDs rid ctx subs).Pairwise (fun a b => a < b) ∧
    ((submitMsgs ctx subs).2.state.incomingMessageQueueMeta rid).NextSequenceNumber =
      (ctx.state.incomingMessageQueueMeta rid).NextSequenceNumber +
        (admittedIDs rid ctx subs).length ∧
    (∀ s : Submission,
      (admits rid ctx s = true →
        ((s.app.submitMsg (ctx.enter s) s.msg).2.state.incomingMessageQueueMeta
            rid).NextSequenceNumber =
          ((ctx.state.incomingMessageQueueMeta rid).NextSequenceNumber + 1) % 2 ^ 64 ∧
        (s.app.submitMsg (ctx.enter s) s.msg).2.state.incomingMessageQueue rid
            (ctx.state.incomingMessageQueueMeta rid).NextSequenceNumber =
          some (queuedMessage (ctx.enter s) (ctx.state.incomingMessageQueueMeta rid) s.msg)) ∧
      (admits rid ctx s = false →
        ((s.app.submitMsg (ctx.enter s) s.msg).2.state.incomingMessageQueueMeta
            rid).NextSequenceNumber =
          (ctx.state.incomingMessageQueueMeta rid).NextSequenceNumber)) := by
  obtain ⟨h1, h2⟩ := admittedIDs_range rid subs ctx hbound
  refine ⟨h1, ?_, h2, fun s => submission_next rid ctx s⟩
  rw [h1]
  exact List.pairwise_lt_range' _ _

/-- Witness for C6: four scenario submissions from an empty queue; the IDs of the
admitted messages are consecutive from 0. -/
theorem sequence_numbers_witness :
    (scenarioCtx.state.incomingMessageQueueMeta 1).NextSequenceNumber +
      (admittedIDs 1 scenarioCtx
        [scenarioSubmission 5, scenarioSubmission 10, scenarioSubmission 10,
          scenarioSubmission 10]).length < 2 ^ 64 ∧
    admittedIDs 1 scenarioCtx
        [scenarioSubmission 5, scenarioSubmission 10, scenarioSubmission 10,
          scenarioSubmission 10] =
      List.range' (scenarioCtx.state.incomingMessageQueueMeta 1).NextSequenceNumber
        (admittedIDs 1 scenarioCtx
          [scenarioSubmission 5, scenarioSubmission 10, scenarioSubmission 10,
            scenarioSubmission 10]).length :=
  ⟨by decide,
    (sequence_numbers 1 scenarioCtx
      [scenarioSubmission 5, scenarioSubmission 10, scenarioSubmission 10,
        scenarioSubmission 10] (by decide)).1⟩

/-- C7. Evaluation at the failing input: in deliver mode, with the metadata store
failing after the message was queued, `submitMsg` returns the store error and rolls
the transfer back (balances and metadata are those before the call), but the message
written through the handle of the outer context stays in the queue, which held nothing
at that position before the call. -/
theorem metadata_store_failure_leaves_message :
    scenarioCtx.mode = .ExecuteTx ∧
    (scenarioMetaStoreFaultApp.submitMsg scenarioCtx (scenarioMsg 10)).1 =
      some (.collaborator 7) ∧
    scenarioCtx.state.incomingMessageQueue 1 0 = none ∧
    (scenarioMetaStoreFaultApp.submitMsg scenarioCtx (scenarioMsg 10)).2.state.incomingMessageQueue
        1 0 =
      some { ID := 0, Caller := 7, Tag := 0, Fee := 10, Tokens := 3, Data := [] } ∧
    (scenarioMetaStoreFaultApp.submitMsg scenarioCtx (scenarioMsg 10)).2.state.incomingMessageQueueMeta
        1 = { Size := 0, NextSequenceNumber := 0 } ∧
    (scenarioMetaStoreFaultApp.submitMsg scenarioCtx (scenarioMsg 10)).2.state.balances 7 = 1000 ∧
    (scenarioMetaStoreFaultApp.submitMsg scenarioCtx (scenarioMsg 10)).2.state.balances 1001 = 0 := by
  refine ⟨rfl, ?_, rfl, ?_, ?_, ?_, ?_⟩ <;> decide

/-- C8. Zero capacity is a standing rejection: in deliver mode, when the gas charge
succeeds and the runtime state loads with `MaxInMessages = 0`, `submitMsg` fails with
`ErrIncomingMessageQueueFull` for every message and every queue content; the only
collaborator calls are the parameter read, the gas charge and the runtime state read,
so no nested transaction is opened, no transfer is attempted and the queue metadata is
not read, and the tree is unchanged. -/
theorem zero_capacity (app : Application) (ctx : Context) (msg : SubmitMsg)
    (rtState : RuntimeState) (hmode : ctx.mode = .ExecuteTx)
    (hparams : app.faults .ConsensusParameters = none)
    (hgas : (ctx.UseGas 1 .GasOpSubmitMsg ctx.state.consensusParameters.GasCosts).1 = none)
    (hload : (app.getRuntimeState ctx .outer msg.ID).1 = .ok rtState)
    (hzero : rtState.Runtime.TxnScheduler.MaxInMessages = 0) :
    (app.submitMsg ctx msg).1 = some .ErrIncomingMessageQueueFull ∧
    (app.submitMsg ctx msg).2.calls =
      ctx.calls ++ [.ConsensusParameters, .UseGas 1 .GasOpSubmitMsg, .RuntimeState msg.ID] ∧
    (app.submitMsg ctx msg).2.state = ctx.state ∧
    (app.submitMsg ctx msg).2.events = ctx.events ∧
    (app.submitMsg ctx msg).2.pending = ctx.pending := by
  rw [submitMsg_loaded app ctx msg rtState hmode hparams hgas hload]
  simp [hzero, Context.charged, Context.call]

/-- Witness for C8: a fee-10 message to the scenario runtime with a disabled queue. -/
theorem zero_capacity_witness :
    scenarioZeroCapacityCtx.mode = .ExecuteTx ∧
    (scenarioApp.submitMsg scenarioZeroCapacityCtx (scenarioMsg 10)).1 =
      some .ErrIncomingMessageQueueFull ∧
    (scenarioApp.submitMsg scenarioZeroCapacityCtx (scenarioMsg 10)).2.calls =
      scenarioZeroCapacityCtx.calls ++
        [.ConsensusParameters, .UseGas 1 .GasOpSubmitMsg, .RuntimeState (scenarioMsg 10).ID] :=
  ⟨rfl,
    (zero_capacity scenarioApp scenarioZeroCapacityCtx (scenarioMsg 10)
      { scenarioRuntime with
        Runtime := { scenarioRuntime.Runtime with TxnScheduler := { MaxInMessages := 0 } } }
      rfl rfl rfl rfl rfl).1,
    (zero_capacity scenarioApp scenarioZeroCapacityCtx (scenarioMsg 10)
      { scenarioRuntime with
        Runtime := { scenarioRuntime.Runtime with TxnScheduler := { MaxInMessages := 0 } } }
      rfl rfl rfl rfl rfl).2.1⟩

/-- C9. Fee floor: in deliver mode, when the gas charge succeeds and the runtime state
loads with `MaxInMessages > 0`, `submitMsg` fails with
`ErrIncomingMessageInsufficientFee` if and only if `msg.Fee < MinInMessageFee` (a fee
equal to the minimum passes the check); on that failure the tree is unchanged and no
transfer is attempted. -/
theorem fee_floor (app : Application) (ctx : Context) (msg : SubmitMsg)
    (rtState : RuntimeState) (hmode : ctx.mode = .ExecuteTx)
    (hparams : app.faults .ConsensusParameters = none)
    (hgas : (ctx.UseGas 1 .GasOpSubmitMsg ctx.state.consensusParameters.GasCosts).1 = none)
    (hload : (app.getRuntimeState ctx .outer msg.ID).1 = .ok rtState)
    (hcap : 0 < rtState.Runtime.TxnScheduler.MaxInMessages) :
    ((app.submitMsg ctx msg).1 = some .ErrIncomingMessageInsufficientFee ↔
      msg.Fee < rtState.Runtime.Staking.MinInMessageFee) ∧
    (msg.Fee < rtState.Runtime.Staking.MinInMessageFee →
      (app.submitMsg ctx msg).2.state = ctx.state ∧
      (app.submitMsg ctx msg).2.calls =
        ctx.calls ++ [.ConsensusParameters, .UseGas 1 .GasOpSubmitMsg, .RuntimeState msg.ID]) := by
  rw [submitMsg_loaded app ctx msg rtState hmode hparams hgas hload]
  have hne : rtState.Runtime.TxnScheduler.MaxInMessages ≠ 0 := by omega
  simp only [hne, if_false]
  by_cases hfee : msg.Fee < rtState.Runtime.Staking.MinInMessageFee
  · simp [hfee, Context.charged, Context.call]
  · simp only [hfee, if_false, iff_false, false_implies, and_true]
    exact submitMsgTx_fst_ne_fee app _ rtState msg

/-- Witness for C9: a fee-5 message against the scenario minimum of 10. -/
theorem fee_floor_witness :
    scenarioCtx.mode = .ExecuteTx ∧
    0 < scenarioRuntime.Runtime.TxnScheduler.MaxInMessages ∧
    ((scenarioApp.submitMsg scenarioCtx (scenarioMsg 5)).1 =
        some .ErrIncomingMessageInsufficientFee ↔
      (scenarioMsg 5).Fee < scenarioRuntime.Runtime.Staking.MinInMessageFee) :=
  ⟨rfl, by decide,
    (fee_floor scenarioApp scenarioCtx (scenarioMsg 5) scenarioRuntime rfl rfl rfl rfl
      (by decide)).1⟩

/-- C10. Scenario A: for a loadable runtime with `MaxInMessages = 2` and
`MinInMessageFee = 10`, an empty queue `(0, 0)`, working collaborators, gas for four
charges and a caller balance covering three transfers, four consecutive deliver-mode
calls threaded through the state give: fee 5, `ErrIncomingMessageInsufficientFee` with
the queue still `(0, 0)`; fee 10, success with `(1, 1)`; fee 10, success with `(2, 2)`;
fee 10, `ErrIncomingMessageQueueFull` with the queue still `(2, 2)` and the caller's
balance as it was before that call. -/
theorem scenario_A (app : Application) (ctx : Context) (rtState : RuntimeState)
    (id : Namespace) (m1 m2 m3 m4 : SubmitMsg)
    (hmode : ctx.mode = .ExecuteTx)
    (hfaults : ∀ a, app.faults a = none)
    (hrt : ctx.state.runtimeStates id = some rtState)
    (hactive : rtState.Suspended = false) (hcommittee : rtState.Committee ≠ none)
    (hpool : rtState.CommitmentPool ≠ none)
    (hmax : rtState.Runtime.TxnScheduler.MaxInMessages = 2)
    (hmin : rtState.Runtime.Staking.MinInMessageFee = 10)
    (hempty : ctx.state.incomingMessageQueueMeta rtState.Runtime.ID =
      { Size := 0, NextSequenceNumber := 0 })
    (hid : m1.ID = id ∧ m2.ID = id ∧ m3.ID = id ∧ m4.ID = id)
    (hfee : m1.Fee = 5 ∧ m2.Fee = 10 ∧ m3.Fee = 10 ∧ m4.Fee = 10)
    (hgas : ctx.gas.usedGas +
      4 * (ctx.state.consensusParameters.GasCosts .GasOpSubmitMsg).getD 0 ≤ ctx.gas.maxUsedGas)
    (hbal : (m2.Fee + m2.Tokens) + (m3.Fee + m3.Tokens) + (m4.Fee + m4.Tokens) ≤
      ctx.state.balances ctx.callerAddress) :
    (app.submitMsg ctx m1).1 = some .ErrIncomingMessageInsufficientFee ∧
    (app.submitMsg ctx m1).2.state.incomingMessageQueueMeta rtState.Runtime.ID =
      { Size := 0, NextSequenceNumber := 0 } ∧
    (app.submitMsg (app.submitMsg ctx m1).2 m2).1 = none ∧
    (app.submitMsg (app.submitMsg ctx m1).2 m2).2.state.incomingMessageQueueMeta
      rtState.Runtime.ID = { Size := 1, NextSequenceNumber := 1 } ∧
    (app.submitMsg (app.submitMsg (app.submitMsg ctx m1).2 m2).2 m3).1 = none ∧
    (app.submitMsg (app.submitMsg (app.submitMsg ctx m1).2 m2).2 m3).2.state.incomingMessageQueueMeta
      rtState.Runtime.ID = { Size := 2, NextSequenceNumber := 2 } ∧
    (app.submitMsg (app.submitMsg (app.submitMsg (app.submitMsg ctx m1).2 m2).2 m3).2 m4).1 =
      some .ErrIncomingMessageQueueFull ∧
    (app.submitMsg (app.submitMsg (app.submitMsg (app.submitMsg ctx m1).2 m2).2 m3).2
      m4).2.state.incomingMessageQueueMeta rtState.Runtime.ID =
      { Size := 2, NextSequenceNumber := 2 } ∧
    (app.submitMsg (app.submitMsg (app.submitMsg (app.submitMsg ctx m1).2 m2).2 m3).2
      m4).2.state.balances ctx.callerAddress =
    (app.submitMsg (app.submitMsg (app.submitMsg ctx m1).2 m2).2 m3).2.state.balances
      ctx.callerAddress := by
  obtain ⟨hid1, hid2, hid3, hid4⟩ := hid
  obtain ⟨hfee1, hfee2, hfee3, hfee4⟩ := hfee
  have hmax0 : rtState.Runtime.TxnScheduler.MaxInMessages ≠ 0 := by omega
  -- first call: fee 5
  obtain ⟨hmode1, hcaller1, hgas1, hlow1, -, -⟩ := submitMsg_step app ctx m1 rtState hmode
    hfaults (by omega) (by rw [hid1]; exact hrt) hactive hcommittee hpool hmax0
  obtain ⟨he1, hs1⟩ := hlow1 (by rw [hfee1, hmin]; decide)
  generalize app.submitMsg ctx m1 = r1 at *
  -- second call: fee 10
  obtain ⟨hmode2, hcaller2, hgas2, -, -, hadmit2⟩ := submitMsg_step app r1.2 m2 rtState
    (by rw [hmode1]; exact hmode) hfaults (by rw [hgas1, hs1]; simp only []; omega)
    (by rw [hs1, hid2]; exact hrt) hactive hcommittee hpool hmax0
  obtain ⟨he2, hs2⟩ := hadmit2 (by rw [hfee2, hmin])
    (by rw [hs1, hcaller1]; simp only [Quantity] at *; omega) (by rw [hs1, hempty, hmax]; decide)
  generalize app.submitMsg r1.2 m2 = r2 at *
  have hmeta2 : r2.2.state.incomingMessageQueueMeta rtState.Runtime.ID =
      { Size := 1, NextSequenceNumber := 1 } := by
    rw [hs2, admitted_meta, hs1, hempty]
    rfl
  have hbal2 : ctx.state.balances ctx.callerAddress - (m2.Fee + m2.Tokens) ≤
      r2.2.state.balances ctx.callerAddress := by
    rw [hs2, hcaller1, hs1]
    exact admitted_balance_src _ _ _ _ _ _
  -- third call: fee 10
  obtain ⟨hmode3, hcaller3, hgas3, -, -, hadmit3⟩ := submitMsg_step app r2.2 m3 rtState
    (by rw [hmode2, hmode1]; exact hmode) hfaults
    (by rw [hgas2, hs2, hgas1, hs1]; simp only [Tree.admitted, Tree.apply]; omega)
    (by rw [hs2, hs1, hid3]; exact hrt) hactive hcommittee hpool hmax0
  obtain ⟨he3, hs3⟩ := hadmit3 (by rw [hfee3, hmin])
    (by rw [hcaller2, hcaller1]; simp only [Quantity] at *; omega) (by rw [hmeta2, hmax]; decide)
  generalize app.submitMsg r2.2 m3 = r3 at *
  have hmeta3 : r3.2.state.incomingMessageQueueMeta rtState.Runtime.ID =
      { Size := 2, NextSequenceNumber := 2 } := by
    rw [hs3, admitted_meta, hmeta2]
    rfl
  have hbal3 : r2.2.state.balances ctx.callerAddress - (m3.Fee + m3.Tokens) ≤
      r3.2.state.balances ctx.callerAddress := by
    rw [hs3, hcaller2, hcaller1]
    exact admitted_balance_src _ _ _ _ _ _
  -- fourth call: fee 10, queue full
  obtain ⟨-, hcaller4, -, -, hfull4, -⟩ := submitMsg_step app r3.2 m4 rtState
    (by rw [hmode3, hmode2, hmode1]; exact hmode) hfaults
    (by rw [hgas3, hs3, hgas2, hs2, hgas1, hs1]; simp only [Tree.admitted, Tree.apply]; omega)
    (by rw [hs3, hs2, hs1, hid4]; exact hrt) hactive hcommittee hpool hmax0
  obtain ⟨he4, hs4⟩ := hfull4 (by rw [hfee4, hmin])
    (by rw [hcaller3, hcaller2, hcaller1]; simp only [Quantity] at *; omega) (by rw [hmeta3, hmax])
  refine ⟨he1, by rw [hs1]; exact hempty, he2, hmeta2, he3, hmeta3, he4, ?_, ?_⟩
  · rw [hs4]; exact hmeta3
  · rw [hs4]

/-- Witness for C10: the scenario data. -/
theorem scenario_A_witness :
    scenarioCtx.state.incomingMessageQueueMeta scenarioRuntime.Runtime.ID =
      { Size := 0, NextSequenceNumber := 0 } ∧
    (scenarioApp.submitMsg scenarioCtx (scenarioMsg 5)).1 =
      some .ErrIncomingMessageInsufficientFee ∧
    (scenarioApp.submitMsg (scenarioApp.submitMsg (scenarioApp.submitMsg
      (scenarioApp.submitMsg scenarioCtx (scenarioMsg 5)).2 (scenarioMsg 10)).2
      (scenarioMsg 10)).2 (scenarioMsg 10)).1 = some .ErrIncomingMessageQueueFull :=
  ⟨rfl,
    (scenario_A scenarioApp scenarioCtx scenarioRuntime 1 (scenarioMsg 5) (scenarioMsg 10)
      (scenarioMsg 10) (scenarioMsg 10) rfl (fun _ => rfl) rfl rfl (by decide) (by decide)
      rfl rfl rfl ⟨rfl, rfl, rfl, rfl⟩ ⟨rfl, rfl, rfl, rfl⟩ (by decide) (by decide)).1,
    (scenario_A scenarioApp scenarioCtx scenarioRuntime 1 (scenarioMsg 5) (scenarioMsg 10)
      (scenarioMsg 10) (scenarioMsg 10) rfl (fun _ => rfl) rfl rfl (by decide) (by decide)
      rfl rfl rfl ⟨rfl, rfl, rfl, rfl⟩ ⟨rfl, rfl, rfl, rfl⟩ (by decide)
      (by decide)).2.2.2.2.2.2.1⟩

/-! ## Characterisation of `submitEvidence` and `executorCommit` -/

/-- Flattened form of `submitEvidence`: every branch with the context it returns. -/
theorem submitEvidence_eq (app : Application) (ctx : Context) (evidence : Evidence) :
    app.submitEvidence ctx evidence =
      match evidence.ValidateBasic app with
      | some err => (some (.invalidEvidence err), ctx)
      | none =>
      if ctx.mode = .CheckTx then (none, ctx) else
      match app.faults .ConsensusParameters with
      | some code => (some (.collaborator code), ctx.call .ConsensusParameters)
      | none =>
      if ctx.gas.usedGas + (ctx.state.consensusParameters.GasCosts .GasOpEvidence).getD 0
          > ctx.gas.maxUsedGas then
        (some .ErrOutOfGas, (ctx.call .ConsensusParameters).call (.UseGas 1 .GasOpEvidence))
      else
      if ctx.mode = .SimulateTx then (none, ctx.charged .GasOpEvidence) else
      let c := (ctx.charged .GasOpEvidence).call (.RuntimeState evidence.ID)
      match app.faults .RuntimeState with
      | some code => (some (.failedToFetchRuntimeState (.collaborator code)), c)
      | none =>
      match ctx.state.runtimeStates evidence.ID with
      | none => (some (.failedToFetchRuntimeState .ErrInvalidRuntime), c)
      | some rtState =>
      if rtState.Suspended = true then (some .ErrRuntimeSuspended, c) else
      if rtState.Committee = none then (some .ErrNoCommittee, c) else
      if rtState.CommitmentPool = none then (some .ErrNoExecutorPool, c) else
      if rtState.Runtime.Staking.Slashing.length = 0 then
        (some .ErrRuntimeDoesNotSlash, c) else
      if (slashingLookup rtState.Runtime.Staking.Slashing .SlashRuntimeEquivocation).Amount = 0
        then (some .ErrRuntimeDoesNotSlash, c) else
      match evidenceRound evidence ctx.state.consensusParameters rtState with
      | .error err => (some err, c)
      | .ok (round, pk) =>
        submitEvidenceStore app c rtState round pk
          (slashingLookup rtState.Runtime.Staking.Slashing .SlashRuntimeEquivocation).Amount
          evidence := by
  unfold Application.submitEvidence
  cases hv : evidence.ValidateBasic app with
  | some err => rfl
  | none =>
  simp only []
  by_cases hm : ctx.mode = .CheckTx
  · simp [Context.IsCheckOnly, hm]
  simp only [Context.IsCheckOnly, hm, decide_False, if_false, Bool.false_eq_true]
  simp only [MutableState.ConsensusParameters]
  cases hcp : app.faults .ConsensusParameters with
  | some code => simp
  | none =>
  simp only [Context.UseGas, MutableState.tree]
  by_cases hg : ctx.gas.usedGas +
      (ctx.state.consensusParameters.GasCosts .GasOpEvidence).getD 0 > ctx.gas.maxUsedGas
  · simp only [Context.call, Nat.mul_one]
    simp [hg]
  simp only [Context.call, Nat.mul_one]
  simp only [hg, if_false]
  by_cases hs : ctx.mode = .SimulateTx
  · simp [Context.IsSimulation, hs, Context.charged, Context.call]
  simp only [Context.IsSimulation, hs, decide_False, if_false, Bool.false_eq_true]
  unfold Application.getRuntimeState MutableState.RuntimeState
  simp only [MutableState.tree, Context.call]
  cases hrs : app.faults .RuntimeState with
  | some code => simp [Context.charged, Context.call]
  | none =>
  cases hst : ctx.state.runtimeStates evidence.ID with
  | none => simp [Context.charged, Context.call]
  | some rtState =>
  simp only []
  by_cases h1 : rtState.Suspended = true
  · simp [h1, Context.charged, Context.call]
  by_cases h2 : rtState.Committee = none
  · simp [h1, h2, Context.charged, Context.call]
  by_cases h3 : rtState.CommitmentPool = none
  · simp [h1, h2, h3, Context.charged, Context.call]
  have h2' : rtState.Committee.isNone = false := by
    cases hc : rtState.Committee <;> simp_all
  have h3' : rtState.CommitmentPool.isNone = false := by
    cases hc : rtState.CommitmentPool <;> simp_all
  simp only [h1, h2, h3, h2', h3', if_false, Bool.false_eq_true]
  by_cases h4 : rtState.Runtime.Staking.Slashing.length = 0
  · simp [h4, Context.charged, Context.call]
  simp only [h4, if_false]
  by_cases h5 : (slashingLookup rtState.Runtime.Staking.Slashing
      .SlashRuntimeEquivocation).Amount = 0
  · simp [h5, Context.charged, Context.call]
  simp only [h5, if_false]
  cases her : evidenceRound evidence ctx.state.consensusParameters rtState with
  | error err => simp [Context.charged, Context.call]
  | ok rp =>
  obtain ⟨round, pk⟩ := rp
  simp only []
  unfold submitEvidenceStore
  simp only [Context.call, Context.charged]
  cases hh : app.Hash evidence with
  | error code => simp
  | ok evHash =>
  simp only [MutableState.EvidenceHashExists, MutableState.tree, Context.call]
  cases hq : app.faults .EvidenceHashExists with
  | some code => simp
  | none =>
  simp only []
  by_cases hd : ctx.state.evidenceHashes rtState.Runtime.ID round evHash = true
  · simp [hd]
  simp only [hd, if_false, Bool.false_eq_true]
  simp only [MutableState.SetEvidenceHash, MutableState.write, Context.call]
  cases hw : app.faults .SetEvidenceHash with
  | some code => simp
  | none =>
  simp only []
  cases hsl : app.onEvidenceRuntimeEquivocation
      (ctx.state.apply (.SetEvidenceHash rtState.Runtime.ID round evHash)).balances pk
      rtState.Runtime
      (slashingLookup rtState.Runtime.Staking.Slashing .SlashRuntimeEquivocation).Amount with
  | error code => simp
  | ok balances => simp

/-- Emitting one event per list element appends the events to the buffer of the open
transaction and records one call each. -/
theorem foldl_EmitEvent (f : α → Event) (l : List α) (ctx : Context) :
    l.foldl (fun c a => c.EmitEvent (f a)) ctx =
      { ctx with calls := ctx.calls ++ (l.map f).map Call.EmitEvent,
                 pendingEvents := ctx.pendingEvents ++ l.map f } := by
  induction l generalizing ctx with
  | nil => simp
  | cons a l ih =>
    rw [List.foldl_cons, ih]
    simp [Context.EmitEvent, Context.call]

/-- The loop touches only the gas accountant and the call record. -/
theorem verifyAndAdd_frame (app : Application) (rtState : RuntimeState) (committee : Committee)
    (commits : List ExecutorCommitment) :
    ∀ (ctx : Context) (pool : Pool),
      (app.verifyAndAdd rtState committee ctx pool commits).2.1.state = ctx.state ∧
      (app.verifyAndAdd rtState committee ctx pool commits).2.1.events = ctx.events ∧
      (app.verifyAndAdd rtState committee ctx pool commits).2.1.pending = ctx.pending ∧
      (app.verifyAndAdd rtState committee ctx pool commits).2.1.pendingEvents =
        ctx.pendingEvents ∧
      (app.verifyAndAdd rtState committee ctx pool commits).2.1.mode = ctx.mode ∧
      (app.verifyAndAdd rtState committee ctx pool commits).2.1.blockHeight = ctx.blockHeight ∧
      (app.verifyAndAdd rtState committee ctx pool commits).2.1.callerAddress =
        ctx.callerAddress ∧
      ∃ L, (app.verifyAndAdd rtState committee ctx pool commits).2.1.calls = ctx.calls ++ L ∧
        (∀ c ∈ L, c.isLoop = true) ∧
        ((app.verifyAndAdd rtState committee ctx pool commits).1 = none →
          L = verifyCalls commits) := by
  induction commits with
  | nil =>
    intro ctx pool
    exact ⟨rfl, rfl, rfl, rfl, rfl, rfl, rfl, [], by simp [Application.verifyAndAdd],
      by simp, fun _ => rfl⟩
  | cons commit rest ih =>
    intro ctx pool
    simp only [Application.verifyAndAdd]
    cases hv : app.VerifyExecutorCommitment (ctx.call (.VerifyExecutorCommitment commit))
        { rtState with CommitmentPool := some pool } commit with
    | mk verr gas =>
    cases verr with
    | some err =>
      simp only []
      refine ⟨rfl, rfl, rfl, rfl, rfl, rfl, rfl, [.VerifyExecutorCommitment commit], rfl, ?_, ?_⟩
      · simp [Call.isLoop]
      · intro h; simp at h
    | none =>
      simp only []
      cases ha : app.AddVerifiedExecutorCommitment pool committee commit with
      | error err =>
        simp only []
        refine ⟨rfl, rfl, rfl, rfl, rfl, rfl, rfl,
          [.VerifyExecutorCommitment commit, .AddVerifiedExecutorCommitment commit], ?_, ?_, ?_⟩
        · simp [Context.call]
        · simp [Call.isLoop]
        · intro h; simp at h
      | ok pool' =>
        simp only []
        obtain ⟨h1, h2, h3, h4, h5, h6, h7, L, hL, hall, hok⟩ := ih
          (({ ctx.call (.VerifyExecutorCommitment commit) with gas := gas } : Context).call
            (.AddVerifiedExecutorCommitment commit)) pool'
        refine ⟨h1, h2, h3, h4, h5, h6, h7,
          .VerifyExecutorCommitment commit :: .AddVerifiedExecutorCommitment commit :: L,
          ?_, ?_, ?_⟩
        · rw [hL]; simp [Context.call]
        · intro c hc
          simp only [List.mem_cons] at hc
          rcases hc with rfl | rfl | hc
          · rfl
          · rfl
          · exact hall c hc
        · intro h
          rw [hok h]
          rfl

/-- A loop run over `pre ++ rest` in which all of `pre` verifies and is admitted
continues with `rest` from the context and pool reached after `pre`. -/
theorem verifyAndAdd_append (app : Application) (rtState : RuntimeState) (committee : Committee)
    (pre rest : List ExecutorCommitment) :
    ∀ (ctx ck : Context) (pool pk : Pool),
      app.verifyAndAdd rtState committee ctx pool pre = (none, ck, pk) →
      app.verifyAndAdd rtState committee ctx pool (pre ++ rest) =
        app.verifyAndAdd rtState committee ck pk rest := by
  induction pre with
  | nil =>
    intro ctx ck pool pk h
    simp only [Application.verifyAndAdd, Prod.mk.injEq, true_and] at h
    obtain ⟨rfl, rfl⟩ := h
    rfl
  | cons commit pre ih =>
    intro ctx ck pool pk h
    simp only [List.cons_append, Application.verifyAndAdd] at h ⊢
    cases hv : app.VerifyExecutorCommitment (ctx.call (.VerifyExecutorCommitment commit))
        { rtState with CommitmentPool := some pool } commit with
    | mk verr gas =>
    rw [hv] at h
    cases verr with
    | some err => simp at h
    | none =>
      simp only [] at h ⊢
      cases ha : app.AddVerifiedExecutorCommitment pool committee commit with
      | error err => rw [ha] at h; simp at h
      | ok pool' =>
        rw [ha] at h
        simp only [] at h ⊢
        exact ih _ ck pool' pk h

/-- Flattened form of `executorCommit`: every branch up to the loop with the context it
returns, the loop, and the nested transaction. -/
theorem executorCommit_eq (app : Application) (ctx : Context) (cc : ExecutorCommit) :
    app.executorCommit ctx cc =
      if ctx.mode = .CheckTx then
        (none, { ctx with
          calls := ctx.calls ++
            cc.Commits.map (fun ec => Call.DeliverExecutorCommitment cc.ID ec) })
      else
      match app.faults .ConsensusParameters with
      | some code => (some (.collaborator code), ctx.call .ConsensusParameters)
      | none =>
      if ctx.gas.usedGas + (ctx.state.consensusParameters.GasCosts .GasOpComputeCommit).getD 0
          > ctx.gas.maxUsedGas then
        (some .ErrOutOfGas,
          (ctx.call .ConsensusParameters).call (.UseGas 1 .GasOpComputeCommit))
      else
      if cc.Commits = [] then (none, ctx.charged .GasOpComputeCommit) else
      let c := (ctx.charged .GasOpComputeCommit).call (.RuntimeState cc.ID)
      match app.faults .RuntimeState with
      | some code => (some (.failedToFetchRuntimeState (.collaborator code)), c)
      | none =>
      match ctx.state.runtimeStates cc.ID with
      | none => (some (.failedToFetchRuntimeState .ErrInvalidRuntime), c)
      | some rtState =>
      if rtState.Suspended = true then (some .ErrRuntimeSuspended, c) else
      match rtState.Committee, rtState.CommitmentPool with
      | none, _ => (some .ErrNoCommittee, c)
      | some _, none => (some .ErrNoExecutorPool, c)
      | some committee, some pool =>
        if (app.verifyAndAdd rtState committee c pool cc.Commits).1 ≠ none then
          ((app.verifyAndAdd rtState committee c pool cc.Commits).1,
            (app.verifyAndAdd rtState committee c pool cc.Commits).2.1)
        else if ctx.mode = .SimulateTx then
          (none, (app.verifyAndAdd rtState committee c pool cc.Commits).2.1)
        else
          executorCommitTx app (app.verifyAndAdd rtState committee c pool cc.Commits).2.1
            rtState pool.HighestRank
            (app.verifyAndAdd rtState committee c pool cc.Commits).2.2 cc := by
  unfold Application.executorCommit
  by_cases hm : ctx.mode = .CheckTx
  · simp [Context.IsCheckOnly, hm, foldl_call]
  simp only [Context.IsCheckOnly, hm, decide_False, if_false, Bool.false_eq_true]
  simp only [MutableState.ConsensusParameters]
  cases hcp : app.faults .ConsensusParameters with
  | some code => simp
  | none =>
  simp only [MutableState.tree]
  by_cases hg : ctx.gas.usedGas +
      (ctx.state.consensusParameters.GasCosts .GasOpComputeCommit).getD 0 > ctx.gas.maxUsedGas
  · have hu : (ctx.call .ConsensusParameters).UseGas 1 .GasOpComputeCommit
        (ctx.call .ConsensusParameters).state.consensusParameters.GasCosts =
        (some .ErrOutOfGas,
          (ctx.call .ConsensusParameters).call (.UseGas 1 .GasOpComputeCommit)) := by
      simp only [Context.UseGas, Context.call, Nat.mul_one]
      simp [hg]
    rw [hu]
    simp [hg]
  have hu : (ctx.call .ConsensusParameters).UseGas 1 .GasOpComputeCommit
      (ctx.call .ConsensusParameters).state.consensusParameters.GasCosts =
      (none, ctx.charged .GasOpComputeCommit) := by
    simp only [Context.UseGas, Context.call, Nat.mul_one, Context.charged]
    simp [hg]
  rw [hu]
  simp only [hg, if_false]
  by_cases he : cc.Commits = []
  · simp [he]
  have he' : ¬ cc.Commits.length = 0 := by
    intro h; exact he (List.length_eq_zero.mp h)
  simp only [he, he', if_false]
  have hgr : app.getRuntimeState (ctx.charged .GasOpComputeCommit) .outer cc.ID =
      ((app.getRuntimeState (ctx.charged .GasOpComputeCommit) .outer cc.ID).1,
        (ctx.charged .GasOpComputeCommit).call (.RuntimeState cc.ID)) :=
    Prod.ext rfl (getRuntimeState_snd _ _ _ _)
  rw [hgr, getRuntimeState_fst]
  have htree : (MutableState.outer.tree (ctx.charged .GasOpComputeCommit)).runtimeStates =
      ctx.state.runtimeStates := rfl
  rw [htree]
  have hcmode : ((ctx.charged .GasOpComputeCommit).call (.RuntimeState cc.ID)).mode =
      ctx.mode := rfl
  generalize (ctx.charged .GasOpComputeCommit).call (.RuntimeState cc.ID) = c at hcmode ⊢
  cases hrs : app.faults .RuntimeState with
  | some code => rfl
  | none =>
  cases hst : ctx.state.runtimeStates cc.ID with
  | none => rfl
  | some rtState =>
  simp only []
  by_cases h1 : rtState.Suspended = true
  · simp [h1]
  simp only [h1, if_false, Bool.false_eq_true]
  cases hc : rtState.Committee with
  | none => simp
  | some committee =>
  cases hp : rtState.CommitmentPool with
  | none => simp
  | some pool =>
  simp only [reduceCtorEq, if_false]
  rw [hc, hp]
  simp only []
  obtain ⟨-, -, -, -, hvmode, -, -, -⟩ :=
    verifyAndAdd_frame app rtState committee cc.Commits c pool
  generalize app.verifyAndAdd rtState committee c pool cc.Commits = v at hvmode ⊢
  obtain ⟨verr, cv, pv⟩ := v
  simp only [] at hvmode
  cases verr with
  | some err => simp
  | none =>
  simp only [ne_eq, not_true_eq_false, if_false]
  by_cases hs : ctx.mode = .SimulateTx
  · simp [Context.IsSimulation, hvmode, hcmode, hs]
  have hs' : cv.IsSimulation = false := by
    simp [Context.IsSimulation, hvmode, hcmode, hs]
  simp only [hs, hs', if_false, Bool.false_eq_true]
  unfold executorCommitTx rearmRoundTimeout
  simp only [MutableState.SetRuntimeState, MutableState.write, Context.NewTransaction,
    Context.call]
  by_cases hr : pool.HighestRank = pv.HighestRank
  · simp only [hr, ne_eq, not_true_eq_false, if_false]
    cases hw : app.faults .SetRuntimeState with
    | some code => simp [Context.Close]
    | none =>
      simp [Context.Close, Context.Commit, Context.call, foldl_EmitEvent, hc]
  · simp only [hr, ne_eq, not_false_eq_true, if_true]
    cases hf : app.faults .rearmRoundTimeout with
    | some code => simp [Context.Close]
    | none =>
      simp only []
      cases hw : app.faults .SetRuntimeState with
      | some code => simp [Context.Close]
      | none =>
        simp [Context.Close, Context.Commit, Context.call, foldl_EmitEvent, hc]

/-- In deliver mode, after a successful charge and load, `submitEvidence` is decided by
the slashing table, the freshness switch and the store-and-slash tail. -/
theorem submitEvidence_loaded (app : Application) (ctx : Context) (evidence : Evidence)
    (rtState : RuntimeState) (hvalid : evidence.ValidateBasic app = none)
    (hmode : ctx.mode = .ExecuteTx)
    (hparams : app.faults .ConsensusParameters = none)
    (hgas : (ctx.UseGas 1 .GasOpEvidence ctx.state.consensusParameters.GasCosts).1 = none)
    (hload : (app.getRuntimeState ctx .outer evidence.ID).1 = .ok rtState) :
    app.submitEvidence ctx evidence =
      if rtState.Runtime.Staking.Slashing.length = 0 then
        (some .ErrRuntimeDoesNotSlash,
          (ctx.charged .GasOpEvidence).call (.RuntimeState evidence.ID))
      else if (slashingLookup rtState.Runtime.Staking.Slashing
          .SlashRuntimeEquivocation).Amount = 0 then
        (some .ErrRuntimeDoesNotSlash,
          (ctx.charged .GasOpEvidence).call (.RuntimeState evidence.ID))
      else
        match evidenceRound evidence ctx.state.consensusParameters rtState with
        | .error err => (some err, (ctx.charged .GasOpEvidence).call (.RuntimeState evidence.ID))
        | .ok (round, pk) =>
          submitEvidenceStore app ((ctx.charged .GasOpEvidence).call (.RuntimeState evidence.ID))
            rtState round pk
            (slashingLookup rtState.Runtime.Staking.Slashing .SlashRuntimeEquivocation).Amount
            evidence := by
  obtain ⟨hf, hs, h1, h2, h3⟩ := getRuntimeState_ok app ctx .outer evidence.ID rtState hload
  have hg := UseGas_fst_none ctx _ _ hgas
  simp only [MutableState.tree] at hs
  rw [submitEvidence_eq]
  simp only [hvalid, hmode, hparams, hg, hf, hs, h1, h2, h3, if_false, reduceCtorEq]
  try rfl

/-- The errors of the store-and-slash tail: none is `ErrRuntimeDoesNotSlash`, the expiry
error or `ErrRuntimeSuspended`. -/
theorem submitEvidenceStore_errors (app : Application) (c : Context) (rtState : RuntimeState)
    (round : Nat) (pk : PublicKey) (slash : Quantity) (evidence : Evidence) (err : Error)
    (h : (submitEvidenceStore app c rtState round pk slash evidence).1 = some err) :
    err ≠ .ErrRuntimeDoesNotSlash ∧ err ≠ .evidenceExpired ∧
    err ≠ .ErrRuntimeSuspended := by
  unfold submitEvidenceStore at h
  simp only [] at h
  repeat' split at h
  all_goals
    simp only [Option.some.injEq, reduceCtorEq] at h
    try subst h
    try simp [Error.unwrap]

/-- An empty slashing table has no amount for any reason. -/
theorem slashingLookup_nil (k : SlashReason) : (slashingLookup [] k).Amount = 0 := rfl

/-- The amount read from the slashing table is zero exactly when the table has no entry
for the reason or the entry found has a zero amount. -/
theorem slashingLookup_zero (m : List (SlashReason × Slash)) (k : SlashReason) :
    (slashingLookup m k).Amount = 0 ↔
      ((∀ e ∈ m, e.1 ≠ k) ∨
        ∃ e, m.find? (fun e => decide (e.1 = k)) = some e ∧ e.2.Amount = 0) := by
  unfold slashingLookup
  cases hf : m.find? (fun e => decide (e.1 = k)) with
  | none =>
    simp only [true_iff]
    left
    intro e he
    have := List.find?_eq_none.mp hf e he
    simpa using this
  | some e =>
    simp only [Option.some.injEq, exists_eq_left']
    constructor
    · intro h; exact Or.inr h
    · rintro (h | h)
      · have hm := List.mem_of_find?_eq_some hf
        have hk := List.find?_some hf
        simp only [decide_eq_true_eq] at hk
        exact absurd hk (h e hm)
      · exact h

/-- For structurally valid evidence the freshness switch either reports expiry or yields
the round of the evidence. -/
theorem evidenceRound_valid (app : Application) (evidence : Evidence)
    (params : ConsensusParameters) (rtState : RuntimeState)
    (hvalid : evidence.ValidateBasic app = none) :
    (addUint64 evidence.round params.MaxEvidenceAge < rtState.LastBlock.Header.Round ∧
      evidenceRound evidence params rtState = .error .evidenceExpired) ∨
    (¬ addUint64 evidence.round params.MaxEvidenceAge < rtState.LastBlock.Header.Round ∧
      ∃ pk, evidenceRound evidence params rtState = .ok (evidence.round, pk)) := by
  unfold Evidence.ValidateBasic at hvalid
  unfold evidenceRound Evidence.round
  cases he : evidence.EquivocationExecutor with
  | some ee =>
    simp only []
    by_cases h : addUint64 ee.CommitA.Round params.MaxEvidenceAge <
        rtState.LastBlock.Header.Round
    · left; simp [h]
    · right; simp [h]
  | none =>
    cases hp : evidence.EquivocationProposal with
    | some ep =>
      simp only []
      by_cases h : addUint64 ep.ProposalA.Round params.MaxEvidenceAge <
          rtState.LastBlock.Header.Round
      · left; simp [h]
      · right; simp [h]
    | none => simp [he, hp] at hvalid

/-- In deliver mode, after a successful charge and load of a runtime that slashes
equivocation, structurally valid evidence is either reported expired or handed to the
store-and-slash tail with its round. -/
theorem submitEvidence_fresh_cases (app : Application) (ctx : Context) (evidence : Evidence)
    (rtState : RuntimeState) (hvalid : evidence.ValidateBasic app = none)
    (hmode : ctx.mode = .ExecuteTx)
    (hparams : app.faults .ConsensusParameters = none)
    (hgas : (ctx.UseGas 1 .GasOpEvidence ctx.state.consensusParameters.GasCosts).1 = none)
    (hload : (app.getRuntimeState ctx .outer evidence.ID).1 = .ok rtState)
    (hslash : (slashingLookup rtState.Runtime.Staking.Slashing
      .SlashRuntimeEquivocation).Amount ≠ 0) :
    (addUint64 evidence.round ctx.state.consensusParameters.MaxEvidenceAge <
        rtState.LastBlock.Header.Round ∧
      app.submitEvidence ctx evidence =
        (some .evidenceExpired,
          (ctx.charged .GasOpEvidence).call (.RuntimeState evidence.ID))) ∨
    (¬ addUint64 evidence.round ctx.state.consensusParameters.MaxEvidenceAge <
        rtState.LastBlock.Header.Round ∧
      ∃ pk, app.submitEvidence ctx evidence =
        submitEvidenceStore app ((ctx.charged .GasOpEvidence).call (.RuntimeState evidence.ID))
          rtState evidence.round pk
          (slashingLookup rtState.Runtime.Staking.Slashing .SlashRuntimeEquivocation).Amount
          evidence) := by
  have h0 : ¬ rtState.Runtime.Staking.Slashing.length = 0 := by
    intro h
    have hnil : rtState.Runtime.Staking.Slashing = [] := List.length_eq_zero.mp h
    rw [hnil] at hslash
    exact hslash rfl
  have hz : ¬ (slashingLookup rtState.Runtime.Staking.Slashing
      .SlashRuntimeEquivocation).Amount = 0 := hslash
  rw [submitEvidence_loaded app ctx evidence rtState hvalid hmode hparams hgas hload]
  simp only [h0, hz, if_false]
  rcases evidenceRound_valid app evidence ctx.state.consensusParameters rtState hvalid with
    ⟨hlt, he⟩ | ⟨hlt, pk, he⟩
  · left; rw [he]; exact ⟨hlt, rfl⟩
  · right; rw [he]; exact ⟨hlt, pk, rfl⟩

/-- A deliver-mode call that reaches the hash check on a tree where the hash is recorded
is answered with `ErrDuplicateEvidence`, writes nothing and does not call the slashing
collaborator. -/
theorem submitEvidence_duplicate (app : Application) (ctx : Context) (evidence : Evidence)
    (rtState : RuntimeState) (round : Nat) (pk : PublicKey) (h : Hash)
    (hr : ReachesHashCheck app ctx.state evidence rtState round pk h)
    (hmode : ctx.mode = .ExecuteTx)
    (hgas : (ctx.UseGas 1 .GasOpEvidence ctx.state.consensusParameters.GasCosts).1 = none)
    (hrec : ctx.state.evidenceHashes rtState.Runtime.ID round h = true) :
    (app.submitEvidence ctx evidence).1 = some .ErrDuplicateEvidence ∧
    (app.submitEvidence ctx evidence).2.state = ctx.state ∧
    (app.submitEvidence ctx evidence).2.calls =
      ctx.calls ++ [.ConsensusParameters, .UseGas 1 .GasOpEvidence, .RuntimeState evidence.ID,
        .Hash, .EvidenceHashExists rtState.Runtime.ID round h] := by
  have hg := UseGas_fst_none ctx _ _ hgas
  rw [submitEvidence_eq]
  simp only [hr.valid, hmode, hr.params, hg, hr.fetch, hr.stored, hr.active, hr.committee,
    hr.pool, hr.table, hr.amount, hr.fresh, if_false, reduceCtorEq]
  unfold submitEvidenceStore
  simp [hr.hash, hr.query, hrec, Context.charged, Context.call]

/-- The outcomes of a deliver-mode `submitEvidence` call as seen on the tree: an error
with nothing written, a slashing failure with the evidence hash written, or success
with the hash written and the balances left by the slashing collaborator. -/
theorem submitEvidence_outcome (app : Application) (ctx : Context) (evidence : Evidence)
    (hmode : ctx.mode = .ExecuteTx) :
    ((app.submitEvidence ctx evidence).2.state = ctx.state ∧
      ∃ err, (app.submitEvidence ctx evidence).1 = some err ∧
        (∀ cause, err ≠ .slashingRuntimeNode cause) ∧
        (err = .ErrDuplicateEvidence →
          ∃ rtState h, ctx.state.runtimeStates evidence.ID = some rtState ∧
            app.Hash evidence = .ok h ∧
            ctx.state.evidenceHashes rtState.Runtime.ID evidence.round h = true)) ∨
    (∃ rtState pk h, ReachesHashCheck app ctx.state evidence rtState evidence.round pk h ∧
      ctx.state.evidenceHashes rtState.Runtime.ID evidence.round h = false ∧
      (ctx.UseGas 1 .GasOpEvidence ctx.state.consensusParameters.GasCosts).1 = none ∧
      app.faults .SetEvidenceHash = none ∧
      ((∃ cause, (app.submitEvidence ctx evidence).1 = some (.slashingRuntimeNode cause) ∧
          app.onEvidenceRuntimeEquivocation
            (ctx.state.apply (.SetEvidenceHash rtState.Runtime.ID evidence.round h)).balances pk
            rtState.Runtime
            (slashingLookup rtState.Runtime.Staking.Slashing
              .SlashRuntimeEquivocation).Amount = .error cause ∧
          (app.submitEvidence ctx evidence).2.state =
            ctx.state.apply (.SetEvidenceHash rtState.Runtime.ID evidence.round h)) ∨
       (∃ balances, (app.submitEvidence ctx evidence).1 = none ∧
          app.onEvidenceRuntimeEquivocation
            (ctx.state.apply (.SetEvidenceHash rtState.Runtime.ID evidence.round h)).balances pk
            rtState.Runtime
            (slashingLookup rtState.Runtime.Staking.Slashing
              .SlashRuntimeEquivocation).Amount = .ok balances ∧
          (app.submitEvidence ctx evidence).2.state =
            (ctx.state.apply (.SetEvidenceHash rtState.Runtime.ID evidence.round h)).apply
              (.SetBalances balances)))) := by
  rw [submitEvidence_eq]
  cases hv : evidence.ValidateBasic app with
  | some err => left; simp
  | none =>
  simp only [hmode, reduceCtorEq, if_false]
  cases hcp : app.faults .ConsensusParameters with
  | some code => left; simp [Context.call]
  | none =>
  simp only []
  by_cases hg : ctx.gas.usedGas + (ctx.state.consensusParameters.GasCosts .GasOpEvidence).getD 0
      > ctx.gas.maxUsedGas
  · left; simp [hg, Context.call]
  have hgas : (ctx.UseGas 1 .GasOpEvidence ctx.state.consensusParameters.GasCosts).1 = none := by
    simp only [Context.UseGas, Context.call, Nat.mul_one]
    simp [hg]
  simp only [hg, if_false]
  cases hrs : app.faults .RuntimeState with
  | some code => left; simp [Context.call, Context.charged]
  | none =>
  cases hst : ctx.state.runtimeStates evidence.ID with
  | none => left; simp [Context.call, Context.charged]
  | some rtState =>
  simp only []
  by_cases h1 : rtState.Suspended = true
  · left; simp [h1, Context.call, Context.charged]
  by_cases h2 : rtState.Committee = none
  · left; simp [h1, h2, Context.call, Context.charged]
  by_cases h3 : rtState.CommitmentPool = none
  · left; simp [h1, h2, h3, Context.call, Context.charged]
  by_cases h4 : rtState.Runtime.Staking.Slashing.length = 0
  · left; simp [h1, h2, h3, h4, Context.call, Context.charged]
  by_cases h5 : (slashingLookup rtState.Runtime.Staking.Slashing
      .SlashRuntimeEquivocation).Amount = 0
  · left; simp [h1, h2, h3, h4, h5, Context.call, Context.charged]
  simp only [h1, h2, h3, h4, h5, if_false]
  rcases evidenceRound_valid app evidence ctx.state.consensusParameters rtState hv with
    ⟨-, he⟩ | ⟨-, pk, he⟩
  · left; rw [he]; simp [Context.call, Context.charged]
  rw [he]
  simp only []
  unfold submitEvidenceStore
  simp only [Context.call, Context.charged]
  cases hh : app.Hash evidence with
  | error code => left; simp
  | ok h =>
  simp only []
  cases hq : app.faults .EvidenceHashExists with
  | some code => left; simp
  | none =>
  simp only []
  by_cases hd : ctx.state.evidenceHashes rtState.Runtime.ID evidence.round h = true
  · left
    simp only [hd, if_true]
    exact ⟨rfl, _, rfl, by intro cause; simp, fun _ => ⟨rtState, h, rfl, rfl, hd⟩⟩
  simp only [hd, if_false, Bool.false_eq_true]
  cases hw : app.faults .SetEvidenceHash with
  | some code => left; simp
  | none =>
  simp only []
  have hreach : ReachesHashCheck app ctx.state evidence rtState evidence.round pk h :=
    ⟨hv, hcp, hrs, hst, h1, h2, h3, h4, h5, he, hh, hq⟩
  have hd' : ctx.state.evidenceHashes rtState.Runtime.ID evidence.round h = false := by
    simpa using hd
  right
  refine ⟨rtState, pk, h, hreach, hd', hgas, trivial, ?_⟩
  cases hsl : app.onEvidenceRuntimeEquivocation
      (ctx.state.apply (.SetEvidenceHash rtState.Runtime.ID evidence.round h)).balances pk
      rtState.Runtime
      (slashingLookup rtState.Runtime.Staking.Slashing .SlashRuntimeEquivocation).Amount with
  | error code => left; exact ⟨code, rfl, rfl, rfl⟩
  | ok balances => right; exact ⟨balances, rfl, rfl, rfl⟩

/-- The hash check depends on the tree only through the stored runtime states and the
consensus parameters. -/
theorem ReachesHashCheck.transport {app : Application} {t t2 : Tree} {evidence : Evidence}
    {rtState : RuntimeState} {round : Nat} {pk : PublicKey} {h : Hash}
    (hr : ReachesHashCheck app t evidence rtState round pk h)
    (hstates : t2.runtimeStates = t.runtimeStates)
    (hparams : t2.consensusParameters = t.consensusParameters) :
    ReachesHashCheck app t2 evidence rtState round pk h :=
  ⟨hr.valid, hr.params, hr.fetch, by rw [hstates]; exact hr.stored, hr.active, hr.committee,
    hr.pool, hr.table, hr.amount, by rw [hparams]; exact hr.fresh, hr.hash, hr.query⟩

/-- An `executorCommit` call that reaches the loop returns the first error of the loop,
stops after the loop in a simulation, and otherwise continues with `executorCommitTx`. -/
theorem executorCommit_loop (app : Application) (ctx : Context) (cc : ExecutorCommit)
    (rtState : RuntimeState) (committee : Committee) (pool : Pool)
    (hr : ReachesLoop app ctx cc rtState committee pool) :
    app.executorCommit ctx cc =
      if (app.verifyAndAdd rtState committee (ctx.loaded cc) pool cc.Commits).1 ≠ none then
        ((app.verifyAndAdd rtState committee (ctx.loaded cc) pool cc.Commits).1,
          (app.verifyAndAdd rtState committee (ctx.loaded cc) pool cc.Commits).2.1)
      else if ctx.mode = .SimulateTx then
        (none, (app.verifyAndAdd rtState committee (ctx.loaded cc) pool cc.Commits).2.1)
      else
        executorCommitTx app
          (app.verifyAndAdd rtState committee (ctx.loaded cc) pool cc.Commits).2.1
          rtState pool.HighestRank
          (app.verifyAndAdd rtState committee (ctx.loaded cc) pool cc.Commits).2.2 cc := by
  have hg := UseGas_fst_none ctx _ _ hr.gas
  rw [executorCommit_eq]
  simp only [hr.mode, hr.params, hg, hr.batch, hr.fetch, hr.stored, hr.active, if_false]
  rw [hr.committee, hr.pool]
  rfl

/-- A successful `executorCommitTx`: the calls, events and tree it leaves. -/
theorem executorCommitTx_ok (app : Application) (c : Context) (rtState : RuntimeState)
    (prevRank : Nat) (pool : Pool) (cc : ExecutorCommit)
    (hrearm : prevRank ≠ pool.HighestRank → app.faults .rearmRoundTimeout = none)
    (hset : app.faults .SetRuntimeState = none) :
    executorCommitTx app c rtState prevRank pool cc =
      (none, { c with
        state :=
          (((if prevRank ≠ pool.HighestRank then
            [Write.ClearRoundTimeout cc.ID rtState.NextTimeout,
              Write.ScheduleRoundTimeout cc.ID
                (wrapInt64 (wrapInt64 (c.blockHeight + 1) +
                  rtState.Runtime.Executor.RoundTimeout))]
            else []) ++
            [Write.SetRuntimeState { rtState with
              CommitmentPool := some pool
              NextTimeout := if prevRank ≠ pool.HighestRank then
                wrapInt64 (wrapInt64 (c.blockHeight + 1) +
                  rtState.Runtime.Executor.RoundTimeout)
                else rtState.NextTimeout }]).foldl Tree.apply c.state)
        events := c.events ++
          cc.Commits.map (fun commit => ({ Commit := commit, ID := cc.ID } : Event))
        calls := c.calls ++
          (Call.NewTransaction ::
            (if prevRank ≠ pool.HighestRank then
              [Call.rearmRoundTimeout cc.ID (addUint64 rtState.LastBlock.Header.Round 1)
                rtState.NextTimeout
                (wrapInt64 (wrapInt64 (c.blockHeight + 1) +
                  rtState.Runtime.Executor.RoundTimeout))]
              else []) ++
            [Call.SetRuntimeState rtState.Runtime.ID] ++
            (cc.Commits.map (fun commit =>
              ({ Commit := commit, ID := cc.ID } : Event))).map Call.EmitEvent ++
            [Call.Commit, Call.RegisterRuntimeForFinalization cc.ID])
        pending := []
        pendingEvents := [] }) := by
  unfold executorCommitTx
  by_cases h : prevRank ≠ pool.HighestRank
  · simp [if_pos h, hrearm h, hset]
  · simp [if_neg h, hset]

/-- A successful `executorCommitTx` has met no fault in the re-arm (when due) or in the
state store. -/
theorem executorCommitTx_none (app : Application) (c : Context) (rtState : RuntimeState)
    (prevRank : Nat) (pool : Pool) (cc : ExecutorCommit)
    (h : (executorCommitTx app c rtState prevRank pool cc).1 = none) :
    (prevRank ≠ pool.HighestRank → app.faults .rearmRoundTimeout = none) ∧
    app.faults .SetRuntimeState = none := by
  unfold executorCommitTx at h
  by_cases hr : prevRank ≠ pool.HighestRank
  · simp only [if_pos hr] at h
    cases hf : app.faults .rearmRoundTimeout with
    | some code => simp [hf] at h
    | none =>
      simp only [hf] at h
      cases hs : app.faults .SetRuntimeState with
      | some code => simp [hs] at h
      | none => exact ⟨fun _ => rfl, rfl⟩
  · simp only [if_neg hr] at h
    cases hs : app.faults .SetRuntimeState with
    | some code => simp [hs] at h
    | none => exact ⟨fun h => absurd h hr, rfl⟩

/-- A deliver-mode `executorCommit` call with a non-empty batch that succeeds has
reached the loop, every commitment has verified and been admitted, and the re-arm (when
due) and the state store have succeeded. -/
theorem executorCommit_success (app : Application) (ctx : Context) (cc : ExecutorCommit)
    (hmode : ctx.mode = .ExecuteTx) (hne : cc.Commits ≠ [])
    (hok : (app.executorCommit ctx cc).1 = none) :
    ∃ rtState committee pool, ReachesLoop app ctx cc rtState committee pool ∧
      (app.verifyAndAdd rtState committee (ctx.loaded cc) pool cc.Commits).1 = none ∧
      (pool.HighestRank ≠
          (app.verifyAndAdd rtState committee (ctx.loaded cc) pool cc.Commits).2.2.HighestRank →
        app.faults .rearmRoundTimeout = none) ∧
      app.faults .SetRuntimeState = none ∧
      app.executorCommit ctx cc =
        executorCommitTx app
          (app.verifyAndAdd rtState committee (ctx.loaded cc) pool cc.Commits).2.1
          rtState pool.HighestRank
          (app.verifyAndAdd rtState committee (ctx.loaded cc) pool cc.Commits).2.2 cc := by
  have hc : ctx.mode ≠ .CheckTx := by rw [hmode]; decide
  have hs : ctx.mode ≠ .SimulateTx := by rw [hmode]; decide
  have hok0 := hok
  rw [executorCommit_eq] at hok
  simp only [hc, hne, if_false] at hok
  cases hcp : app.faults .ConsensusParameters with
  | some code => simp [hcp] at hok
  | none =>
  simp only [hcp] at hok
  by_cases hg : ctx.gas.usedGas +
      (ctx.state.consensusParameters.GasCosts .GasOpComputeCommit).getD 0 > ctx.gas.maxUsedGas
  · simp [hg] at hok
  simp only [hg, if_false] at hok
  cases hrs : app.faults .RuntimeState with
  | some code => simp [hrs] at hok
  | none =>
  simp only [hrs] at hok
  cases hst : ctx.state.runtimeStates cc.ID with
  | none => simp [hst] at hok
  | some rtState =>
  simp only [hst] at hok
  by_cases hsu : rtState.Suspended = true
  · simp [hsu] at hok
  simp only [hsu, if_false] at hok
  cases hco : rtState.Committee with
  | none => rw [hco] at hok; simp at hok
  | some committee =>
  cases hpo : rtState.CommitmentPool with
  | none => rw [hco, hpo] at hok; simp at hok
  | some pool =>
  have hgas : (ctx.UseGas 1 .GasOpComputeCommit ctx.state.consensusParameters.GasCosts).1
      = none := by
    simp only [Context.UseGas, Context.call, Nat.mul_one]
    simp only [hg, if_false]
  have hr : ReachesLoop app ctx cc rtState committee pool :=
    ⟨hc, hcp, hgas, hne, hrs, hst, hsu, hco, hpo⟩
  have heq := executorCommit_loop app ctx cc rtState committee pool hr
  refine ⟨rtState, committee, pool, hr, ?_⟩
  clear hok
  rw [heq] at hok0 ⊢
  by_cases hv : (app.verifyAndAdd rtState committee (ctx.loaded cc) pool cc.Commits).1 = none
  · simp only [hv, ne_eq, not_true_eq_false, if_false, hs] at hok0 ⊢
    have h := executorCommitTx_none app _ rtState pool.HighestRank _ cc hok0
    exact ⟨trivial, h.1, h.2, trivial⟩
  · simp only [ne_eq, hv, not_false_eq_true, if_true] at hok0

/-- The verification loop records no re-arm. -/
theorem filter_isRearm_verifyCalls (l : List ExecutorCommitment) :
    (verifyCalls l).filter Call.isRearm = [] := by
  induction l with
  | nil => rfl
  | cons a l ih => simp [verifyCalls, Call.isRearm, ih]

/-- Emitting events records no re-arm. -/
theorem filter_isRearm_emits (l : List Event) :
    (l.map Call.EmitEvent).filter Call.isRearm = [] := by
  induction l with
  | nil => rfl
  | cons a l ih => simp [Call.isRearm, ih]

/-- A deliver-mode `executorCommit` call that reaches the loop, in which every commitment
verifies and is admitted and the re-arm (when due) and the state store succeed: result,
tree, events and recorded calls. -/
theorem executorCommit_delivered (app : Application) (ctx : Context) (cc : ExecutorCommit)
    (rtState : RuntimeState) (committee : Committee) (pool : Pool)
    (hr : ReachesLoop app ctx cc rtState committee pool) (hmode : ctx.mode = .ExecuteTx)
    (hloop : (app.verifyAndAdd rtState committee (ctx.loaded cc) pool cc.Commits).1 = none)
    (hrearm : pool.HighestRank ≠
        (app.verifyAndAdd rtState committee (ctx.loaded cc) pool cc.Commits).2.2.HighestRank →
      app.faults .rearmRoundTimeout = none)
    (hset : app.faults .SetRuntimeState = none) :
    (app.executorCommit ctx cc).1 = none ∧
    (app.executorCommit ctx cc).2.state =
      ((if pool.HighestRank ≠
          (app.verifyAndAdd rtState committee (ctx.loaded cc) pool
            cc.Commits).2.2.HighestRank then
        [Write.ClearRoundTimeout cc.ID rtState.NextTimeout,
          Write.ScheduleRoundTimeout cc.ID (nextRoundTimeout ctx.blockHeight rtState)]
        else []) ++
        [Write.SetRuntimeState { rtState with
          CommitmentPool := some
            (app.verifyAndAdd rtState committee (ctx.loaded cc) pool cc.Commits).2.2
          NextTimeout := if pool.HighestRank ≠
              (app.verifyAndAdd rtState committee (ctx.loaded cc) pool
                cc.Commits).2.2.HighestRank then
            nextRoundTimeout ctx.blockHeight rtState else rtState.NextTimeout }]).foldl
        Tree.apply ctx.state ∧
    (app.executorCommit ctx cc).2.events = ctx.events ++
      cc.Commits.map (fun commit => ({ Commit := commit, ID := cc.ID } : Event)) ∧
    (app.executorCommit ctx cc).2.calls = ctx.calls ++
      ([Call.ConsensusParameters, Call.UseGas 1 .GasOpComputeCommit, Call.RuntimeState cc.ID] ++
        verifyCalls cc.Commits ++
        (Call.NewTransaction ::
          (if pool.HighestRank ≠
              (app.verifyAndAdd rtState committee (ctx.loaded cc) pool
                cc.Commits).2.2.HighestRank then
            [Call.rearmRoundTimeout cc.ID (addUint64 rtState.LastBlock.Header.Round 1)
              rtState.NextTimeout (nextRoundTimeout ctx.blockHeight rtState)]
            else []) ++
          [Call.SetRuntimeState rtState.Runtime.ID] ++
          (cc.Commits.map (fun commit =>
            ({ Commit := commit, ID := cc.ID } : Event))).map Call.EmitEvent ++
          [Call.Commit, Call.RegisterRuntimeForFinalization cc.ID])) := by
  have hs : ctx.mode ≠ .SimulateTx := by rw [hmode]; decide
  obtain ⟨h1, h2, -, -, -, h6, -, L, hL, -, hLok⟩ :=
    verifyAndAdd_frame app rtState committee cc.Commits (ctx.loaded cc) pool
  rw [hLok hloop] at hL
  rw [executorCommit_loop app ctx cc rtState committee pool hr]
  simp only [hloop, ne_eq, not_true_eq_false, if_false, hs]
  rw [executorCommitTx_ok app _ rtState _ _ cc hrearm hset]
  simp only [h1, h2, h6, hL, nextRoundTimeout]
  refine ⟨trivial, rfl, rfl, ?_⟩
  simp [Context.loaded, Context.charged, Context.call]

/-- The verification loop records no registration for finalization. -/
theorem filter_isRegister_verifyCalls (l : List ExecutorCommitment) :
    (verifyCalls l).filter Call.isRegister = [] := by
  induction l with
  | nil => rfl
  | cons a l ih => simp [verifyCalls, Call.isRegister, ih]

/-- Emitting events records no registration for finalization. -/
theorem filter_isRegister_emits (l : List Event) :
    (l.map Call.EmitEvent).filter Call.isRegister = [] := by
  induction l with
  | nil => rfl
  | cons a l ih => simp [Call.isRegister, ih]

/-- When the first commitment of a batch fails, the loop stops there: the rest of the
batch is not looked at, the pool is the one the loop started with, and the recorded
calls are the verification alone or the verification and the admission. -/
theorem verifyAndAdd_first_fails (app : Application) (rtState : RuntimeState)
    (committee : Committee) (ck : Context) (pk : Pool) (commit : ExecutorCommitment)
    (post : List ExecutorCommitment) (err : Error)
    (hfail : (app.verifyAndAdd rtState committee ck pk [commit]).1 = some err) :
    (app.verifyAndAdd rtState committee ck pk (commit :: post)).1 = some err ∧
    (app.verifyAndAdd rtState committee ck pk (commit :: post)).2.2 = pk ∧
    (((app.verifyAndAdd rtState committee ck pk (commit :: post)).2.1.calls =
        ck.calls ++ [.VerifyExecutorCommitment commit] ∧
      (app.VerifyExecutorCommitment (ck.call (.VerifyExecutorCommitment commit))
        { rtState with CommitmentPool := some pk } commit).1 = some err) ∨
     ((app.verifyAndAdd rtState committee ck pk (commit :: post)).2.1.calls =
        ck.calls ++ [.VerifyExecutorCommitment commit,
          .AddVerifiedExecutorCommitment commit] ∧
      (app.VerifyExecutorCommitment (ck.call (.VerifyExecutorCommitment commit))
        { rtState with CommitmentPool := some pk } commit).1 = none ∧
      app.AddVerifiedExecutorCommitment pk committee commit = .error err)) := by
  simp only [Application.verifyAndAdd] at hfail ⊢
  cases hv : app.VerifyExecutorCommitment (ck.call (.VerifyExecutorCommitment commit))
      { rtState with CommitmentPool := some pk } commit with
  | mk verr gas =>
  rw [hv] at hfail
  cases verr with
  | some e =>
    simp only [Option.some.injEq] at hfail ⊢
    subst hfail
    exact ⟨by trivial, by trivial, Or.inl ⟨by trivial, by trivial⟩⟩
  | none =>
    simp only [] at hfail ⊢
    cases ha : app.AddVerifiedExecutorCommitment pk committee commit with
    | error e =>
      rw [ha] at hfail
      simp only [Option.some.injEq] at hfail ⊢
      subst hfail
      refine ⟨by trivial, by trivial, Or.inr ⟨?_, by trivial, by trivial⟩⟩
      simp [Context.call]
    | ok pool' =>
      rw [ha] at hfail
      simp at hfail

/-- A call of the verification loop has no persisted effect. -/
theorem isLoop_not_effect (c : Call) (h : c.isLoop = true) : c.isEffect = false := by
  cases c <;> simp_all [Call.isLoop, Call.isEffect]

/-- Inside its range the 64-bit signed wrap is the identity. -/
theorem wrapInt64_eq (x : Int) (h1 : -(2 ^ 63) ≤ x) (h2 : x < 2 ^ 63) : wrapInt64 x = x := by
  unfold wrapInt64 Int.bmod
  simp only [Int.reducePow, Nat.reducePow, Nat.cast_ofNat] at *
  split <;> omega

/-- In a simulation `executorCommit` persists nothing. -/
theorem executorCommit_simulate (app : Application) (ctx : Context) (cc : ExecutorCommit)
    (hmode : ctx.mode = .SimulateTx) :
    ctx.persistsNothing (app.executorCommit ctx cc).2 := by
  have hc : ctx.mode ≠ .CheckTx := by rw [hmode]; decide
  rw [executorCommit_eq]
  simp only [hc, if_false]
  cases hcp : app.faults .ConsensusParameters with
  | some code =>
    exact ⟨rfl, rfl, rfl, rfl, [.ConsensusParameters], rfl, by simp [Call.isEffect]⟩
  | none =>
  simp only []
  by_cases hg : ctx.gas.usedGas +
      (ctx.state.consensusParameters.GasCosts .GasOpComputeCommit).getD 0 > ctx.gas.maxUsedGas
  · simp only [hg, if_true]
    exact ⟨rfl, rfl, rfl, rfl, [.ConsensusParameters, .UseGas 1 .GasOpComputeCommit],
      by simp [Context.call], by simp [Call.isEffect]⟩
  simp only [hg, if_false]
  by_cases hb : cc.Commits = []
  · simp only [hb, if_true]
    exact ⟨rfl, rfl, rfl, rfl, [.ConsensusParameters, .UseGas 1 .GasOpComputeCommit],
      by simp [Context.charged, Context.call], by simp [Call.isEffect]⟩
  simp only [hb, if_false]
  have hloaded : ctx.persistsNothing
      ((ctx.charged .GasOpComputeCommit).call (.RuntimeState cc.ID)) :=
    ⟨rfl, rfl, rfl, rfl,
      [.ConsensusParameters, .UseGas 1 .GasOpComputeCommit, .RuntimeState cc.ID],
      by simp [Context.charged, Context.call], by simp [Call.isEffect]⟩
  cases hrs : app.faults .RuntimeState with
  | some code => exact hloaded
  | none =>
  simp only []
  cases hst : ctx.state.runtimeStates cc.ID with
  | none => exact hloaded
  | some rtState =>
  simp only []
  by_cases hsu : rtState.Suspended = true
  · simp only [if_pos hsu]
    exact hloaded
  simp only [if_neg hsu]
  cases hco : rtState.Committee with
  | none => exact hloaded
  | some committee =>
  cases hpo : rtState.CommitmentPool with
  | none => exact hloaded
  | some pool =>
  simp only []
  obtain ⟨h1, h2, h3, h4, -, -, -, L, hL, hall, -⟩ :=
    verifyAndAdd_frame app rtState committee cc.Commits
      ((ctx.charged .GasOpComputeCommit).call (.RuntimeState cc.ID)) pool
  have hv : ctx.persistsNothing (app.verifyAndAdd rtState committee
      ((ctx.charged .GasOpComputeCommit).call (.RuntimeState cc.ID)) pool cc.Commits).2.1 := by
    obtain ⟨g1, g2, g3, g4, L0, hL0, hall0⟩ := hloaded
    refine ⟨h1.trans g1, h2.trans g2, h3.trans g3, h4.trans g4, L0 ++ L, ?_, ?_⟩
    · rw [hL, hL0, List.append_assoc]
    · intro c hc
      rcases List.mem_append.mp hc with h | h
      · exact hall0 c h
      · exact isLoop_not_effect c (hall c h)
  split
  · exact hv
  · simp only [hmode, if_true]
    exact hv

/-! ## Evidence submission -/

/-- C11. Malformed evidence is rejected first: when `ValidateBasic` fails with `err`,
`submitEvidence` returns the error `invalidEvidence err`, which unwraps to
`ErrInvalidEvidence`, together with the context it was given, in every mode: no gas has
been charged, no accessor has been called and nothing has been read or written. -/
theorem malformed_evidence_first (app : Application) (ctx : Context) (evidence : Evidence)
    (err : Error) (hinvalid : evidence.ValidateBasic app = some err) :
    app.submitEvidence ctx evidence = (some (.invalidEvidence err), ctx) ∧
    (Error.invalidEvidence err).unwrap = .ErrInvalidEvidence := by
  rw [submitEvidence_eq]
  simp [hinvalid, Error.unwrap]

theorem malformed_evidence_first_witness :
    scenarioMalformedEvidence.ValidateBasic scenarioApp = some (.collaborator 1) ∧
    scenarioApp.submitEvidence scenarioCtx scenarioMalformedEvidence =
      (some (.invalidEvidence (.collaborator 1)), scenarioCtx) :=
  ⟨rfl, (malformed_evidence_first scenarioApp scenarioCtx scenarioMalformedEvidence
    (.collaborator 1) rfl).1⟩

/-- For fresh evidence a failure of the slashing collaborator is returned wrapped, and
when the error of the collaborator wraps `ErrInvalidEvidence` so does the error of the
call; the expiry error is therefore told apart from it by its own value. -/
theorem fresh_evidence_slashing_error :
    (scenarioSlashInvalidApp.submitEvidence scenarioCtx scenarioEvidence).1 =
      some (.slashingRuntimeNode (.invalidEvidence (.collaborator 9))) ∧
    (Error.slashingRuntimeNode (.invalidEvidence (.collaborator 9))).unwrap =
      .ErrInvalidEvidence ∧
    ¬ (scenarioEvidence.round + scenarioCtx.state.consensusParameters.MaxEvidenceAge) % 2 ^ 64 <
      scenarioRuntime.LastBlock.Header.Round := by
  refine ⟨?_, rfl, ?_⟩ <;> decide

/-- C12, counterexample. With `MaxEvidenceAge = 5` and last finalized round 100,
structurally valid evidence for round `2 ^ 64 - 1` is rejected as expired, although
`round + MaxEvidenceAge < lastFinalizedRound` is false over the natural numbers. -/
theorem far_round_is_expired :
    (scenarioEvidenceAt (2 ^ 64 - 1)).ValidateBasic scenarioApp = none ∧
    scenarioCtx.mode = .ExecuteTx ∧
    scenarioCtx.state.consensusParameters.MaxEvidenceAge = 5 ∧
    scenarioRuntime.LastBlock.Header.Round = 100 ∧
    (scenarioEvidenceAt (2 ^ 64 - 1)).round = 2 ^ 64 - 1 ∧
    (scenarioApp.submitEvidence scenarioCtx (scenarioEvidenceAt (2 ^ 64 - 1))).1 =
      some .evidenceExpired ∧
    Error.evidenceExpired.unwrap = .ErrInvalidEvidence ∧
    ¬ ((scenarioEvidenceAt (2 ^ 64 - 1)).round +
        scenarioCtx.state.consensusParameters.MaxEvidenceAge <
      scenarioRuntime.LastBlock.Header.Round) := by
  refine ⟨rfl, rfl, rfl, rfl, rfl, ?_, rfl, ?_⟩ <;> decide

/-- C12, amended. For structurally valid evidence in deliver mode with the gas charged,
the runtime state `rtState` loaded and a non-zero equivocation slashing amount,
`submitEvidence` fails with the expiry error, which wraps `ErrInvalidEvidence`, exactly
when `(round + MaxEvidenceAge) mod 2 ^ 64` is below the last finalized round; on expiry
nothing is hashed, stored or slashed, and otherwise the call passes the check and goes
on to hash and store the evidence. When `round + MaxEvidenceAge < 2 ^ 64` the test is
the inequality `round + MaxEvidenceAge < lastFinalizedRound` over the natural numbers. -/
theorem evidence_freshness (app : Application) (ctx : Context) (evidence : Evidence)
    (rtState : RuntimeState) (hvalid : evidence.ValidateBasic app = none)
    (hmode : ctx.mode = .ExecuteTx)
    (hparams : app.faults .ConsensusParameters = none)
    (hgas : (ctx.UseGas 1 .GasOpEvidence ctx.state.consensusParameters.GasCosts).1 = none)
    (hload : (app.getRuntimeState ctx .outer evidence.ID).1 = .ok rtState)
    (hslash : (slashingLookup rtState.Runtime.Staking.Slashing
      .SlashRuntimeEquivocation).Amount ≠ 0) :
    ((app.submitEvidence ctx evidence).1 = some .evidenceExpired ↔
      (evidence.round + ctx.state.consensusParameters.MaxEvidenceAge) % 2 ^ 64 <
        rtState.LastBlock.Header.Round) ∧
    Error.evidenceExpired.unwrap = .ErrInvalidEvidence ∧
    ((evidence.round + ctx.state.consensusParameters.MaxEvidenceAge) % 2 ^ 64 <
        rtState.LastBlock.Header.Round →
      app.submitEvidence ctx evidence =
        (some .evidenceExpired,
          (ctx.charged .GasOpEvidence).call (.RuntimeState evidence.ID))) ∧
    (¬ (evidence.round + ctx.state.consensusParameters.MaxEvidenceAge) % 2 ^ 64 <
        rtState.LastBlock.Header.Round →
      ∃ pk, app.submitEvidence ctx evidence =
        submitEvidenceStore app ((ctx.charged .GasOpEvidence).call (.RuntimeState evidence.ID))
          rtState evidence.round pk
          (slashingLookup rtState.Runtime.Staking.Slashing .SlashRuntimeEquivocation).Amount
          evidence) ∧
    (evidence.round + ctx.state.consensusParameters.MaxEvidenceAge < 2 ^ 64 →
      ((app.submitEvidence ctx evidence).1 = some .evidenceExpired ↔
        evidence.round + ctx.state.consensusParameters.MaxEvidenceAge <
          rtState.LastBlock.Header.Round)) := by
  have hmain :
      (app.submitEvidence ctx evidence).1 = some .evidenceExpired ↔
        (evidence.round + ctx.state.consensusParameters.MaxEvidenceAge) % 2 ^ 64 <
          rtState.LastBlock.Header.Round := by
    rcases submitEvidence_fresh_cases app ctx evidence rtState hvalid hmode hparams hgas hload
      hslash with ⟨hlt, he⟩ | ⟨hlt, pk, he⟩
    · rw [he]
      exact ⟨fun _ => hlt, fun _ => rfl⟩
    · rw [he]
      constructor
      · intro h
        exact absurd rfl (submitEvidenceStore_errors app _ rtState _ pk _ evidence _ h).2.1
      · intro h
        exact absurd h hlt
  refine ⟨hmain, rfl, ?_, ?_, ?_⟩
  · intro hlt
    rcases submitEvidence_fresh_cases app ctx evidence rtState hvalid hmode hparams hgas hload
      hslash with ⟨-, he⟩ | ⟨hnlt, -, -⟩
    · exact he
    · exact absurd hlt hnlt
  · intro hnlt
    rcases submitEvidence_fresh_cases app ctx evidence rtState hvalid hmode hparams hgas hload
      hslash with ⟨hlt, -⟩ | ⟨-, pk, he⟩
    · exact absurd hlt hnlt
    · exact ⟨pk, he⟩
  · intro hno
    rw [hmain, Nat.mod_eq_of_lt hno]

theorem evidence_freshness_witness :
    scenarioCtx.state.consensusParameters.MaxEvidenceAge = 5 ∧
    scenarioRuntime.LastBlock.Header.Round = 100 ∧
    (scenarioApp.submitEvidence scenarioCtx (scenarioEvidenceAt 94)).1 =
      some .evidenceExpired ∧
    (scenarioApp.submitEvidence scenarioCtx (scenarioEvidenceAt 95)).1 ≠
      some .evidenceExpired :=
  ⟨rfl, rfl,
    (evidence_freshness scenarioApp scenarioCtx (scenarioEvidenceAt 94) scenarioRuntime
      rfl rfl rfl rfl rfl (by decide)).1.2 (by decide),
    fun h => absurd
      ((evidence_freshness scenarioApp scenarioCtx (scenarioEvidenceAt 95) scenarioRuntime
        rfl rfl rfl rfl rfl (by decide)).1.1 h) (by decide)⟩

/-- C13. Replay safety: a successful deliver-mode `submitEvidence` has loaded a runtime
state `rtState` and computed a hash `h` of the evidence, and it adds exactly the key
`(rtState.Runtime.ID, round of the evidence, h)` to the recorded evidence hashes, which
did not hold it before. Submitting the same evidence again in deliver mode on the state
left by the call, with enough gas, fails with `ErrDuplicateEvidence`, leaves the tree
unchanged, and records only the parameter read, the gas charge, the runtime state read,
the hash computation and the lookup of that key, so the slashing collaborator is not
called again. Replay protection is keyed by `(runtime, round, hash)`: any evidence
answered with `ErrDuplicateEvidence` on that state has a key that was recorded before
the first call or is the key just added; so evidence for the same runtime and round
with a different hash, not recorded before, is not answered with `ErrDuplicateEvidence`,
whichever node it accuses. -/
theorem evidence_replay_safety (app : Application) (ctx : Context) (evidence : Evidence)
    (hmode : ctx.mode = .ExecuteTx) (hok : (app.submitEvidence ctx evidence).1 = none) :
    ∃ (rtState : RuntimeState) (h : Hash),
      ctx.state.runtimeStates evidence.ID = some rtState ∧
      app.Hash evidence = .ok h ∧
      ctx.state.evidenceHashes rtState.Runtime.ID evidence.round h = false ∧
      (∀ id round x, (app.submitEvidence ctx evidence).2.state.evidenceHashes id round x =
        if id = rtState.Runtime.ID ∧ round = evidence.round ∧ x = h then true
        else ctx.state.evidenceHashes id round x) ∧
      (∀ again : Context, again.state = (app.submitEvidence ctx evidence).2.state →
        again.mode = .ExecuteTx →
        (again.UseGas 1 .GasOpEvidence again.state.consensusParameters.GasCosts).1 = none →
        (app.submitEvidence again evidence).1 = some .ErrDuplicateEvidence ∧
        (app.submitEvidence again evidence).2.state = again.state ∧
        (app.submitEvidence again evidence).2.calls =
          again.calls ++ [.ConsensusParameters, .UseGas 1 .GasOpEvidence,
            .RuntimeState evidence.ID, .Hash,
            .EvidenceHashExists rtState.Runtime.ID evidence.round h]) ∧
      (∀ (again : Context) (other : Evidence),
        again.state = (app.submitEvidence ctx evidence).2.state →
        again.mode = .ExecuteTx →
        (app.submitEvidence again other).1 = some .ErrDuplicateEvidence →
        ∃ (rt2 : RuntimeState) (h2 : Hash),
          ctx.state.runtimeStates other.ID = some rt2 ∧ app.Hash other = .ok h2 ∧
          (ctx.state.evidenceHashes rt2.Runtime.ID other.round h2 = true ∨
            (rt2.Runtime.ID = rtState.Runtime.ID ∧ other.round = evidence.round ∧ h2 = h))) ∧
      (∀ (again : Context) (other : Evidence) (h2 : Hash),
        again.state = (app.submitEvidence ctx evidence).2.state →
        again.mode = .ExecuteTx →
        other.ID = evidence.ID → other.round = evidence.round →
        app.Hash other = .ok h2 → h2 ≠ h →
        ctx.state.evidenceHashes rtState.Runtime.ID evidence.round h2 = false →
        (app.submitEvidence again other).1 ≠ some .ErrDuplicateEvidence) := by
  rcases submitEvidence_outcome app ctx evidence hmode with ⟨-, err, herr, -⟩ | h
  · rw [herr] at hok; simp at hok
  obtain ⟨rtState, pk, h, hreach, hnew, -, -, hcase⟩ := h
  rcases hcase with ⟨cause, herr, -, -⟩ | ⟨balances, -, -, hstate⟩
  · rw [herr] at hok; simp at hok
  have hkeys : ∀ id round x,
      (app.submitEvidence ctx evidence).2.state.evidenceHashes id round x =
        if id = rtState.Runtime.ID ∧ round = evidence.round ∧ x = h then true
        else ctx.state.evidenceHashes id round x := by
    intro id round x
    rw [hstate]
    rfl
  have hstates : (app.submitEvidence ctx evidence).2.state.runtimeStates =
      ctx.state.runtimeStates := by
    rw [hstate]
    rfl
  have hinv : ∀ (again : Context) (other : Evidence),
      again.state = (app.submitEvidence ctx evidence).2.state →
      again.mode = .ExecuteTx →
      (app.submitEvidence again other).1 = some .ErrDuplicateEvidence →
      ∃ (rt2 : RuntimeState) (h2 : Hash),
        ctx.state.runtimeStates other.ID = some rt2 ∧ app.Hash other = .ok h2 ∧
        (ctx.state.evidenceHashes rt2.Runtime.ID other.round h2 = true ∨
          (rt2.Runtime.ID = rtState.Runtime.ID ∧ other.round = evidence.round ∧ h2 = h)) := by
    intro again other hst hm hdup
    rcases submitEvidence_outcome app again other hm with ⟨-, err, herr, -, hfound⟩ | hx
    · rw [herr] at hdup
      simp only [Option.some.injEq] at hdup
      obtain ⟨rt2, h2, hrt2, hh2, hrec⟩ := hfound hdup
      rw [hst, hstates] at hrt2
      rw [hst, hkeys] at hrec
      refine ⟨rt2, h2, hrt2, hh2, ?_⟩
      by_cases hk : rt2.Runtime.ID = rtState.Runtime.ID ∧ other.round = evidence.round ∧ h2 = h
      · exact Or.inr hk
      · rw [if_neg hk] at hrec
        exact Or.inl hrec
    · obtain ⟨_, _, _, _, _, _, _, hc⟩ := hx
      rcases hc with ⟨cause, herr, -, -⟩ | ⟨b, herr, -, -⟩
      · rw [herr] at hdup; simp at hdup
      · rw [herr] at hdup; simp at hdup
  refine ⟨rtState, h, hreach.stored, hreach.hash, hnew, hkeys, ?_, hinv, ?_⟩
  · intro again hst hm hgas
    have hreach2 : ReachesHashCheck app again.state evidence rtState evidence.round pk h :=
      hreach.transport (by rw [hst, hstate]; rfl) (by rw [hst, hstate]; rfl)
    have hrec : again.state.evidenceHashes rtState.Runtime.ID evidence.round h = true := by
      rw [hst, hkeys]
      simp
    exact submitEvidence_duplicate app again evidence rtState evidence.round pk h hreach2 hm
      hgas hrec
  · intro again other h2 hst hm hid hround hh2 hne hfresh hdup
    obtain ⟨rt2, x, hrt2, hx, hkey⟩ := hinv again other hst hm hdup
    rw [hh2] at hx
    have hx2 : h2 = x := by
      simpa using hx
    subst hx2
    rw [hid, hreach.stored] at hrt2
    have hrt : rtState = rt2 := by
      simpa using hrt2
    subst hrt
    rcases hkey with hkey | ⟨-, -, hkey⟩
    · rw [hround, hfresh] at hkey
      exact Bool.noConfusion hkey
    · exact hne hkey

theorem evidence_replay_safety_witness :
    scenarioCtx.mode = .ExecuteTx ∧
    (scenarioContentHashApp.submitEvidence scenarioCtx scenarioEvidence).1 = none ∧
    (scenarioContentHashApp.submitEvidence
      (scenarioContentHashApp.submitEvidence scenarioCtx scenarioEvidence).2
      scenarioEvidence).1 = some .ErrDuplicateEvidence ∧
    scenarioOtherEvidence ≠ scenarioEvidence ∧
    scenarioContentHash scenarioOtherEvidence ≠ scenarioContentHash scenarioEvidence ∧
    (scenarioContentHashApp.submitEvidence
      (scenarioContentHashApp.submitEvidence scenarioCtx scenarioEvidence).2
      scenarioOtherEvidence).1 ≠ some .ErrDuplicateEvidence ∧
    (scenarioContentHashApp.submitEvidence
      (scenarioContentHashApp.submitEvidence scenarioCtx scenarioEvidence).2
      scenarioOtherEvidence).1 = none := by
  obtain ⟨rtState, h, hrt, hh, -, -, hagain, -, hother⟩ :=
    evidence_replay_safety scenarioContentHashApp scenarioCtx scenarioEvidence rfl (by decide)
  have hrt2 : rtState = scenarioRuntime := by
    have hx : some scenarioRuntime = some rtState := hrt
    exact (Option.some.inj hx).symm
  subst hrt2
  have hh2 : h = scenarioContentHash scenarioEvidence := by
    have hx : (Except.ok (scenarioContentHash scenarioEvidence) : Except Nat Hash) =
        Except.ok h := hh
    exact (Except.ok.inj hx).symm
  subst hh2
  exact ⟨rfl, by decide,
    (hagain (scenarioContentHashApp.submitEvidence scenarioCtx scenarioEvidence).2 rfl rfl
      (by decide)).1,
    by decide, by decide,
    hother (scenarioContentHashApp.submitEvidence scenarioCtx scenarioEvidence).2
      scenarioOtherEvidence (scenarioContentHash scenarioOtherEvidence) rfl rfl rfl rfl rfl
      (by decide) rfl,
    by decide⟩

/-- C14. For structurally valid evidence in deliver mode with the gas charged and the
runtime state `rtState` loaded, `submitEvidence` fails with `ErrRuntimeDoesNotSlash`
exactly when the slashing table of the runtime has no entry for
`SlashRuntimeEquivocation` or the entry found for it has amount zero, whatever the round
of the evidence; on that failure the tree is unchanged and the only calls recorded are
the parameter read, the gas charge and the runtime state read, so no evidence hash is
recorded and the slashing collaborator is not called. -/
theorem runtime_does_not_slash (app : Application) (ctx : Context) (evidence : Evidence)
    (rtState : RuntimeState) (hvalid : evidence.ValidateBasic app = none)
    (hmode : ctx.mode = .ExecuteTx)
    (hparams : app.faults .ConsensusParameters = none)
    (hgas : (ctx.UseGas 1 .GasOpEvidence ctx.state.consensusParameters.GasCosts).1 = none)
    (hload : (app.getRuntimeState ctx .outer evidence.ID).1 = .ok rtState) :
    ((app.submitEvidence ctx evidence).1 = some .ErrRuntimeDoesNotSlash ↔
      ((∀ e ∈ rtState.Runtime.Staking.Slashing, e.1 ≠ .SlashRuntimeEquivocation) ∨
        ∃ e, rtState.Runtime.Staking.Slashing.find?
            (fun e => decide (e.1 = .SlashRuntimeEquivocation)) = some e ∧
          e.2.Amount = 0)) ∧
    ((app.submitEvidence ctx evidence).1 = some .ErrRuntimeDoesNotSlash →
      (app.submitEvidence ctx evidence).2.state = ctx.state ∧
      (app.submitEvidence ctx evidence).2.calls =
        ctx.calls ++ [.ConsensusParameters, .UseGas 1 .GasOpEvidence,
          .RuntimeState evidence.ID]) := by
  rw [← slashingLookup_zero]
  by_cases hz : (slashingLookup rtState.Runtime.Staking.Slashing
      .SlashRuntimeEquivocation).Amount = 0
  · rw [submitEvidence_loaded app ctx evidence rtState hvalid hmode hparams hgas hload]
    by_cases h0 : rtState.Runtime.Staking.Slashing.length = 0
    · simp [h0, hz, Context.charged, Context.call]
    · simp [h0, hz, Context.charged, Context.call]
  have key : (app.submitEvidence ctx evidence).1 ≠ some .ErrRuntimeDoesNotSlash := by
    rcases submitEvidence_fresh_cases app ctx evidence rtState hvalid hmode hparams hgas hload
      hz with ⟨-, he⟩ | ⟨-, pk, he⟩
    · rw [he]; simp
    · rw [he]
      intro h
      exact (submitEvidenceStore_errors app _ rtState _ pk _ evidence _ h).1 rfl
  simp only [hz, iff_false]
  exact ⟨key, fun h => absurd h key⟩

theorem runtime_does_not_slash_witness :
    scenarioEvidence.ValidateBasic scenarioApp = none ∧
    scenarioNoSlashCtx.mode = .ExecuteTx ∧
    scenarioNoSlashRuntime.Runtime.Staking.Slashing ≠ [] ∧
    (scenarioApp.submitEvidence scenarioNoSlashCtx scenarioEvidence).1 =
      some .ErrRuntimeDoesNotSlash :=
  ⟨rfl, rfl, by decide,
    (runtime_does_not_slash scenarioApp scenarioNoSlashCtx scenarioEvidence
      scenarioNoSlashRuntime rfl rfl rfl rfl rfl).1.2 (Or.inl (by decide))⟩

/-! ## Suspended runtimes -/

/-- C15, counterexample. For a suspended runtime and an exhausted gas accountant, each
of the three handlers fails in deliver mode with `ErrOutOfGas`, not with
`ErrRuntimeSuspended`; and `executorCommit` with an empty batch succeeds. -/
theorem suspended_out_of_gas :
    scenarioSuspendedNoGasCtx.mode = .ExecuteTx ∧
    (∃ rtState, scenarioSuspendedNoGasCtx.state.runtimeStates 1 = some rtState ∧
      rtState.Suspended = true) ∧
    (scenarioApp.submitMsg scenarioSuspendedNoGasCtx (scenarioMsg 10)).1 = some .ErrOutOfGas ∧
    (scenarioApp.submitEvidence scenarioSuspendedNoGasCtx scenarioEvidence).1 =
      some .ErrOutOfGas ∧
    (scenarioApp.executorCommit scenarioSuspendedNoGasCtx
      scenarioCommits).1 = some .ErrOutOfGas ∧
    (scenarioApp.executorCommit scenarioSuspendedCtx { ID := 1, Commits := [] }).1 = none := by
  refine ⟨rfl, ⟨_, rfl, rfl⟩, ?_, ?_, ?_, ?_⟩ <;> decide

/-- C15, amended. For a suspended runtime in deliver mode with working accessors, each
of `submitMsg`, `submitEvidence` (for structurally valid evidence) and `executorCommit`
(for a non-empty batch) fails with `ErrOutOfGas` when its gas charge fails and with
`ErrRuntimeSuspended` otherwise, and leaves the tree unchanged. -/
theorem suspended_runtime (app : Application) (ctx : Context) (id : Namespace)
    (rtState : RuntimeState) (hmode : ctx.mode = .ExecuteTx)
    (hparams : app.faults .ConsensusParameters = none)
    (hfetch : app.faults .RuntimeState = none)
    (hstored : ctx.state.runtimeStates id = some rtState)
    (hsuspended : rtState.Suspended = true) :
    (∀ msg : SubmitMsg, msg.ID = id →
      (app.submitMsg ctx msg).1 =
        (if ctx.gas.usedGas + (ctx.state.consensusParameters.GasCosts .GasOpSubmitMsg).getD 0
            > ctx.gas.maxUsedGas then some .ErrOutOfGas else some .ErrRuntimeSuspended) ∧
      (app.submitMsg ctx msg).2.state = ctx.state) ∧
    (∀ evidence : Evidence, evidence.ID = id → evidence.ValidateBasic app = none →
      (app.submitEvidence ctx evidence).1 =
        (if ctx.gas.usedGas + (ctx.state.consensusParameters.GasCosts .GasOpEvidence).getD 0
            > ctx.gas.maxUsedGas then some .ErrOutOfGas else some .ErrRuntimeSuspended) ∧
      (app.submitEvidence ctx evidence).2.state = ctx.state) ∧
    (∀ cc : ExecutorCommit, cc.ID = id → cc.Commits ≠ [] →
      (app.executorCommit ctx cc).1 =
        (if ctx.gas.usedGas +
            (ctx.state.consensusParameters.GasCosts .GasOpComputeCommit).getD 0
            > ctx.gas.maxUsedGas then some .ErrOutOfGas else some .ErrRuntimeSuspended) ∧
      (app.executorCommit ctx cc).2.state = ctx.state) := by
  have hc : ctx.mode ≠ .CheckTx := by rw [hmode]; decide
  have hs : ctx.mode ≠ .SimulateTx := by rw [hmode]; decide
  refine ⟨?_, ?_, ?_⟩
  · intro msg hid
    subst hid
    rw [submitMsg_eq]
    simp only [hc, hs, if_false, hparams, hfetch, hstored, hsuspended, if_true]
    split <;> exact ⟨rfl, rfl⟩
  · intro evidence hid hvalid
    subst hid
    rw [submitEvidence_eq]
    simp only [hvalid, hc, hs, if_false, hparams, hfetch, hstored, hsuspended, if_true]
    split <;> exact ⟨rfl, rfl⟩
  · intro cc hid hne
    subst hid
    rw [executorCommit_eq]
    simp only [hc, hne, if_false, hparams, hfetch, hstored, hsuspended, if_true]
    split <;> exact ⟨rfl, rfl⟩

theorem suspended_runtime_witness :
    (scenarioApp.submitMsg scenarioSuspendedCtx (scenarioMsg 10)).1 =
      some .ErrRuntimeSuspended ∧
    (scenarioApp.submitEvidence scenarioSuspendedCtx scenarioEvidence).1 =
      some .ErrRuntimeSuspended ∧
    (scenarioApp.executorCommit scenarioSuspendedCtx
      scenarioCommits).1 = some .ErrRuntimeSuspended :=
  have h := suspended_runtime scenarioApp scenarioSuspendedCtx 1 scenarioSuspendedRuntime
    rfl rfl rfl rfl rfl
  ⟨(h.1 (scenarioMsg 10) rfl).1, (h.2.1 scenarioEvidence rfl rfl).1,
    (h.2.2 scenarioCommits rfl (by decide)).1⟩

/-! ## Failure of the slashing collaborator -/

/-- C16, counterexample. When the slashing collaborator fails, the deliver-mode call
returns the slashing error, yet the evidence hash, absent before, is recorded in the
state left by the call, and resubmitting the same evidence is answered with
`ErrDuplicateEvidence`. -/
theorem slashing_failure_keeps_hash :
    scenarioCtx.mode = .ExecuteTx ∧
    scenarioCtx.state.evidenceHashes 1 95 2 = false ∧
    (scenarioSlashFaultApp.submitEvidence scenarioCtx scenarioEvidence).1 =
      some (.slashingRuntimeNode (.collaborator 9)) ∧
    (scenarioSlashFaultApp.submitEvidence scenarioCtx scenarioEvidence).2.state.evidenceHashes
      1 95 2 = true ∧
    (scenarioSlashFaultApp.submitEvidence
      (scenarioSlashFaultApp.submitEvidence scenarioCtx scenarioEvidence).2
      scenarioEvidence).1 = some .ErrDuplicateEvidence := by
  refine ⟨rfl, rfl, ?_, ?_, ?_⟩ <;> decide

/-- C16, amended. A deliver-mode `submitEvidence` call that returns an error other than
a slashing failure leaves the tree unchanged. When it returns a slashing failure, the
error wraps the error of the slashing collaborator, the tree left by the call is the
tree before with the evidence hash recorded for `(runtimeID, round)`, and resubmitting
the same evidence on that state in deliver mode with enough gas fails with
`ErrDuplicateEvidence`. -/
theorem submitEvidence_failure (app : Application) (ctx : Context) (evidence : Evidence)
    (err : Error) (hmode : ctx.mode = .ExecuteTx)
    (hfail : (app.submitEvidence ctx evidence).1 = some err) :
    ((∀ cause, err ≠ .slashingRuntimeNode cause) →
      (app.submitEvidence ctx evidence).2.state = ctx.state) ∧
    (∀ cause, err = .slashingRuntimeNode cause →
      ∃ (rtState : RuntimeState) (pk : PublicKey) (h : Hash),
        ctx.state.runtimeStates evidence.ID = some rtState ∧
        app.Hash evidence = .ok h ∧
        app.onEvidenceRuntimeEquivocation
          (ctx.state.apply (.SetEvidenceHash rtState.Runtime.ID evidence.round h)).balances pk
          rtState.Runtime
          (slashingLookup rtState.Runtime.Staking.Slashing
            .SlashRuntimeEquivocation).Amount = .error cause ∧
        ctx.state.evidenceHashes rtState.Runtime.ID evidence.round h = false ∧
        (app.submitEvidence ctx evidence).2.state =
          ctx.state.apply (.SetEvidenceHash rtState.Runtime.ID evidence.round h) ∧
        (app.submitEvidence ctx evidence).2.state.evidenceHashes rtState.Runtime.ID
          evidence.round h = true ∧
        ∀ again : Context, again.state = (app.submitEvidence ctx evidence).2.state →
          again.mode = .ExecuteTx →
          (again.UseGas 1 .GasOpEvidence again.state.consensusParameters.GasCosts).1 = none →
          (app.submitEvidence again evidence).1 = some .ErrDuplicateEvidence) := by
  refine ⟨?_, ?_⟩
  · intro hne
    rcases submitEvidence_outcome app ctx evidence hmode with ⟨hs, -⟩ | h
    · exact hs
    obtain ⟨rtState, pk, h, -, -, -, -, hcase⟩ := h
    rcases hcase with ⟨cause, herr, -, -⟩ | ⟨balances, herr, -, -⟩
    · rw [herr] at hfail
      simp only [Option.some.injEq] at hfail
      exact absurd hfail.symm (hne cause)
    · rw [herr] at hfail; simp at hfail
  · intro cause hcause
    rcases submitEvidence_outcome app ctx evidence hmode with ⟨-, e, he, hne, -⟩ | h
    · rw [he] at hfail
      simp only [Option.some.injEq] at hfail
      rw [hfail, hcause] at hne
      exact absurd rfl (hne cause)
    obtain ⟨rtState, pk, h, hreach, hnew, -, -, hcase⟩ := h
    rcases hcase with ⟨cause2, herr, hcoll, hstate⟩ | ⟨balances, herr, -, -⟩
    · have hc : cause2 = cause := by
        rw [herr, hcause] at hfail
        simpa using hfail
      subst hc
      refine ⟨rtState, pk, h, hreach.stored, hreach.hash, hcoll, hnew, hstate, ?_, ?_⟩
      · rw [hstate]; simp [Tree.apply]
      · intro again hst hm hgas
        have hreach2 : ReachesHashCheck app again.state evidence rtState evidence.round pk h :=
          hreach.transport (by rw [hst, hstate]; rfl) (by rw [hst, hstate]; rfl)
        have hrec : again.state.evidenceHashes rtState.Runtime.ID evidence.round h = true := by
          rw [hst, hstate]
          simp [Tree.apply]
        exact (submitEvidence_duplicate app again evidence rtState evidence.round pk h hreach2
          hm hgas hrec).1
    · rw [herr] at hfail; simp at hfail

theorem submitEvidence_failure_witness :
    scenarioCtx.mode = .ExecuteTx ∧
    (scenarioSlashFaultApp.submitEvidence scenarioCtx scenarioEvidence).1 =
      some (.slashingRuntimeNode (.collaborator 9)) ∧
    ∃ (rtState : RuntimeState) (round : Nat) (h : Hash),
      (scenarioSlashFaultApp.submitEvidence scenarioCtx scenarioEvidence).2.state =
        scenarioCtx.state.apply (.SetEvidenceHash rtState.Runtime.ID round h) ∧
      (scenarioSlashFaultApp.submitEvidence scenarioCtx scenarioEvidence).2.state.evidenceHashes
        rtState.Runtime.ID round h = true := by
  obtain ⟨rtState, pk, h, -, -, -, -, hstate, hrec, -⟩ :=
    (submitEvidence_failure scenarioSlashFaultApp scenarioCtx scenarioEvidence
      (.slashingRuntimeNode (.collaborator 9)) rfl (by decide)).2 (.collaborator 9) rfl
  exact ⟨rfl, by decide, rtState, scenarioEvidence.round, h, hstate, hrec⟩

/-! ## Executor commitments -/

/-- C17. Round-timeout re-arm: a successful deliver-mode `executorCommit` with a
non-empty batch has loaded a runtime state `rtState` with pool `pool`, and with `after`
the pool left by the loop it records a re-arm among its calls exactly when
`after.HighestRank` differs from `pool.HighestRank`. In that case there is exactly one
re-arm, for round `LastBlock.Header.Round + 1` (in `uint64`), with the loaded
`NextTimeout` as previous timeout and `blockHeight + 1 + RoundTimeout` (in `int64`) as
new timeout, which is also the `NextTimeout` of the stored runtime state; both are the
plain sums when these stay in range. Otherwise the stored `NextTimeout` is the loaded
one. The stored runtime state carries the pool `after`. -/
theorem round_timeout_rearm (app : Application) (ctx : Context) (cc : ExecutorCommit)
    (hmode : ctx.mode = .ExecuteTx) (hne : cc.Commits ≠ [])
    (hok : (app.executorCommit ctx cc).1 = none) :
    ∃ rtState committee pool after stored L,
      ctx.state.runtimeStates cc.ID = some rtState ∧
      rtState.Committee = some committee ∧
      rtState.CommitmentPool = some pool ∧
      (app.verifyAndAdd rtState committee (ctx.loaded cc) pool cc.Commits).2.2 = after ∧
      (app.executorCommit ctx cc).2.calls = ctx.calls ++ L ∧
      (app.executorCommit ctx cc).2.state.runtimeStates rtState.Runtime.ID = some stored ∧
      stored.CommitmentPool = some after ∧
      (L.filter Call.isRearm ≠ [] ↔ after.HighestRank ≠ pool.HighestRank) ∧
      (after.HighestRank ≠ pool.HighestRank →
        L.filter Call.isRearm =
          [.rearmRoundTimeout cc.ID (addUint64 rtState.LastBlock.Header.Round 1)
            rtState.NextTimeout
            (nextRoundTimeout ctx.blockHeight rtState)] ∧
        stored.NextTimeout = nextRoundTimeout ctx.blockHeight rtState ∧
        (rtState.LastBlock.Header.Round + 1 < 2 ^ 64 →
          addUint64 rtState.LastBlock.Header.Round 1 = rtState.LastBlock.Header.Round + 1) ∧
        (-(2 ^ 63) ≤ ctx.blockHeight + 1 → ctx.blockHeight + 1 < 2 ^ 63 →
          -(2 ^ 63) ≤ ctx.blockHeight + 1 + rtState.Runtime.Executor.RoundTimeout →
          ctx.blockHeight + 1 + rtState.Runtime.Executor.RoundTimeout < 2 ^ 63 →
          stored.NextTimeout =
            ctx.blockHeight + 1 + rtState.Runtime.Executor.RoundTimeout)) ∧
      (after.HighestRank = pool.HighestRank → stored.NextTimeout = rtState.NextTimeout) := by
  obtain ⟨rtState, committee, pool, hr, hloop, hrearm, hset, -⟩ :=
    executorCommit_success app ctx cc hmode hne hok
  obtain ⟨-, hstate, -, hcalls⟩ :=
    executorCommit_delivered app ctx cc rtState committee pool hr hmode hloop hrearm hset
  generalize hafter :
    (app.verifyAndAdd rtState committee (ctx.loaded cc) pool cc.Commits).2.2 = after
    at hstate hcalls
  refine ⟨rtState, committee, pool, after,
    { rtState with
      CommitmentPool := some after
      NextTimeout := if pool.HighestRank ≠ after.HighestRank then
        nextRoundTimeout ctx.blockHeight rtState else rtState.NextTimeout },
    _, hr.stored, hr.committee, hr.pool, hafter, hcalls, ?_, rfl, ?_⟩
  · rw [hstate]
    by_cases h : pool.HighestRank ≠ after.HighestRank
    · simp only [if_pos h]
      simp [Tree.apply]
    · simp only [if_neg h]
      simp [Tree.apply]
  · by_cases h : pool.HighestRank ≠ after.HighestRank
    · have h2 : after.HighestRank ≠ pool.HighestRank := fun e => h e.symm
      simp only [if_pos h]
      refine ⟨?_, ?_, ?_⟩
      · simp [filter_isRearm_verifyCalls, filter_isRearm_emits, Call.isRearm, h2,
          List.filter_cons]
      · intro _
        refine ⟨?_, trivial, ?_, ?_⟩
        · simp [filter_isRearm_verifyCalls, filter_isRearm_emits, Call.isRearm,
            List.filter_cons, nextRoundTimeout]
        · intro hlt
          exact Nat.mod_eq_of_lt hlt
        · intro a b c d
          simp only [nextRoundTimeout]
          rw [wrapInt64_eq _ a b, wrapInt64_eq _ c d]
      · intro heq
        exact absurd heq h2
    · have h2 : after.HighestRank = pool.HighestRank := by
        by_contra hx
        exact h (fun e => hx e.symm)
      simp only [if_neg h]
      refine ⟨?_, ?_, ?_⟩
      · simp [filter_isRearm_verifyCalls, filter_isRearm_emits, Call.isRearm, h2,
          List.filter_cons]
      · intro hx
        exact absurd h2 hx
      · intro _
        trivial

theorem round_timeout_rearm_witness :
    scenarioCtx.mode = .ExecuteTx ∧
    (scenarioRankApp.executorCommit scenarioCtx scenarioCommits).1 = none ∧
    ∃ stored : RuntimeState,
      (scenarioRankApp.executorCommit scenarioCtx scenarioCommits).2.state.runtimeStates 1 =
        some stored ∧
      stored.NextTimeout = 16 := by
  obtain ⟨rtState, committee, pool, after, stored, L, hrt, hcom, hpool, hafter, -, hstored, -,
      -, hchanged, -⟩ :=
    round_timeout_rearm scenarioRankApp scenarioCtx scenarioCommits rfl (by decide)
      (by decide)
  have hrt2 : rtState = scenarioRuntime := by
    have h : some scenarioRuntime = some rtState := hrt
    exact (Option.some.inj h).symm
  subst hrt2
  have hcom2 : committee = { ValidFor := 0, Members := [11, 12] } := by
    have h : some ({ ValidFor := 0, Members := [11, 12] } : Committee) = some committee := hcom
    exact (Option.some.inj h).symm
  subst hcom2
  have hpool2 : pool = { HighestRank := 9, Commits := [] } := by
    have h : some ({ HighestRank := 9, Commits := [] } : Pool) = some pool := hpool
    exact (Option.some.inj h).symm
  subst hpool2
  subst hafter
  refine ⟨rfl, by decide, stored, hstored, ?_⟩
  rw [(hchanged (by decide)).2.1]
  decide

/-- C18. Batch abort: when the batch is `pre ++ commit :: post`, every commitment of
`pre` verifies and is admitted (leaving the loop at context `ck` with pool `pk`) and
`commit` fails with `err` in verification or in admission, `executorCommit` returns
`err`, leaves the tree and the events unchanged, and has recorded, after the gas charge
and the load, the verification and admission of each commitment of `pre` in order and
then the verification of `commit` alone (when it failed) or its verification and
admission (when the admission failed), and nothing else: no commitment of `post` is
looked at, nothing is re-armed, stored, emitted or registered. The pool in memory is
`pk`, the one holding the commitments of `pre`. -/
theorem batch_abort (app : Application) (ctx : Context) (cc : ExecutorCommit)
    (rtState : RuntimeState) (committee : Committee) (pool : Pool)
    (pre post : List ExecutorCommitment) (commit : ExecutorCommitment) (err : Error)
    (ck : Context) (pk : Pool)
    (hmode : ctx.mode ≠ .CheckTx)
    (hparams : app.faults .ConsensusParameters = none)
    (hgas : (ctx.UseGas 1 .GasOpComputeCommit ctx.state.consensusParameters.GasCosts).1 = none)
    (hfetch : app.faults .RuntimeState = none)
    (hstored : ctx.state.runtimeStates cc.ID = some rtState)
    (hactive : rtState.Suspended = false)
    (hcommittee : rtState.Committee = some committee)
    (hpool : rtState.CommitmentPool = some pool)
    (hbatch : cc.Commits = pre ++ commit :: post)
    (hpre : app.verifyAndAdd rtState committee (ctx.loaded cc) pool pre = (none, ck, pk))
    (hfail : (app.verifyAndAdd rtState committee ck pk [commit]).1 = some err) :
    (app.executorCommit ctx cc).1 = some err ∧
    (app.executorCommit ctx cc).2.state = ctx.state ∧
    (app.executorCommit ctx cc).2.events = ctx.events ∧
    (app.verifyAndAdd rtState committee (ctx.loaded cc) pool cc.Commits).2.2 = pk ∧
    (((app.executorCommit ctx cc).2.calls =
        ctx.calls ++
          [.ConsensusParameters, .UseGas 1 .GasOpComputeCommit, .RuntimeState cc.ID] ++
          verifyCalls pre ++ [.VerifyExecutorCommitment commit] ∧
      (app.VerifyExecutorCommitment (ck.call (.VerifyExecutorCommitment commit))
        { rtState with CommitmentPool := some pk } commit).1 = some err) ∨
     ((app.executorCommit ctx cc).2.calls =
        ctx.calls ++
          [.ConsensusParameters, .UseGas 1 .GasOpComputeCommit, .RuntimeState cc.ID] ++
          verifyCalls pre ++
          [.VerifyExecutorCommitment commit, .AddVerifiedExecutorCommitment commit] ∧
      (app.VerifyExecutorCommitment (ck.call (.VerifyExecutorCommitment commit))
        { rtState with CommitmentPool := some pk } commit).1 = none ∧
      app.AddVerifiedExecutorCommitment pk committee commit = .error err)) := by
  have hne : cc.Commits ≠ [] := by rw [hbatch]; simp
  have hr : ReachesLoop app ctx cc rtState committee pool :=
    ⟨hmode, hparams, hgas, hne, hfetch, hstored, by simp [hactive], hcommittee, hpool⟩
  obtain ⟨h1, h2, -, -, -, -, -, L, hL, -, hLok⟩ :=
    verifyAndAdd_frame app rtState committee pre (ctx.loaded cc) pool
  rw [hpre] at h1 h2 hL hLok
  simp only [forall_true_left] at hLok
  subst hLok
  obtain ⟨g1, g2, -, -, -, -, -, -⟩ :=
    verifyAndAdd_frame app rtState committee (commit :: post) ck pk
  obtain ⟨f1, f2, f3⟩ := verifyAndAdd_first_fails app rtState committee ck pk commit post err
    hfail
  have happ := verifyAndAdd_append app rtState committee pre (commit :: post)
    (ctx.loaded cc) ck pool pk hpre
  rw [executorCommit_loop app ctx cc rtState committee pool hr, hbatch, happ]
  simp only [f1, ne_eq, reduceCtorEq, not_false_eq_true, if_true, g1, g2, h1, h2, f2]
  refine ⟨by trivial, h1, h2, by trivial, ?_⟩
  have hck : ck.calls = ctx.calls ++
      [.ConsensusParameters, .UseGas 1 .GasOpComputeCommit, .RuntimeState cc.ID] ++
      verifyCalls pre := by
    rw [hL]
    simp [Context.loaded, Context.charged, Context.call]
  rw [← hck]
  exact f3

theorem batch_abort_witness :
    scenarioCommits.Commits = [⟨11, 11, 101, 0⟩] ++ ⟨12, 11, 101, 0⟩ :: [] ∧
    scenarioCtx.mode ≠ .CheckTx ∧
    (scenarioRejectApp.executorCommit scenarioCtx scenarioCommits).1 =
      some (.collaborator 4) ∧
    (scenarioRejectApp.executorCommit scenarioCtx scenarioCommits).2.state =
      scenarioCtx.state ∧
    (scenarioRejectApp.executorCommit scenarioCtx scenarioCommits).2.events =
      scenarioCtx.events :=
  have h := batch_abort scenarioRejectApp scenarioCtx scenarioCommits scenarioRuntime
    { ValidFor := 0, Members := [11, 12] } { HighestRank := 9, Commits := [] }
    [⟨11, 11, 101, 0⟩] [] ⟨12, 11, 101, 0⟩ (.collaborator 4)
    (scenarioRejectApp.verifyAndAdd scenarioRuntime { ValidFor := 0, Members := [11, 12] }
      (scenarioCtx.loaded scenarioCommits) { HighestRank := 9, Commits := [] }
      [⟨11, 11, 101, 0⟩]).2.1
    (scenarioRejectApp.verifyAndAdd scenarioRuntime { ValidFor := 0, Members := [11, 12] }
      (scenarioCtx.loaded scenarioCommits) { HighestRank := 9, Commits := [] }
      [⟨11, 11, 101, 0⟩]).2.2
    (by decide) rfl rfl rfl rfl rfl rfl rfl rfl rfl rfl
  ⟨rfl, by decide, h.1, h.2.1, h.2.2.1⟩

/-- C19. Effects of a successful `executorCommit`: in deliver mode, for a batch of at
least one commitment that reaches the loop with every commitment verified and admitted,
and with the re-arm and the state store working, the call succeeds, the runtime state
stored under the runtime's ID is the loaded one with the pool left by the loop (and
possibly a new `NextTimeout`), the events emitted are those before followed by one
event per commitment in submission order, each carrying the commitment and the runtime
ID of the batch, and exactly one registration for finalization is recorded, for that
runtime ID. -/
theorem executorCommit_success_effects (app : Application) (ctx : Context)
    (cc : ExecutorCommit) (rtState : RuntimeState) (committee : Committee) (pool : Pool)
    (hmode : ctx.mode = .ExecuteTx)
    (hparams : app.faults .ConsensusParameters = none)
    (hgas : (ctx.UseGas 1 .GasOpComputeCommit ctx.state.consensusParameters.GasCosts).1 = none)
    (hbatch : 1 ≤ cc.Commits.length)
    (hfetch : app.faults .RuntimeState = none)
    (hstored : ctx.state.runtimeStates cc.ID = some rtState)
    (hactive : rtState.Suspended = false)
    (hcommittee : rtState.Committee = some committee)
    (hpool : rtState.CommitmentPool = some pool)
    (hloop : (app.verifyAndAdd rtState committee (ctx.loaded cc) pool cc.Commits).1 = none)
    (hrearm : app.faults .rearmRoundTimeout = none)
    (hset : app.faults .SetRuntimeState = none) :
    (app.executorCommit ctx cc).1 = none ∧
    (∃ stored, (app.executorCommit ctx cc).2.state.runtimeStates rtState.Runtime.ID =
        some stored ∧
      stored.CommitmentPool =
        some (app.verifyAndAdd rtState committee (ctx.loaded cc) pool cc.Commits).2.2 ∧
      stored.Runtime = rtState.Runtime ∧ stored.LastBlock = rtState.LastBlock ∧
      stored.Committee = rtState.Committee ∧ stored.Suspended = rtState.Suspended) ∧
    (app.executorCommit ctx cc).2.events =
      ctx.events ++ cc.Commits.map (fun commit => ({ Commit := commit, ID := cc.ID } : Event)) ∧
    (app.executorCommit ctx cc).2.events.length = ctx.events.length + cc.Commits.length ∧
    ∃ L, (app.executorCommit ctx cc).2.calls = ctx.calls ++ L ∧
      L.filter Call.isRegister = [.RegisterRuntimeForFinalization cc.ID] := by
  have hne : cc.Commits ≠ [] := by
    intro h
    rw [h] at hbatch
    simp at hbatch
  have hc : ctx.mode ≠ .CheckTx := by rw [hmode]; decide
  have hr : ReachesLoop app ctx cc rtState committee pool :=
    ⟨hc, hparams, hgas, hne, hfetch, hstored, by simp [hactive], hcommittee, hpool⟩
  obtain ⟨h1, hstate, hevents, hcalls⟩ :=
    executorCommit_delivered app ctx cc rtState committee pool hr hmode hloop
      (fun _ => hrearm) hset
  refine ⟨h1,
    ⟨{ rtState with
        CommitmentPool := some
          (app.verifyAndAdd rtState committee (ctx.loaded cc) pool cc.Commits).2.2
        NextTimeout := if pool.HighestRank ≠
            (app.verifyAndAdd rtState committee (ctx.loaded cc) pool
              cc.Commits).2.2.HighestRank then
          nextRoundTimeout ctx.blockHeight rtState else rtState.NextTimeout },
      ?_, rfl, rfl, rfl, rfl, rfl⟩, hevents, ?_, _, hcalls, ?_⟩
  · rw [hstate]
    by_cases h : pool.HighestRank ≠
        (app.verifyAndAdd rtState committee (ctx.loaded cc) pool cc.Commits).2.2.HighestRank
    · simp only [if_pos h]
      simp [Tree.apply]
    · simp only [if_neg h]
      simp [Tree.apply]
  · rw [hevents]
    simp
  · by_cases h : pool.HighestRank ≠
        (app.verifyAndAdd rtState committee (ctx.loaded cc) pool cc.Commits).2.2.HighestRank
    · simp [if_pos h, filter_isRegister_verifyCalls, filter_isRegister_emits, Call.isRegister,
        List.filter_cons]
    · simp [if_neg h, filter_isRegister_verifyCalls, filter_isRegister_emits, Call.isRegister,
        List.filter_cons]

theorem executorCommit_success_effects_witness :
    scenarioCtx.mode = .ExecuteTx ∧
    (scenarioApp.executorCommit scenarioCtx scenarioCommits).1 = none ∧
    (scenarioApp.executorCommit scenarioCtx scenarioCommits).2.events =
      [{ Commit := ⟨11, 11, 101, 0⟩, ID := 1 }, { Commit := ⟨12, 11, 101, 0⟩, ID := 1 }] :=
  have h := executorCommit_success_effects scenarioApp scenarioCtx scenarioCommits
    scenarioRuntime { ValidFor := 0, Members := [11, 12] } { HighestRank := 9, Commits := [] }
    rfl rfl rfl (by decide) rfl rfl rfl rfl rfl rfl rfl rfl
  ⟨rfl, h.1, h.2.2.1⟩

/-! ## Simulation mode -/

/-- C20. Simulation is gas-only: in a simulation context each of the three handlers
leaves the tree, the emitted events and the transaction buffers unchanged and records
no write, event, re-arm, slashing, transfer or registration for finalization;
`submitEvidence` (for structurally valid evidence) and `submitMsg` return success with
only the parameter read and the gas charge recorded once the charge succeeds, without
loading the runtime state. -/
theorem simulate_gas_only (app : Application) (ctx : Context)
    (hmode : ctx.mode = .SimulateTx) :
    (∀ cc : ExecutorCommit, ctx.persistsNothing (app.executorCommit ctx cc).2) ∧
    (∀ evidence : Evidence, ctx.persistsNothing (app.submitEvidence ctx evidence).2 ∧
      (evidence.ValidateBasic app = none → app.faults .ConsensusParameters = none →
        (ctx.UseGas 1 .GasOpEvidence ctx.state.consensusParameters.GasCosts).1 = none →
        app.submitEvidence ctx evidence = (none, ctx.charged .GasOpEvidence) ∧
        (app.submitEvidence ctx evidence).2.calls =
          ctx.calls ++ [.ConsensusParameters, .UseGas 1 .GasOpEvidence])) ∧
    (∀ msg : SubmitMsg, ctx.persistsNothing (app.submitMsg ctx msg).2 ∧
      (app.faults .ConsensusParameters = none →
        (ctx.UseGas 1 .GasOpSubmitMsg ctx.state.consensusParameters.GasCosts).1 = none →
        app.submitMsg ctx msg = (none, ctx.charged .GasOpSubmitMsg) ∧
        (app.submitMsg ctx msg).2.calls =
          ctx.calls ++ [.ConsensusParameters, .UseGas 1 .GasOpSubmitMsg])) := by
  have hc : ctx.mode ≠ .CheckTx := by rw [hmode]; decide
  refine ⟨fun cc => executorCommit_simulate app ctx cc hmode, ?_, ?_⟩
  · intro evidence
    constructor
    · rw [submitEvidence_eq]
      cases hv : evidence.ValidateBasic app with
      | some err => exact ⟨rfl, rfl, rfl, rfl, [], by simp, by simp⟩
      | none =>
      simp only [hc, if_false]
      cases hcp : app.faults .ConsensusParameters with
      | some code =>
        exact ⟨rfl, rfl, rfl, rfl, [.ConsensusParameters], rfl, by simp [Call.isEffect]⟩
      | none =>
      simp only []
      by_cases hg : ctx.gas.usedGas +
          (ctx.state.consensusParameters.GasCosts .GasOpEvidence).getD 0 > ctx.gas.maxUsedGas
      · simp only [hg, if_true]
        exact ⟨rfl, rfl, rfl, rfl, [.ConsensusParameters, .UseGas 1 .GasOpEvidence],
          by simp [Context.call], by simp [Call.isEffect]⟩
      simp only [hg, if_false, hmode, if_true]
      exact ⟨rfl, rfl, rfl, rfl, [.ConsensusParameters, .UseGas 1 .GasOpEvidence],
        by simp [Context.charged, Context.call], by simp [Call.isEffect]⟩
    · intro hv hcp hgas
      have hg := UseGas_fst_none ctx _ _ hgas
      rw [submitEvidence_eq]
      simp only [hv, hc, if_false, hcp, hg, hmode, if_true]
      exact ⟨rfl, by simp [Context.charged, Context.call]⟩
  · intro msg
    constructor
    · rw [submitMsg_eq]
      simp only [hc, if_false]
      cases hcp : app.faults .ConsensusParameters with
      | some code =>
        exact ⟨rfl, rfl, rfl, rfl, [.ConsensusParameters], rfl, by simp [Call.isEffect]⟩
      | none =>
      simp only []
      by_cases hg : ctx.gas.usedGas +
          (ctx.state.consensusParameters.GasCosts .GasOpSubmitMsg).getD 0 > ctx.gas.maxUsedGas
      · simp only [hg, if_true]
        exact ⟨rfl, rfl, rfl, rfl, [.ConsensusParameters, .UseGas 1 .GasOpSubmitMsg],
          by simp [Context.call], by simp [Call.isEffect]⟩
      simp only [hg, if_false, hmode, if_true]
      exact ⟨rfl, rfl, rfl, rfl, [.ConsensusParameters, .UseGas 1 .GasOpSubmitMsg],
        by simp [Context.charged, Context.call], by simp [Call.isEffect]⟩
    · intro hcp hgas
      have hg := UseGas_fst_none ctx _ _ hgas
      rw [submitMsg_eq]
      simp only [hc, if_false, hcp, hg, hmode, if_true]
      exact ⟨rfl, by simp [Context.charged, Context.call]⟩

theorem simulate_gas_only_witness :
    scenarioSimulateCtx.mode = .SimulateTx ∧
    scenarioSimulateCtx.persistsNothing
      (scenarioApp.executorCommit scenarioSimulateCtx scenarioCommits).2 ∧
    scenarioApp.submitEvidence scenarioSimulateCtx scenarioEvidence =
      (none, scenarioSimulateCtx.charged .GasOpEvidence) ∧
    scenarioApp.submitMsg scenarioSimulateCtx (scenarioMsg 10) =
      (none, scenarioSimulateCtx.charged .GasOpSubmitMsg) :=
  have h := simulate_gas_only scenarioApp scenarioSimulateCtx rfl
  ⟨rfl, h.1 scenarioCommits, ((h.2.1 scenarioEvidence).2 rfl rfl rfl).1,
    ((h.2.2 (scenarioMsg 10)).2 rfl rfl).1⟩

/-! ## Gas charges -/

/-- A call of the verification loop is not a charge. -/
theorem isLoop_not_useGas (c : Call) (h : c.isLoop = true) : c.isUseGas = false := by
  cases c <;> simp_all [Call.isLoop, Call.isUseGas]

/-- Reaching a context without charging is transitive. -/
theorem noCharge_trans {a b c : Context} (h1 : a.noCharge b) (h2 : b.noCharge c) :
    a.noCharge c := by
  obtain ⟨g1, L1, hL1, f1⟩ := h1
  obtain ⟨g2, L2, hL2, f2⟩ := h2
  refine ⟨g2.trans g1, L1 ++ L2, ?_, ?_⟩
  · rw [hL2, hL1, List.append_assoc]
  · rw [List.filter_append, f1, f2]
    rfl

/-- The tail of `submitMsg` makes no charge. -/
theorem submitMsgTx_noCharge (app : Application) (c : Context) (rtState : RuntimeState)
    (msg : SubmitMsg) : c.noCharge (submitMsgTx app c rtState msg).2 := by
  refine ⟨(submitMsgTx_frame app c rtState msg).2.2.2.2, ?_⟩
  unfold submitMsgTx
  simp only []
  repeat' split
  all_goals exact ⟨_, by simp only [List.append_assoc]; rfl, by simp [Call.isUseGas]⟩

/-- The tail of `submitEvidence` makes no charge. -/
theorem submitEvidenceStore_noCharge (app : Application) (c : Context) (rtState : RuntimeState)
    (round : Nat) (pk : PublicKey) (slash : Quantity) (evidence : Evidence) :
    c.noCharge (submitEvidenceStore app c rtState round pk slash evidence).2 := by
  unfold submitEvidenceStore
  simp only []
  repeat' split
  all_goals exact ⟨rfl, _, rfl, by simp [Call.isUseGas]⟩

/-- The tail of `executorCommit` makes no charge. -/
theorem executorCommitTx_noCharge (app : Application) (c : Context) (rtState : RuntimeState)
    (prevRank : Nat) (pool : Pool) (cc : ExecutorCommit) :
    c.noCharge (executorCommitTx app c rtState prevRank pool cc).2 := by
  unfold executorCommitTx
  simp only []
  have hemit : ∀ l : List Event, (l.map Call.EmitEvent).filter Call.isUseGas = [] := by
    intro l
    induction l with
    | nil => rfl
    | cons a l ih => simp [Call.isUseGas, ih]
  repeat' split
  all_goals refine ⟨rfl, _, rfl, ?_⟩
  all_goals simp [Call.isUseGas, List.filter_cons, hemit]

/-- With a verifier that leaves the gas accountant alone, the verification loop makes
no charge. -/
theorem verifyAndAdd_noCharge (app : Application) (rtState : RuntimeState)
    (committee : Committee) (commits : List ExecutorCommitment)
    (hverify : ∀ c rt commit, (app.VerifyExecutorCommitment c rt commit).2 = c.gas) :
    ∀ (ctx : Context) (pool : Pool),
      ctx.noCharge (app.verifyAndAdd rtState committee ctx pool commits).2.1 := by
  induction commits with
  | nil =>
    intro ctx pool
    exact ⟨rfl, [], by simp [Application.verifyAndAdd], rfl⟩
  | cons commit rest ih =>
    intro ctx pool
    simp only [Application.verifyAndAdd]
    have hg := hverify (ctx.call (.VerifyExecutorCommitment commit))
      { rtState with CommitmentPool := some pool } commit
    cases hv : app.VerifyExecutorCommitment (ctx.call (.VerifyExecutorCommitment commit))
        { rtState with CommitmentPool := some pool } commit with
    | mk verr gas =>
    rw [hv] at hg
    have hgas : gas = ctx.gas := hg
    subst hgas
    cases verr with
    | some err =>
      exact ⟨rfl, [.VerifyExecutorCommitment commit], rfl, by simp [Call.isUseGas]⟩
    | none =>
      simp only []
      cases ha : app.AddVerifiedExecutorCommitment pool committee commit with
      | error err =>
        exact ⟨rfl, [.VerifyExecutorCommitment commit, .AddVerifiedExecutorCommitment commit],
          by simp [Context.call], by simp [Call.isUseGas]⟩
      | ok pool2 =>
        simp only []
        have hstep : ctx.noCharge
            (({ ctx.call (.VerifyExecutorCommitment commit) with gas := ctx.gas } :
              Context).call (.AddVerifiedExecutorCommitment commit)) :=
          ⟨rfl, [.VerifyExecutorCommitment commit, .AddVerifiedExecutorCommitment commit],
            by simp [Context.call], by simp [Call.isUseGas]⟩
        exact noCharge_trans hstep (ih _ pool2)

/-- A failed unit charge: one charge recorded, gas accountant unchanged. -/
theorem chargedOnce_out_of_gas (ctx : Context) (op : Op)
    (hg : ctx.gas.usedGas + (ctx.state.consensusParameters.GasCosts op).getD 0 >
      ctx.gas.maxUsedGas) :
    ctx.chargedOnce ((ctx.call .ConsensusParameters).call (.UseGas 1 op)) op := by
  refine ⟨?_, [.ConsensusParameters, .UseGas 1 op], by simp [Context.call],
    by simp [Call.isUseGas]⟩
  simp only [Context.UseGas, Context.call, Nat.mul_one]
  simp [hg]

/-- A successful unit charge: one charge recorded, cost added to the used gas. -/
theorem chargedOnce_charged (ctx : Context) (op : Op)
    (hg : ¬ ctx.gas.usedGas + (ctx.state.consensusParameters.GasCosts op).getD 0 >
      ctx.gas.maxUsedGas) :
    ctx.chargedOnce (ctx.charged op) op := by
  refine ⟨?_, [.ConsensusParameters, .UseGas 1 op], by simp [Context.charged, Context.call],
    by simp [Call.isUseGas]⟩
  simp only [Context.UseGas, Context.call, Nat.mul_one, Context.charged]
  simp [hg]

/-- Work after the charge that does not touch the meter keeps the single charge. -/
theorem chargedOnce_then {ctx c r : Context} {op : Op} (h1 : ctx.chargedOnce c op)
    (h2 : c.noCharge r) : ctx.chargedOnce r op := by
  obtain ⟨g1, L1, hL1, f1⟩ := h1
  obtain ⟨g2, L2, hL2, f2⟩ := h2
  refine ⟨g2.trans g1, L1 ++ L2, ?_, ?_⟩
  · rw [hL2, hL1, List.append_assoc]
  · rw [List.filter_append, f1, f2]
    rfl

/-- Recording a call that is not a charge does not touch the meter. -/
theorem noCharge_call (c : Context) (k : Call) (h : k.isUseGas = false) :
    c.noCharge (c.call k) :=
  ⟨rfl, [k], rfl, by simp [h]⟩

/-- Outside check-only mode, when the consensus parameters load, `submitMsg` charges
exactly once. -/
theorem submitMsg_chargedOnce (app : Application) (ctx : Context) (msg : SubmitMsg)
    (hmode : ctx.mode ≠ .CheckTx) (hparams : app.faults .ConsensusParameters = none) :
    ctx.chargedOnce (app.submitMsg ctx msg).2 .GasOpSubmitMsg := by
  rw [submitMsg_eq]
  simp only [hmode, if_false, hparams]
  by_cases hg : ctx.gas.usedGas +
      (ctx.state.consensusParameters.GasCosts .GasOpSubmitMsg).getD 0 > ctx.gas.maxUsedGas
  · simp only [if_pos hg]
    exact chargedOnce_out_of_gas ctx _ hg
  simp only [if_neg hg]
  have h0 := chargedOnce_charged ctx .GasOpSubmitMsg hg
  have h1 : ctx.chargedOnce ((ctx.charged .GasOpSubmitMsg).call (.RuntimeState msg.ID))
      .GasOpSubmitMsg := chargedOnce_then h0 (noCharge_call _ _ rfl)
  repeat' split
  all_goals first
    | exact h0
    | exact h1
    | exact chargedOnce_then h1 (submitMsgTx_noCharge app _ _ msg)

/-- Outside check-only mode, for structurally valid evidence, when the consensus
parameters load, `submitEvidence` charges exactly once. -/
theorem submitEvidence_chargedOnce (app : Application) (ctx : Context) (evidence : Evidence)
    (hmode : ctx.mode ≠ .CheckTx) (hparams : app.faults .ConsensusParameters = none)
    (hvalid : evidence.ValidateBasic app = none) :
    ctx.chargedOnce (app.submitEvidence ctx evidence).2 .GasOpEvidence := by
  rw [submitEvidence_eq]
  simp only [hvalid, hmode, if_false, hparams]
  by_cases hg : ctx.gas.usedGas +
      (ctx.state.consensusParameters.GasCosts .GasOpEvidence).getD 0 > ctx.gas.maxUsedGas
  · simp only [if_pos hg]
    exact chargedOnce_out_of_gas ctx _ hg
  simp only [if_neg hg]
  have h0 := chargedOnce_charged ctx .GasOpEvidence hg
  have h1 : ctx.chargedOnce ((ctx.charged .GasOpEvidence).call (.RuntimeState evidence.ID))
      .GasOpEvidence := chargedOnce_then h0 (noCharge_call _ _ rfl)
  repeat' split
  all_goals first
    | exact h0
    | exact h1
    | exact chargedOnce_then h1 (submitEvidenceStore_noCharge app _ _ _ _ _ evidence)

/-- Outside check-only mode, when the consensus parameters load, the context left by
`executorCommit` is reached from the context after the gas charge by recording the state
read, running the verification loop and running the transaction tail. A property that
holds after the charge and is kept by these three steps holds of the result. -/
theorem executorCommit_reaches (app : Application) (ctx : Context) (cc : ExecutorCommit)
    (P : Context → Prop) (hmode : ctx.mode ≠ .CheckTx)
    (hparams : app.faults .ConsensusParameters = none)
    (hfail : ctx.gas.usedGas +
        (ctx.state.consensusParameters.GasCosts .GasOpComputeCommit).getD 0 >
        ctx.gas.maxUsedGas →
      P ((ctx.call .ConsensusParameters).call (.UseGas 1 .GasOpComputeCommit)))
    (hcharged : ¬ ctx.gas.usedGas +
        (ctx.state.consensusParameters.GasCosts .GasOpComputeCommit).getD 0 >
        ctx.gas.maxUsedGas →
      P (ctx.charged .GasOpComputeCommit))
    (hread : ∀ c : Context, P c → P (c.call (.RuntimeState cc.ID)))
    (hloop : ∀ (c : Context) rtState committee pool commits, P c →
      P (app.verifyAndAdd rtState committee c pool commits).2.1)
    (htail : ∀ (c : Context) rtState prevRank pool, P c →
      P (executorCommitTx app c rtState prevRank pool cc).2) :
    P (app.executorCommit ctx cc).2 := by
  rw [executorCommit_eq]
  simp only [hmode, if_false, hparams]
  by_cases hg : ctx.gas.usedGas +
      (ctx.state.consensusParameters.GasCosts .GasOpComputeCommit).getD 0 > ctx.gas.maxUsedGas
  · simp only [if_pos hg]
    exact hfail hg
  simp only [if_neg hg]
  have h0 := hcharged hg
  have h1 := hread _ h0
  repeat' split
  all_goals first
    | exact h0
    | exact h1
    | exact hloop _ _ _ _ _ h1
    | exact htail _ _ _ _ (hloop _ _ _ _ _ h1)

/-- C21. Empty commitment batch: outside check-only mode, when the consensus parameters
load and the unit charge for `GasOpComputeCommit` succeeds, `executorCommit` with a
batch of zero commits returns success with the context left by that single charge: the
tree, the events and the transaction buffers are unchanged, the used gas has grown by
the table cost of the operation, and the only calls recorded are the parameter read and
the charge, so the runtime state is not loaded (whatever the tree holds for the runtime)
and nothing is re-armed, stored, emitted or registered. -/
theorem empty_batch (app : Application) (ctx : Context) (cc : ExecutorCommit)
    (hmode : ctx.mode ≠ .CheckTx) (hparams : app.faults .ConsensusParameters = none)
    (hgas : (ctx.UseGas 1 .GasOpComputeCommit ctx.state.consensusParameters.GasCosts).1 = none)
    (hempty : cc.Commits = []) :
    (app.executorCommit ctx cc).1 = none ∧
    (app.executorCommit ctx cc).2.state = ctx.state ∧
    (app.executorCommit ctx cc).2.events = ctx.events ∧
    (app.executorCommit ctx cc).2.pending = ctx.pending ∧
    (app.executorCommit ctx cc).2.pendingEvents = ctx.pendingEvents ∧
    (app.executorCommit ctx cc).2.calls =
      ctx.calls ++ [.ConsensusParameters, .UseGas 1 .GasOpComputeCommit] ∧
    (app.executorCommit ctx cc).2.gas.usedGas =
      ctx.gas.usedGas + (ctx.state.consensusParameters.GasCosts .GasOpComputeCommit).getD 0 ∧
    (app.executorCommit ctx cc).2.gas.maxUsedGas = ctx.gas.maxUsedGas := by
  have hg := UseGas_fst_none ctx _ _ hgas
  rw [executorCommit_eq]
  simp only [hmode, if_false, hparams, hg, hempty, if_true]
  refine ⟨by trivial, rfl, rfl, rfl, rfl, ?_, rfl, rfl⟩
  simp [Context.charged, Context.call]

theorem empty_batch_witness :
    scenarioSuspendedCtx.mode ≠ .CheckTx ∧
    (∃ rtState, scenarioSuspendedCtx.state.runtimeStates 1 = some rtState ∧
      rtState.Suspended = true) ∧
    (scenarioApp.executorCommit scenarioSuspendedCtx { ID := 1, Commits := [] }).1 = none ∧
    (scenarioApp.executorCommit scenarioSuspendedCtx { ID := 1, Commits := [] }).2.calls =
      [.ConsensusParameters, .UseGas 1 .GasOpComputeCommit] ∧
    (scenarioApp.executorCommit scenarioSuspendedCtx { ID := 2, Commits := [] }).1 = none :=
  ⟨by decide, ⟨_, rfl, rfl⟩,
    (empty_batch scenarioApp scenarioSuspendedCtx { ID := 1, Commits := [] } (by decide) rfl
      rfl rfl).1,
    (empty_batch scenarioApp scenarioSuspendedCtx { ID := 1, Commits := [] } (by decide) rfl
      rfl rfl).2.2.2.2.2.1,
    (empty_batch scenarioApp scenarioSuspendedCtx { ID := 2, Commits := [] } (by decide) rfl
      rfl rfl).1⟩

/-- C22, counterexample. When the read of the consensus parameters fails, each of the
three handlers returns that error in deliver mode without any charge: no charge is
recorded and the gas accountant is unchanged. -/
theorem params_failure_charges_nothing :
    scenarioCtx.mode ≠ .CheckTx ∧
    scenarioEvidence.ValidateBasic scenarioParamsFaultApp = none ∧
    (scenarioParamsFaultApp.executorCommit scenarioCtx scenarioCommits).1 =
      some (.collaborator 1) ∧
    (scenarioParamsFaultApp.executorCommit scenarioCtx scenarioCommits).2.calls.filter
      Call.isUseGas = [] ∧
    (scenarioParamsFaultApp.executorCommit scenarioCtx scenarioCommits).2.gas =
      scenarioCtx.gas ∧
    (scenarioParamsFaultApp.submitEvidence scenarioCtx scenarioEvidence).2.calls.filter
      Call.isUseGas = [] ∧
    (scenarioParamsFaultApp.submitEvidence scenarioCtx scenarioEvidence).2.gas =
      scenarioCtx.gas ∧
    (scenarioParamsFaultApp.submitMsg scenarioCtx (scenarioMsg 10)).2.calls.filter
      Call.isUseGas = [] ∧
    (scenarioParamsFaultApp.submitMsg scenarioCtx (scenarioMsg 10)).2.gas =
      scenarioCtx.gas := by
  refine ⟨?_, rfl, ?_, ?_, ?_, ?_, ?_, ?_, ?_⟩ <;> decide

/-- C22, amended. Outside check-only mode, when the consensus parameters load, each of
`executorCommit`, `submitEvidence` (for structurally valid evidence) and `submitMsg`
records exactly one charge on the gas meter, with multiplier 1 and the operation
`GasOpComputeCommit`, `GasOpEvidence` and `GasOpSubmitMsg` respectively, priced from the
`GasCosts` table of the consensus parameters. For `submitEvidence` and `submitMsg`, and
for `executorCommit` with a verifier that leaves the gas accountant alone, the gas
accountant left by the call is the one the meter leaves after that single charge, so
for `executorCommit` it is the same whatever the batch. -/
theorem unit_gas_charge (app : Application) (ctx : Context) (hmode : ctx.mode ≠ .CheckTx)
    (hparams : app.faults .ConsensusParameters = none) :
    (∀ cc : ExecutorCommit,
      (∃ L, (app.executorCommit ctx cc).2.calls = ctx.calls ++ L ∧
        L.filter Call.isUseGas = [.UseGas 1 .GasOpComputeCommit]) ∧
      ((∀ c rt commit, (app.VerifyExecutorCommitment c rt commit).2 = c.gas) →
        (app.executorCommit ctx cc).2.gas =
          (ctx.UseGas 1 .GasOpComputeCommit ctx.state.consensusParameters.GasCosts).2.gas)) ∧
    (∀ evidence : Evidence, evidence.ValidateBasic app = none →
      (∃ L, (app.submitEvidence ctx evidence).2.calls = ctx.calls ++ L ∧
        L.filter Call.isUseGas = [.UseGas 1 .GasOpEvidence]) ∧
      (app.submitEvidence ctx evidence).2.gas =
        (ctx.UseGas 1 .GasOpEvidence ctx.state.consensusParameters.GasCosts).2.gas) ∧
    (∀ msg : SubmitMsg,
      (∃ L, (app.submitMsg ctx msg).2.calls = ctx.calls ++ L ∧
        L.filter Call.isUseGas = [.UseGas 1 .GasOpSubmitMsg]) ∧
      (app.submitMsg ctx msg).2.gas =
        (ctx.UseGas 1 .GasOpSubmitMsg ctx.state.consensusParameters.GasCosts).2.gas) := by
  refine ⟨fun cc => ⟨?_, ?_⟩, ?_, ?_⟩
  · refine executorCommit_reaches app ctx cc
      (fun r => ∃ L, r.calls = ctx.calls ++ L ∧
        L.filter Call.isUseGas = [.UseGas 1 .GasOpComputeCommit])
      hmode hparams ?_ ?_ ?_ ?_ ?_
    · intro hg
      exact (chargedOnce_out_of_gas ctx _ hg).2
    · intro hg
      exact (chargedOnce_charged ctx _ hg).2
    · rintro c ⟨L, hL, hf⟩
      exact ⟨L ++ [.RuntimeState cc.ID], by simp [Context.call, hL], by simp [hf, Call.isUseGas]⟩
    · rintro c rtState committee pool commits ⟨L, hL, hf⟩
      obtain ⟨-, -, -, -, -, -, -, L2, hL2, hall, -⟩ :=
        verifyAndAdd_frame app rtState committee commits c pool
      refine ⟨L ++ L2, by rw [hL2, hL, List.append_assoc], ?_⟩
      rw [List.filter_append, hf]
      have : L2.filter Call.isUseGas = [] := by
        rw [List.filter_eq_nil_iff]
        intro k hk
        simp [isLoop_not_useGas k (hall k hk)]
      rw [this]
      rfl
    · rintro c rtState prevRank pool ⟨L, hL, hf⟩
      obtain ⟨-, L2, hL2, hf2⟩ := executorCommitTx_noCharge app c rtState prevRank pool cc
      refine ⟨L ++ L2, by rw [hL2, hL, List.append_assoc], ?_⟩
      rw [List.filter_append, hf, hf2]
      rfl
  · intro hverify
    have h : ctx.chargedOnce (app.executorCommit ctx cc).2 .GasOpComputeCommit := by
      refine executorCommit_reaches app ctx cc
        (fun r => ctx.chargedOnce r .GasOpComputeCommit) hmode hparams ?_ ?_ ?_ ?_ ?_
      · exact chargedOnce_out_of_gas ctx _
      · exact chargedOnce_charged ctx _
      · intro c hc
        exact chargedOnce_then hc (noCharge_call _ _ rfl)
      · intro c rtState committee pool commits hc
        exact chargedOnce_then hc
          (verifyAndAdd_noCharge app rtState committee commits hverify c pool)
      · intro c rtState prevRank pool hc
        exact chargedOnce_then hc (executorCommitTx_noCharge app c rtState prevRank pool cc)
    exact h.1
  · intro evidence hvalid
    have h := submitEvidence_chargedOnce app ctx evidence hmode hparams hvalid
    exact ⟨h.2, h.1⟩
  · intro msg
    have h := submitMsg_chargedOnce app ctx msg hmode hparams
    exact ⟨h.2, h.1⟩

theorem unit_gas_charge_witness :
    scenarioCtx.mode ≠ .CheckTx ∧
    (scenarioApp.executorCommit scenarioCtx { ID := 1, Commits := [] }).2.gas.usedGas = 1 ∧
    (scenarioApp.executorCommit scenarioCtx scenarioCommits).2.gas.usedGas = 1 ∧
    (scenarioApp.submitEvidence scenarioCtx scenarioEvidence).2.gas.usedGas = 1 ∧
    (scenarioApp.submitMsg scenarioCtx (scenarioMsg 10)).2.gas.usedGas = 1 :=
  have h := unit_gas_charge scenarioApp scenarioCtx (by decide) rfl
  ⟨by decide,
    congrArg GasAccountant.usedGas ((h.1 { ID := 1, Commits := [] }).2 (fun _ _ _ => rfl)),
    congrArg GasAccountant.usedGas ((h.1 scenarioCommits).2 (fun _ _ _ => rfl)),
    congrArg GasAccountant.usedGas (h.2.1 scenarioEvidence rfl).2,
    congrArg GasAccountant.usedGas (h.2.2 (scenarioMsg 10)).2⟩

end Roothash

namespace Registry

/-! ## Label computation -/

/-- Reading a key just assigned yields the assigned value. -/
theorem GoMap.get_set_self (m : GoMap) (k v : String) : (m.set k v).get k = some v := by
  simp [GoMap.get, GoMap.set]

/-- Looking up a key is not affected by dropping the entries of another key. -/
theorem find_filter_other (k k2 : String) (h : k2 ≠ k) (l : List (String × String)) :
    (l.filter (fun e => decide (e.1 ≠ k))).find? (fun e => decide (e.1 = k2)) =
      l.find? (fun e => decide (e.1 = k2)) := by
  induction l with
  | nil => rfl
  | cons e rest ih =>
    by_cases he : e.1 = k
    · have he2 : ¬ e.1 = k2 := by
        rw [he]
        exact fun x => h x.symm
      rw [List.filter_cons_of_neg (by simpa using he), List.find?_cons_of_neg _ (by simpa using he2)]
      exact ih
    · rw [List.filter_cons_of_pos (by simpa using he)]
      by_cases he2 : e.1 = k2
      · rw [List.find?_cons_of_pos _ (by simpa using he2),
          List.find?_cons_of_pos _ (by simpa using he2)]
      · rw [List.find?_cons_of_neg _ (by simpa using he2),
          List.find?_cons_of_neg _ (by simpa using he2)]
        exact ih

/-- Assigning a key leaves the other keys as they were. -/
theorem GoMap.get_set_other (m : GoMap) (k v k2 : String) (h : k2 ≠ k) :
    (m.set k v).get k2 = m.get k2 := by
  have hk : ¬ k = k2 := fun e => h e.symm
  unfold GoMap.get GoMap.set
  rw [List.find?_cons_of_neg _ (by simpa using hk), find_filter_other k k2 h]

/-- The label computation on a nil request map panics. -/
theorem determineLabels_nil (rh : roflHostHandler) (h : Heap) :
    rh.determineLabels h none = .error (.panic "assignment to entry in nil map") := rfl

/-- The label computation on an allocated request map: the result is a new map, holding
the contents of the request map with the origin set; the maps allocated before are
untouched. -/
theorem determineLabels_allocated (rh : roflHostHandler) (h : Heap) (a : Nat) :
    rh.determineLabels h (some a) =
      .ok (some h.maps.length,
        { maps := h.maps ++ [(h.read a).set rh.LabelOrigin (rh.runtimeID ++ "-" ++ rh.id)] }) := by
  simp [roflHostHandler.determineLabels, mapsClone, mapsCopy, mapAssign, Heap.alloc,
    Heap.write, Heap.read, roflHostHandler.getBundleManagementLabels]

/-- The label computation on an allocated request map overrides the origin, keeps every
other label and leaves the request map as it was. -/
theorem determineLabels_override (rh : roflHostHandler) (h : Heap) (a : Nat)
    (ha : a < h.maps.length) :
    ∃ b h2, rh.determineLabels h (some a) = .ok (some b, h2) ∧
      (h2.read b).get rh.LabelOrigin = some (rh.runtimeID ++ "-" ++ rh.id) ∧
      (∀ k, k ≠ rh.LabelOrigin → (h2.read b).get k = (h.read a).get k) ∧
      h2.read a = h.read a ∧ b ≠ a := by
  refine ⟨_, _, determineLabels_allocated rh h a, ?_, ?_, ?_, ?_⟩
  · simp only [Heap.read, List.getD_eq_getElem?_getD, List.getElem?_append_right (le_refl _)]
    simp [GoMap.get_set_self]
  · intro k hk
    simp only [Heap.read, List.getD_eq_getElem?_getD, List.getElem?_append_right (le_refl _)]
    simp only [Nat.sub_self, List.getElem?_cons_zero, Option.getD_some]
    exact GoMap.get_set_other _ _ _ k hk
  · simp [Heap.read, List.getD_eq_getElem?_getD, List.getElem?_append_left ha]
  · exact Nat.ne_of_gt ha

/-- C23, failing input. A request that carries no labels (a nil label map), sent by a
component that holds the permission, makes each of the six management handlers panic in
its label computation: `maps.Clone` returns nil for the nil map and `maps.Copy` assigns
into it. -/
theorem nil_labels_panic :
    scenarioHandlerA.handleBundleAdd scenarioHeap
        { TemporaryName := "t", ManifestHash := "", Labels := none, Volumes := [] } =
      .error (.panic "assignment to entry in nil map") ∧
    scenarioHandlerA.handleBundleRemove scenarioHeap { Labels := none } =
      .error (.panic "assignment to entry in nil map") ∧
    scenarioHandlerA.handleBundleList scenarioHeap { Labels := none } =
      .error (.panic "assignment to entry in nil map") ∧
    scenarioHandlerA.handleVolumeAdd scenarioHeap { Labels := none } =
      .error (.panic "assignment to entry in nil map") ∧
    scenarioHandlerA.handleVolumeRemove scenarioHeap { Labels := none } =
      .error (.panic "assignment to entry in nil map") ∧
    scenarioHandlerA.handleVolumeList scenarioHeap { Labels := none } =
      .error (.panic "assignment to entry in nil map") :=
  ⟨rfl, rfl, rfl, rfl, rfl, rfl⟩

/-! ## Managed bundle validation -/

/-- The component loop accepts exactly the lists in which every component is of kind
ROFL, has no executable and is not disabled. -/
theorem validateComponents_eq_none (l : List Component) :
    validateComponents l = none ↔
      ∀ comp ∈ l, comp.Kind = .ROFL ∧ comp.Executable = "" ∧ comp.Disabled = false := by
  induction l with
  | nil => simp [validateComponents]
  | cons comp rest ih =>
    simp only [validateComponents, List.mem_cons, forall_eq_or_imp]
    by_cases h1 : comp.Kind = .ROFL
    · by_cases h2 : comp.Executable = ""
      · by_cases h3 : comp.Disabled = true
        · simp [h1, h2, h3]
        · simp [h1, h2, h3, ih]
      · simp [h1, h2]
    · simp [h1]

/-- The component loop returns the error of the first violating component. -/
theorem validateComponents_eq_find (l : List Component) :
    validateComponents l = (l.find? Component.violates).map Component.violation := by
  induction l with
  | nil => rfl
  | cons comp rest ih =>
    simp only [validateComponents, List.find?_cons]
    by_cases h1 : comp.Kind = .ROFL
    · by_cases h2 : comp.Executable = ""
      · by_cases h3 : comp.Disabled = true
        · simp [h1, h2, h3, Component.violates, Component.violation]
        · simp [h1, h2, h3, Component.violates, ih]
      · simp [h1, h2, Component.violates, Component.violation]
    · simp [h1, Component.violates, Component.violation]

/-- C24. `validateManagedBundle` accepts a bundle exactly when its manifest has an empty
`Executable`, a nil `SGX` section, and every component is of kind ROFL, has an empty
`Executable` and is not disabled (so a manifest without components and legacy fields is
accepted); and its result is always the error of the first violation in the order:
manifest-level legacy fields, then, for the components in manifest order, kind, then
executable, then the disabled flag. -/
theorem validateManagedBundle_spec (bnd : Bundle) :
    (validateManagedBundle bnd = none ↔ bnd.managed) ∧
    validateManagedBundle bnd = firstViolation bnd ∧
    (∀ name : String, validateManagedBundle
      { Manifest := { Name := name, Executable := "", SGX := none, Components := [] } } =
        none) := by
  refine ⟨?_, ?_, ?_⟩
  · unfold validateManagedBundle Bundle.managed
    by_cases h : bnd.Manifest.Executable ≠ "" ∨ bnd.Manifest.SGX ≠ none
    · rw [if_pos h]
      constructor
      · intro h0
        cases h0
      · rintro ⟨h1, h2, -⟩
        rcases h with h | h
        · exact absurd h1 h
        · exact absurd h2 h
    · rw [if_neg h, validateComponents_eq_none]
      have h1 : bnd.Manifest.Executable = "" := by
        by_contra hx
        exact h (Or.inl hx)
      have h2 : bnd.Manifest.SGX = none := by
        by_contra hx
        exact h (Or.inr hx)
      exact ⟨fun hc => ⟨h1, h2, hc⟩, fun hm => hm.2.2⟩
  · unfold validateManagedBundle firstViolation
    rw [validateComponents_eq_find]
  · intro name
    rfl

/-! ## Temporary paths -/

/-- A hash in hexadecimal form has 64 characters, none of them a separator or a dot. -/
theorem isHashHex_spec (s : String) (h : isHashHex s = true) :
    s.data.length = 64 ∧ ∀ c ∈ s.data, c ≠ '/' ∧ c ≠ '.' := by
  simp only [isHashHex, Bool.and_eq_true, decide_eq_true_eq, List.all_eq_true] at h
  refine ⟨h.1, ?_⟩
  intro c hc
  have hx := h.2 c hc
  constructor
  · rintro rfl
    revert hx
    decide
  · rintro rfl
    revert hx
    decide

/-- Splitting never yields the empty list of elements. -/
theorem splitSep_ne_nil (l : List Char) : splitSep l ≠ [] := by
  cases l with
  | nil => simp [splitSep]
  | cons c cs =>
    simp only [splitSep]
    split
    · simp
    · split <;> simp

/-- A sequence without separator is a single element. -/
theorem splitSep_no_sep (a : List Char) (h : ∀ c ∈ a, c ≠ '/') : splitSep a = [a] := by
  induction a with
  | nil => rfl
  | cons c cs ih =>
    have hc : c ≠ '/' := h c (List.mem_cons_self _ _)
    have ih2 := ih (fun x hx => h x (List.mem_cons_of_mem _ hx))
    simp [splitSep, hc, ih2]

/-- Splitting at the first separator. -/
theorem splitSep_append (a b : List Char) (h : ∀ c ∈ a, c ≠ '/') :
    splitSep (a ++ '/' :: b) = a :: splitSep b := by
  induction a with
  | nil => simp [splitSep]
  | cons c cs ih =>
    have hc : c ≠ '/' := h c (List.mem_cons_self _ _)
    have ih2 := ih (fun x hx => h x (List.mem_cons_of_mem _ hx))
    simp [splitSep, hc, ih2]

/-- Cleaning a path that never climbs above its start keeps the directory it starts
in: with `dir` at the bottom of the kept elements it stays there. -/
theorem foldl_cleanElem_inside (dir : List Char) :
    ∀ (es S : List (List Char)), staysInside S.length es = true →
      (∀ e ∈ S, e ≠ ['.', '.']) →
      ∃ S2, es.foldl (cleanElem false) (S ++ [dir]) = S2 ++ [dir] ∧
        ∀ e ∈ S2, e ≠ ['.', '.'] := by
  intro es
  induction es with
  | nil =>
    intro S _ hS
    exact ⟨S, rfl, hS⟩
  | cons e es ih =>
    intro S hin hS
    simp only [List.foldl_cons]
    simp only [staysInside] at hin
    by_cases h1 : e = [] ∨ e = ['.']
    · simp only [if_pos h1] at hin
      simp only [cleanElem, if_pos h1]
      exact ih S hin hS
    · simp only [if_neg h1] at hin
      by_cases h2 : e = ['.', '.']
      · simp only [if_pos h2] at hin
        cases S with
        | nil => simp at hin
        | cons top rest =>
          simp only [List.length_cons] at hin
          have htop : top ≠ ['.', '.'] := hS top (List.mem_cons_self _ _)
          have hstep : cleanElem false ((top :: rest) ++ [dir]) e = rest ++ [dir] := by
            simp [cleanElem, h2, htop]
          rw [hstep]
          exact ih rest hin (fun x hx => hS x (List.mem_cons_of_mem _ hx))
      · simp only [if_neg h2] at hin
        have hstep : cleanElem false (S ++ [dir]) e = (e :: S) ++ [dir] := by
          simp [cleanElem, h1, h2]
        rw [hstep]
        refine ih (e :: S) (by simpa using hin) ?_
        intro x hx
        rcases List.mem_cons.mp hx with rfl | hx
        · exact h2
        · exact hS x hx

/-- Joining elements of which the first is `dir` starts with `dir`, followed by nothing
or by a separator. -/
theorem joinSep_cons (dir : List Char) (T : List (List Char)) :
    ∃ rest, joinSep (dir :: T) = dir ++ rest ∧ (rest = [] ∨ rest.head? = some '/') := by
  cases T with
  | nil => exact ⟨[], by simp [joinSep], Or.inl rfl⟩
  | cons t T => exact ⟨'/' :: joinSep (t :: T), by simp [joinSep], Or.inr rfl⟩

/-- The origin of a component, as `getBundleTemporaryPath` reads it from the management
labels. -/
theorem getBundleManagementLabels_origin (rh : roflHostHandler) :
    (rh.getBundleManagementLabels.get rh.LabelOrigin).getD "" =
      rh.runtimeID ++ "-" ++ rh.id := by
  simp [roflHostHandler.getBundleManagementLabels, GoMap.get]

/-- Joining a hash directory with a name that never climbs above its start yields a
path that starts with the directory, followed by nothing or by a separator. -/
theorem Join_inside (dir name : String) (hdir : isHashHex dir = true)
    (hin : staysInside 0 (splitSep name.data) = true) :
    ∃ rest, (Join [dir, name]).data = dir.data ++ rest ∧
      (rest = [] ∨ rest.head? = some '/') := by
  obtain ⟨hlen, hchars⟩ := isHashHex_spec dir hdir
  have hne : dir ≠ "" := by
    intro h
    rw [h] at hlen
    simp at hlen
  have hsep : ∀ c ∈ dir.data, c ≠ '/' := fun c hc => (hchars c hc).1
  have hd0 : dir.data ≠ [] := by
    intro h
    rw [h] at hlen
    simp at hlen
  have hd1 : dir.data ≠ ['.'] := by
    intro h
    rw [h] at hlen
    simp at hlen
  have hd2 : dir.data ≠ ['.', '.'] := by
    intro h
    rw [h] at hlen
    simp at hlen
  have hjoin : joinSep ([dir, name].map String.data) = dir.data ++ '/' :: name.data := by
    simp [joinSep]
  have hp : (String.mk (dir.data ++ '/' :: name.data)) ≠ "" := by
    intro h
    have := congrArg String.data h
    simp at this
  have hrooted : decide ((String.mk (dir.data ++ '/' :: name.data)).data.head? = some '/')
      = false := by
    cases hdd : dir.data with
    | nil => exact absurd hdd hd0
    | cons c cs =>
      have hc : c ≠ '/' := hsep c (by rw [hdd]; exact List.mem_cons_self _ _)
      simp [hc]
  have hfirst : cleanElem false [] dir.data = [dir.data] := by
    simp [cleanElem, hd0, hd1, hd2]
  obtain ⟨S2, hS2, -⟩ := foldl_cleanElem_inside dir.data (splitSep name.data) [] hin
    (by simp)
  have hout : (splitSep (dir.data ++ '/' :: name.data)).foldl (cleanElem false) [] =
      S2 ++ [dir.data] := by
    rw [splitSep_append _ _ hsep, List.foldl_cons, hfirst]
    exact hS2
  have hclean : Clean (String.mk (dir.data ++ '/' :: name.data)) =
      String.mk (joinSep (dir.data :: S2.reverse)) := by
    unfold Clean
    rw [if_neg hp]
    simp only [hrooted, hout]
    simp
  obtain ⟨rest, hrest, hform⟩ := joinSep_cons dir.data S2.reverse
  refine ⟨rest, ?_, hform⟩
  simp only [Join, if_neg hne, hjoin, hclean]
  exact hrest

/-- C25, counterexample. With two components whose origin hashes differ, the temporary
name `../x` yields the path `x`, whose first element is not the hash of the origin (and
`handleBundleWrite` hands that path to the bundle manager), and a name that climbs out
and into the directory of the other component yields the very path the other component
gets for `f`. -/
theorem temporary_path_escapes :
    isHashHex (scenarioHandlerA.hashHex "rt-a") = true ∧
    isHashHex (scenarioHandlerB.hashHex "rt-b") = true ∧
    scenarioHandlerA.hashHex "rt-a" ≠ scenarioHandlerB.hashHex "rt-b" ∧
    scenarioHandlerA.getBundleTemporaryPath "../x" = "x" ∧
    (splitSep (scenarioHandlerA.getBundleTemporaryPath "../x").data).head? ≠
      some (scenarioHandlerA.hashHex "rt-a").data ∧
    scenarioHandlerA.handleBundleWrite { TemporaryName := "../x", Create := true, Data := [] } =
      .ok "x" ∧
    scenarioHandlerA.getBundleTemporaryPath
        ("../" ++ scenarioHandlerB.hashHex "rt-b" ++ "/f") =
      scenarioHandlerB.getBundleTemporaryPath "f" := by
  refine ⟨?_, ?_, ?_, ?_, ?_, rfl, ?_⟩ <;> decide

/-- C25, amended. When the hash of the origin is a 64-character hexadecimal string and
the temporary name never climbs above the directory it starts in (no prefix of its
elements has more `..` elements than named ones), the first element of the path
returned by `getBundleTemporaryPath` is the hash of the origin; and for another
component and name under the same conditions, different origin hashes give different
paths. -/
theorem temporary_path_inside (rh : roflHostHandler) (tmpName : String)
    (hhash : isHashHex (rh.hashHex (rh.runtimeID ++ "-" ++ rh.id)) = true)
    (hin : staysInside 0 (splitSep tmpName.data) = true) :
    (splitSep (rh.getBundleTemporaryPath tmpName).data).head? =
      some (rh.hashHex (rh.runtimeID ++ "-" ++ rh.id)).data ∧
    ∀ (rh2 : roflHostHandler) (tmpName2 : String),
      isHashHex (rh2.hashHex (rh2.runtimeID ++ "-" ++ rh2.id)) = true →
      staysInside 0 (splitSep tmpName2.data) = true →
      rh.hashHex (rh.runtimeID ++ "-" ++ rh.id) ≠
        rh2.hashHex (rh2.runtimeID ++ "-" ++ rh2.id) →
      rh.getBundleTemporaryPath tmpName ≠ rh2.getBundleTemporaryPath tmpName2 := by
  have hpath : ∀ (r : roflHostHandler) (n : String),
      r.getBundleTemporaryPath n = Join [r.hashHex (r.runtimeID ++ "-" ++ r.id), n] := by
    intro r n
    simp only [roflHostHandler.getBundleTemporaryPath, getBundleManagementLabels_origin]
  obtain ⟨rest, hrest, hform⟩ := Join_inside _ tmpName hhash hin
  obtain ⟨hlen, hchars⟩ := isHashHex_spec _ hhash
  have hsep : ∀ c ∈ (rh.hashHex (rh.runtimeID ++ "-" ++ rh.id)).data, c ≠ '/' :=
    fun c hc => (hchars c hc).1
  constructor
  · rw [hpath, hrest]
    rcases hform with rfl | hform
    · rw [List.append_nil, splitSep_no_sep _ hsep]
      rfl
    · cases rest with
      | nil => simp at hform
      | cons c r =>
        simp only [List.head?_cons, Option.some.injEq] at hform
        subst hform
        rw [splitSep_append _ _ hsep]
        rfl
  · intro rh2 tmpName2 hhash2 hin2 hne heq
    obtain ⟨rest2, hrest2, -⟩ := Join_inside _ tmpName2 hhash2 hin2
    obtain ⟨hlen2, -⟩ := isHashHex_spec _ hhash2
    rw [hpath, hpath] at heq
    have hdata := congrArg String.data heq
    rw [hrest, hrest2] at hdata
    have := (List.append_inj hdata (by rw [hlen, hlen2])).1
    exact hne (String.ext this)

theorem temporary_path_inside_witness :
    isHashHex (scenarioHandlerA.hashHex "rt-a") = true ∧
    staysInside 0 (splitSep "sub/../bundle.orc".data) = true ∧
    (splitSep (scenarioHandlerA.getBundleTemporaryPath "sub/../bundle.orc").data).head? =
      some (scenarioHandlerA.hashHex "rt-a").data ∧
    scenarioHandlerA.getBundleTemporaryPath "sub/../bundle.orc" ≠
      scenarioHandlerB.getBundleTemporaryPath "bundle.orc" :=
  ⟨by decide, by decide,
    (temporary_path_inside scenarioHandlerA "sub/../bundle.orc" (by decide) (by decide)).1,
    (temporary_path_inside scenarioHandlerA "sub/../bundle.orc" (by decide) (by decide)).2
      scenarioHandlerB "bundle.orc" (by decide) (by decide) (by decide)⟩

end Registry
